import Mathlib

/-!
The serviced node agent: virtual-IP alias allocation, the host watcher, the instance
supervisor's switch and the container calls.

Shallow embedding of `zzk/virtualips/virtualips.go`, `agent.go` and
`node/container.go`.  Go `(value, error)` results are `Except`, a nil `error` is
`none`; loops with a constant bound are structural recursions on the remaining
iteration count; what a goroutine receives from its channels and from the coordination
store is an explicit list of inputs.
-/

namespace Serviced

deriving instance DecidableEq for Except

/-! ## zzk/virtualips/virtualips.go -/

/-- The record `pool.VirtualIP`: all five fields are Go strings. -/
structure VirtualIP where
  PoolID : String
  IP : String
  Netmask : String
  BindInterface : String
  InterfaceIndex : String
deriving DecidableEq, Repr

/-- The constant `virtualInterfacePrefix` (virtualips.go:21). -/
def virtualInterfacePrefix : String := ":zvip"

/-- The function `strconv.Itoa` on the non-negative loop counter. -/
def Itoa (n : Nat) : String := Nat.repr n

/-- The function `generateInterfaceName` (virtualips.go:43-53). -/
def generateInterfaceName (virtualIP : VirtualIP) : Except String String :=
  if virtualIP.BindInterface = "" then
    .error ("generateInterfaceName failed as virtual IP: " ++ virtualIP.IP ++
      " has no Bind Interface.")
  else if virtualIP.InterfaceIndex = "" then
    .error ("generateInterfaceName failed as Virtual IP: " ++ virtualIP.IP ++
      " has no Index.")
  else
    .ok (virtualIP.BindInterface ++ virtualInterfacePrefix ++ virtualIP.InterfaceIndex)

/-- The inner `range interfaceMap` loop of `determineVirtualInterfaceIndex`
(virtualips.go:68-79): `.ok b` is the final value of
`proposedInterfaceNameIsAcceptable`, `.error` the early `return "", err`. -/
def proposedInterfaceNameIsAcceptable (proposedInterfaceName : String) :
    List VirtualIP → Except String Bool
  | [] => .ok true
  | currentVirtualInterface :: rest =>
    match generateInterfaceName currentVirtualInterface with
    | .error err => .error err
    | .ok currentInterfaceName =>
      if proposedInterfaceName = currentInterfaceName then .ok false
      else proposedInterfaceNameIsAcceptable proposedInterfaceName rest

/-- The outer loop of `determineVirtualInterfaceIndex` (virtualips.go:61-88) with
`remaining = maxIndex - interfaceIndex` iterations left. -/
def determineLoop (virtualIPToAdd : VirtualIP) (interfaceMap : List VirtualIP)
    (maxIndex : Nat) : (remaining : Nat) → (interfaceIndex : Nat) → Except String String
  | 0, _ =>
    .error ("There are over " ++ Itoa maxIndex ++
      " virtual IP interfaces. Could not generate index.")
  | remaining + 1, interfaceIndex =>
    match generateInterfaceName
        { virtualIPToAdd with InterfaceIndex := Itoa interfaceIndex } with
    | .error err => .error err
    | .ok proposedInterfaceName =>
      match proposedInterfaceNameIsAcceptable proposedInterfaceName interfaceMap with
      | .error err => .error err
      | .ok true => .ok (Itoa interfaceIndex)
      | .ok false =>
        determineLoop virtualIPToAdd interfaceMap maxIndex remaining (interfaceIndex + 1)

/-- The function `determineVirtualInterfaceIndex` (virtualips.go:57-89). -/
def determineVirtualInterfaceIndex (virtualIPToAdd : VirtualIP)
    (interfaceMap : List VirtualIP) : Except String String :=
  determineLoop virtualIPToAdd interfaceMap 100 100 0

/-- The name `BindInterface:zvip<n>` proposed for index `n`. -/
def proposedName (virtualIP : VirtualIP) (n : Nat) : String :=
  virtualIP.BindInterface ++ virtualInterfacePrefix ++ Itoa n

/-- Every entry has a non-empty `BindInterface` and a non-empty `InterfaceIndex`. -/
def NonEmptyFields (interfaceMap : List VirtualIP) : Prop :=
  ∀ e ∈ interfaceMap, e.BindInterface ≠ "" ∧ e.InterfaceIndex ≠ ""

/-- The name is the generated name of some entry of the map. -/
def Taken (interfaceMap : List VirtualIP) (name : String) : Prop :=
  ∃ e ∈ interfaceMap, generateInterfaceName e = .ok name


instance (interfaceMap : List VirtualIP) : Decidable (NonEmptyFields interfaceMap) := by
  unfold NonEmptyFields
  infer_instance

/-- The string holds the separator `:zvip` somewhere. -/
def hasSeparator (s : String) : Prop :=
  virtualInterfacePrefix.data <:+: s.data

instance (s : String) : Decidable (hasSeparator s) := by
  unfold hasSeparator
  infer_instance

/-- A well-formed interface map, as `createVirtualInterfaceMap` (virtualips.go:92-123)
builds it from alias names `<bind>:zvip<index>`: it splits each name at `:zvip` and
insists on exactly two parts, so neither part holds the separator; and both parts are
non-empty, as `generateInterfaceName` requires. -/
def WellFormedMap (interfaceMap : List VirtualIP) : Prop :=
  ∀ e ∈ interfaceMap, (e.BindInterface ≠ "" ∧ e.InterfaceIndex ≠ "") ∧
    (¬ hasSeparator e.BindInterface ∧ ¬ hasSeparator e.InterfaceIndex)

instance (interfaceMap : List VirtualIP) : Decidable (WellFormedMap interfaceMap) := by
  unfold WellFormedMap
  infer_instance

/-- The entries of the map that sit on the same base interface as the virtual IP. -/
def sameBase (virtualIP : VirtualIP) (interfaceMap : List VirtualIP) : List VirtualIP :=
  interfaceMap.filter (fun e => e.BindInterface = virtualIP.BindInterface)

/-- A virtual IP to be bound on `eth0`. -/
def vipEth0 : VirtualIP := ⟨"default", "10.0.0.5", "255.255.255.0", "eth0", ""⟩

/-- Three aliases: `eth0:zvip0`, `eth0:zvip1` and `eth1:zvip2`. -/
def mapEth : List VirtualIP :=
  [⟨"", "10.0.0.1", "", "eth0", "0"⟩, ⟨"", "10.0.0.2", "", "eth0", "1"⟩,
   ⟨"", "10.0.0.3", "", "eth1", "2"⟩]

/-- A virtual IP whose base interface is written `eth0:zvip0`. -/
def vipNested : VirtualIP := ⟨"default", "10.0.0.5", "255.255.255.0", "eth0:zvip0", ""⟩

/-- One hundred aliases, all on base interface `eth0`, with indices `0:zvip0 .. 0:zvip99`. -/
def mapNested : List VirtualIP :=
  (List.range 100).map (fun n => ⟨"", "", "", "eth0", "0:zvip" ++ Itoa n⟩)

/-! ## agent.go: the host watcher -/

/-- The struct `stateResult` (agent.go:622-625); a nil `err` is `none`. -/
structure stateResult where
  id : String
  err : Option String
deriving DecidableEq, Repr

/-- The Go map `processing : map[string]chan int` as an association list from child
name to the channel stored for it.  The only write to the map (agent.go:636) stores a
channel fresh from `make(chan int, 1)`; channels are numbered in creation order, and
nil is what a missing key reads as. -/
abbrev Processing := List (String × Nat)

/-- The map read `processing[childName]`; `none` is the nil a missing key reads as. -/
def mapGet (processing : Processing) (childName : String) : Option Nat :=
  processing.lookup childName

/-- The builtin `delete(processing, id)`. -/
def mapDelete (processing : Processing) (id : String) : Processing :=
  processing.filter (fun kv => kv.1 ≠ id)

/-- The map write `processing[childName] = childChannel`. -/
def mapSet (processing : Processing) (childName : String) (childChannel : Nat) :
    Processing :=
  (childName, childChannel) :: mapDelete processing childName

/-- One executed statement `go a.processServiceState(conn, childChannel, ssDone,
childName)` (agent.go:637). -/
structure Spawn where
  childName : String
  childChannel : Nat
deriving DecidableEq, Repr

/-- State of the host watcher's loop: the map, the number of channels made so far, and
the log of `go` statements executed (oldest first). -/
structure Watcher where
  processing : Processing
  nextChan : Nat
  spawned : List Spawn
deriving DecidableEq, Repr

/-- The method `HostAgent.startMissingChildren` (agent.go:630-641). -/
def startMissingChildren : List String → Watcher → Watcher
  | [], w => w
  | childName :: rest, w =>
    if mapGet w.processing childName = none then
      let childChannel := w.nextChan
      startMissingChildren rest
        { processing := mapSet w.processing childName childChannel
          nextChan := w.nextChan + 1
          spawned := w.spawned ++ [⟨childName, childChannel⟩] }
    else
      startMissingChildren rest w

/-- The receive loop of `waitForSsNodes` (agent.go:650-659) over the results that arrive
on `ssResultChan`: `none` when the map is still non-empty after the last result (the
loop blocks), otherwise the named result `err`, the map and the results not consumed. -/
def waitLoop : Processing → Option String → List stateResult →
    Option (Option String × Processing × List stateResult)
  | processing, err, [] =>
    if processing.length > 0 then none else some (err, processing, [])
  | processing, err, ssResult :: rest =>
    if processing.length > 0 then
      waitLoop (mapDelete processing ssResult.id)
        (if err = none ∧ ssResult.err ≠ none then ssResult.err else err) rest
    else some (err, processing, ssResult :: rest)

/-- What `waitForSsNodes` did: the `shutdown <- 1` sends, the error returned, the map at
return and the results left on the channel. -/
structure WaitResult where
  signalled : List (String × Nat)
  err : Option String
  processing : Processing
  unread : List stateResult
deriving DecidableEq, Repr

/-- The function `waitForSsNodes` (agent.go:643-662); `none` when it never returns. -/
def waitForSsNodes (processing : Processing) (ssResultChan : List stateResult) :
    Option WaitResult :=
  match waitLoop processing none ssResultChan with
  | none => none
  | some (err, processing1, unread) =>
    some { signalled := processing, err := err, processing := processing1, unread := unread }

/-- Which case of the `select` in `processChildrenAndWait` (agent.go:680-694) fires:
the shutdown request together with the results that then arrive on `ssDone`, one
result from `ssDone`, or the watch event. -/
inductive SelectCase
  | closing (ssDone : List stateResult)
  | ssDone (ssResult : stateResult)
  | zkEvent
deriving DecidableEq, Repr

/-- One iteration's input: the outcome of `conn.ChildrenW(hostPath)` and, when it
succeeds, the case of the `select` that fires. -/
inductive WatchInput
  | childrenErr (err : String)
  | children (names : List String) (sel : SelectCase)
deriving DecidableEq, Repr

/-- What one call of `processChildrenAndWait` did.  The field `result` is the value
returned, `none` when the call is still blocked after the last input; `errc` is the
value sent on the shutdown request's reply channel. -/
structure WatchOutcome where
  result : Option Bool
  watcher : Watcher
  signalled : List (String × Nat)
  errc : Option (Option String)
deriving DecidableEq, Repr

/-- The `for` loop of `processChildrenAndWait` (agent.go:670-695). -/
def watchLoop : Watcher → List WatchInput → WatchOutcome
  | w, [] => { result := none, watcher := w, signalled := [], errc := none }
  | w, .childrenErr _ :: _ =>
    { result := some true, watcher := w, signalled := [], errc := none }
  | w, .children names sel :: rest =>
    let w1 := startMissingChildren names w
    match sel with
    | .closing results =>
      match waitForSsNodes w1.processing results with
      | none => { result := none, watcher := w1, signalled := w1.processing, errc := none }
      | some r =>
        { result := some false
          watcher := { w1 with processing := r.processing }
          signalled := r.signalled
          errc := some r.err }
    | .ssDone ssResult =>
      watchLoop { w1 with processing := mapDelete w1.processing ssResult.id } rest
    | .zkEvent => watchLoop w1 rest

/-- The method `HostAgent.processChildrenAndWait` (agent.go:664-696): `processing` starts
as a new empty map; `nextChan` only numbers the channels made. -/
def processChildrenAndWait (nextChan : Nat) (inputs : List WatchInput) : WatchOutcome :=
  watchLoop { processing := [], nextChan := nextChan, spawned := [] } inputs

/-- One pass of the wrapping function in `HostAgent.start` (agent.go:586-615): the
connection attempt fails, the shutdown request arrives before the connect event, or
the session is connected and `processChildrenAndWait` runs on the given inputs. -/
inductive Session
  | connectFailed
  | shutdownBeforeConnect
  | connected (inputs : List WatchInput)
deriving DecidableEq, Repr

/-- The outer loop of `HostAgent.start` (agent.go:584-619): the outcomes of the calls of
`processChildrenAndWait`, in order; the loop goes on while `keepGoing` is true. -/
def start : Nat → List Session → List WatchOutcome
  | _, [] => []
  | nextChan, .connectFailed :: rest => start nextChan rest
  | _, .shutdownBeforeConnect :: _ => []
  | nextChan, .connected inputs :: rest =>
    let o := processChildrenAndWait nextChan inputs
    match o.result with
    | some true => o :: start o.watcher.nextChan rest
    | _ => [o]

/-! ## agent.go: the instance supervisor -/

/-- Modelled from the spec: the type of `hss.DesiredState` and the constants
`dao.SVC_RUN`, `dao.SVC_STOP` are declared outside the sources at hand; the data model
gives `desired_state ∈ {run, stop, pause, resume, restart}`. -/
inductive DesiredState
  | run | stop | pause | resume | restart
deriving DecidableEq, Repr

/-- A `time.Time` as far as the supervisor reads it: its `Year()`. -/
structure Time where
  Year : Int
deriving DecidableEq, Repr

/-- The fields of `dao.ServiceState` read by the supervisor's switch. -/
structure ServiceState where
  Id : String
  ServiceId : String
  HostId : String
  Started : Time
  Terminated : Time
deriving DecidableEq, Repr

/-- The struct `zzk.HostServiceState` as far as it is read in agent.go. -/
structure HostServiceState where
  HostId : String
  ServiceId : String
  ServiceStateId : String
  DesiredState : DesiredState
deriving DecidableEq, Repr

/-- The call made by the `switch` of `processServiceState` (agent.go:745-775). -/
inductive SwitchCall
  | terminateAttached
  | terminateInstance
  | idle
  | startService
  | attachToService
  | unhandled
deriving DecidableEq, Repr

/-- The `switch` of `processServiceState` (agent.go:745-775).  In the third case Go
parses `a && b || c` as `(a && b) || c`. -/
def processServiceStateSwitch (attached : Bool) (hss : HostServiceState)
    (ss : ServiceState) : SwitchCall :=
  if hss.DesiredState = DesiredState.stop then
    if attached then .terminateAttached else .terminateInstance
  else if attached then .idle
  else if (hss.DesiredState = DesiredState.run ∧ ss.Started.Year ≤ 1) ∨
      ss.Terminated.Year > 2 then .startService
  else if ss.Started.Year > 1 ∧ ss.Terminated.Year ≤ 1 then .attachToService
  else .unhandled

/-! ## agent.go: `markTerminated` -/

/-- Modelled from the spec: the coordination store client is outside the sources at
hand.  A store holds znodes by path, each with a version. -/
abbrev Store := List (String × Nat)

/-- Modelled from the spec: `get(path) → (payload, version)`, failing with `NotFound`
on a missing node; only the version is read by `markTerminated`. -/
def Store.Get (store : Store) (path : String) : Except String Nat :=
  match store.lookup path with
  | some version => .ok version
  | none => .error "zk: node does not exist"

/-- Modelled from the spec: `delete(path, version)`; it fails on a missing node and on a
stale version. -/
def Store.Delete (store : Store) (path : String) (version : Nat) : Except String Store :=
  match store.lookup path with
  | none => .error "zk: node does not exist"
  | some v =>
    if v = version then .ok (store.filter (fun kv => kv.1 ≠ path))
    else .error "zk: version conflict"

/-- Whether a znode exists at the path. -/
def Store.Exists (store : Store) (path : String) : Bool :=
  (store.lookup path).isSome

/-- Modelled from the spec: `zzk.ServiceStatePath` is outside the sources at hand; the
observed-state znode is `/services/<service_id>/states/<ssid>`. -/
def ServiceStatePath (serviceId serviceStateId : String) : String :=
  "/services/" ++ serviceId ++ "/states/" ++ serviceStateId

/-- Modelled from the spec: `zzk.HostServiceStatePath` is outside the sources at hand;
the desired-state znode is `/hosts/<host_id>/instances/<ssid>`. -/
def HostServiceStatePath (hostId serviceStateId : String) : String :=
  "/hosts/" ++ hostId ++ "/instances/" ++ serviceStateId

/-- The function `markTerminated` (agent.go:140-163): the store it leaves behind. -/
def markTerminated (conn : Store) (hss : HostServiceState) : Store :=
  let ssPath := ServiceStatePath hss.ServiceId hss.ServiceStateId
  match conn.Get ssPath with
  | .error _ => conn
  | .ok version =>
    match conn.Delete ssPath version with
    | .error _ => conn
    | .ok conn1 =>
      let hssPath := HostServiceStatePath hss.HostId hss.ServiceStateId
      match conn1.Get hssPath with
      | .error _ => conn1
      | .ok version1 =>
        match conn1.Delete hssPath version1 with
        | .error _ => conn1
        | .ok conn2 => conn2

/-! ## node/container.go -/

/-- Errors of the container runtime as `StopContainer` and `AttachContainer` tell them
apart: the sentinel `docker.ErrNoSuchContainer`, a value of type
`*dockerclient.ContainerNotRunning`, and any other error. -/
inductive DockerError
  | ErrNoSuchContainer
  | ContainerNotRunning (id : String)
  | other (msg : String)
deriving DecidableEq, Repr

/-- A `*docker.Container` handle as far as it is read here. -/
structure Container where
  ID : String
  Name : String
deriving DecidableEq, Repr

/-- A `time.Duration`, in nanoseconds. -/
abbrev Duration := Nat

/-- The constant `time.Second`. -/
def Second : Duration := 1000000000

/-- The container runtime behind package `docker`, which is outside the sources at hand:
what each call answers.  A nil error is `none`. -/
structure Docker where
  FindContainer : String → Except DockerError Container
  Stop : Container → Duration → Option DockerError
  Kill : Container → Option DockerError
  Delete : Container → Bool → Option DockerError
  IsRunning : Container → Bool

/-- The calls made on the container runtime, in order. -/
inductive DockerCall
  | FindContainer (name : String)
  | Stop (id : String) (timeout : Duration)
  | Kill (id : String)
  | Delete (id : String) (removeVolumes : Bool)
  | OnEventDie (id : String)
  | IsRunning (id : String)
  | CancelOnEventDie (id : String)
deriving DecidableEq, Repr

/-- The container name `fmt.Sprintf("%s-%d", serviceID, instanceID)`. -/
def ctrName (serviceID : String) (instanceID : Int) : String :=
  serviceID ++ "-" ++ toString instanceID

/-- The method `HostAgent.StopContainer` (container.go:33-60): the error returned and the
runtime calls made. -/
def StopContainer (docker : Docker) (serviceID : String) (instanceID : Int) :
    Option DockerError × List DockerCall :=
  let name := ctrName serviceID instanceID
  match docker.FindContainer name with
  | .error .ErrNoSuchContainer => (none, [.FindContainer name])
  | .error err => (some err, [.FindContainer name])
  | .ok ctr =>
    let calls := [DockerCall.FindContainer name, .Stop ctr.ID (45 * Second)]
    match docker.Stop ctr (45 * Second) with
    | some (.ContainerNotRunning _) => (none, calls)
    | some err => (some err, calls)
    | none => (none, calls)

/-- The channel `ev` made by `monitorContainer`, named after the container whose `Die`
event it reports. -/
structure MonitorChan where
  containerID : String
deriving DecidableEq, Repr

/-- The method `HostAgent.monitorContainer` (container.go:322-367) up to its return: it
makes the channel and registers the `Die` callback. -/
def monitorContainer (ctr : Container) : MonitorChan × List DockerCall :=
  (⟨ctr.ID⟩, [.OnEventDie ctr.ID])

/-- What `AttachContainer` returns and the runtime calls it made. -/
structure AttachResult where
  ev : Option MonitorChan
  err : Option DockerError
  calls : List DockerCall
deriving DecidableEq, Repr

/-- The method `HostAgent.AttachContainer` (container.go:64-103). -/
def AttachContainer (docker : Docker) (containerID serviceID : String) (instanceID : Int) :
    AttachResult :=
  let name := ctrName serviceID instanceID
  match docker.FindContainer name with
  | .error .ErrNoSuchContainer => { ev := none, err := none, calls := [.FindContainer name] }
  | .error err => { ev := none, err := some err, calls := [.FindContainer name] }
  | .ok ctr =>
    if ctr.ID ≠ containerID then
      let calls := [DockerCall.FindContainer name, .Kill ctr.ID, .Delete ctr.ID true]
      match docker.Delete ctr true with
      | some err => { ev := none, err := some err, calls := calls }
      | none => { ev := none, err := none, calls := calls }
    else
      let (ev, monitorCalls) := monitorContainer ctr
      if ¬ docker.IsRunning ctr then
        { ev := none, err := none
          calls := [DockerCall.FindContainer name] ++ monitorCalls ++
            [.IsRunning ctr.ID, .CancelOnEventDie ctr.ID] }
      else
        { ev := some ev, err := none
          calls := [DockerCall.FindContainer name] ++ monitorCalls ++ [.IsRunning ctr.ID] }

/-- A runtime holding one container, named `s1-0` with ID `B`; stopping it answers
`stopAnswer`, deleting it `deleteAnswer`. -/
def dockerOne (stopAnswer deleteAnswer : Option DockerError) (running : Bool) : Docker where
  FindContainer name :=
    if name = "s1-0" then .ok ⟨"B", "s1-0"⟩ else .error .ErrNoSuchContainer
  Stop _ _ := stopAnswer
  Kill _ := none
  Delete _ _ := deleteAnswer
  IsRunning _ := running

/-! ## Concrete inputs -/

/-- Two sessions: in the first `i1` is listed, the watch fires, then `ChildrenW` fails;
in the second `i1` is listed again.  No supervisor reports a result in either. -/
def sessionsLost : List Session :=
  [.connected [.children ["i1"] .zkEvent, .childrenErr "zk: session has been expired"],
   .connected [.children ["i1"] .zkEvent]]

/-- One iteration: `i1` is listed, the shutdown request arrives, `i1` reports. -/
def inputsShutdown : List WatchInput :=
  [.children ["i1"] (.closing [⟨"i1", none⟩])]

/-- The desired state of instance `i1` of service `s1` on host `h1`. -/
def hssOf (desired : DesiredState) : HostServiceState := ⟨"h1", "s1", "i1", desired⟩

/-- An observed state whose container ran and terminated in 2014. -/
def ssTerminated : ServiceState := ⟨"i1", "s1", "h1", ⟨2014⟩, ⟨2014⟩⟩

/-- A store that holds the desired-state znode of `i1` and no observed-state znode. -/
def storeDesiredOnly : Store := [("/hosts/h1/instances/i1", 3)]

/-! ## Go string functions used by the agent -/

/-- The pieces of a character list between the occurrences of a separator character;
an empty list gives one empty piece. -/
def splitChars (sep : Char) : List Char → List (List Char)
  | [] => [[]]
  | c :: cs =>
    if c = sep then [] :: splitChars sep cs
    else
      match splitChars sep cs with
      | [] => [[c]]
      | piece :: pieces => (c :: piece) :: pieces

/-- The function `strings.Split(s, sep)` for a separator of one character, which is what
every call at hand passes. -/
def Split (s : String) (sep : Char) : List String :=
  (splitChars sep s.data).map String.mk

/-- The pieces put together again with the separator between them. -/
def joinChars (sep : List Char) : List (List Char) → List Char
  | [] => []
  | [piece] => piece
  | piece :: rest => piece ++ sep ++ joinChars sep rest

/-- The function `strings.Join(elems, sep)`. -/
def Join (elems : List String) (sep : String) : String :=
  String.mk (joinChars sep.data (elems.map String.data))

/-- The function `strings.Replace(s, old, new, -1)` for an `old` of one character: every
occurrence is replaced. -/
def Replace (s : String) (old : Char) (new : String) : String :=
  String.mk (s.data.flatMap (fun c => if c = old then new.data else [c]))

/-! ## node/container.go: the `Die` callback -/

/-- A `time.Time` instant counted from Go's zero time, so that `IsZero` is `= 0`. -/
abbrev Instant := Nat

/-- The fields of `dctr.State` read by the callback. -/
structure DockerState where
  ExitCode : Int
  FinishedAt : Instant
deriving DecidableEq, Repr

/-- What the runtime and the clock answer while the `Die` callback runs: `ctr.Inspect()`,
whether `log.GetLevel() == log.DebugLevel`, the combined output and error of
`docker logs --tail <n> <id>`, `ctr.Delete(true)` and `time.Now()`. -/
structure DieEnv where
  Inspect : Except String DockerState
  debugLevel : Bool
  dockerLogs : Nat → String → String × Option String
  Delete : Bool → Option DockerError
  now : Instant

/-- What the `Die` callback does, in order.  `Panic` is the run-time panic of a slice
out of range; `Close` is the deferred `close(ev)`. -/
inductive DieAction
  | Inspect
  | DockerLogs (tail : Nat) (id : String)
  | Warn (output : String)
  | Info (output : String)
  | Delete (id : String) (removeVolumes : Bool)
  | Send (t : Instant)
  | Panic
  | Close
deriving DecidableEq, Repr

/-- The loop `for i, s := range split { split[i] = prefix + s }` (container.go:346-348). -/
def prefixLines (pre : String) : List String → List String
  | [] => []
  | s :: rest => (pre ++ s) :: prefixLines pre rest

/-- The text logged as the last lines of the container (container.go:344-349), given the
prefix and the captured output. -/
def lastLines (pre output : String) : String :=
  Join (prefixLines pre (Split output '\n')) "\n"

/-- The callback registered by `monitorContainer` for the `Die` event
(container.go:324-365).  Container IDs are strings of ASCII digits and letters, so the
byte slice `ctr.ID[0:5]` is the first five characters; it panics on a shorter ID. -/
def dieCallback (env : DieEnv) (ctr : Container) : List DieAction :=
  match env.Inspect with
  | .error _ => [.Inspect, .Send env.now, .Close]
  | .ok state =>
    let send : List DieAction :=
      [.Delete ctr.ID true,
        .Send (if state.FinishedAt ≠ 0 then state.FinishedAt else env.now), .Close]
    if state.ExitCode ≠ 0 ∨ env.debugLevel = true then
      match env.dockerLogs 10000 ctr.ID with
      | (output, some _) => [.Inspect, .DockerLogs 10000 ctr.ID, .Warn output] ++ send
      | (output, none) =>
        if ctr.ID.length < 5 then [.Inspect, .DockerLogs 10000 ctr.ID, .Panic, .Close]
        else
          [.Inspect, .DockerLogs 10000 ctr.ID,
            .Info (lastLines ("ctr-" ++ ctr.ID.take 5 ++ ": ") output)] ++ send
    else [DieAction.Inspect] ++ send

/-- A dead container `0123456789ab` whose inspect fails. -/
def dieEnvInspectFails : DieEnv where
  Inspect := .error "no such container"
  debugLevel := false
  dockerLogs _ _ := ("", none)
  Delete _ := none
  now := 1700000000

/-- A container that exited with code 1 at instant 1600000000, with two lines of log. -/
def dieEnvExit1 : DieEnv where
  Inspect := .ok ⟨1, 1600000000⟩
  debugLevel := false
  dockerLogs _ _ := ("boot\nfailed", none)
  Delete _ := none
  now := 1700000000

/-- The container handle `0123456789ab`, named `s1-0`. -/
def ctrDead : Container := ⟨"0123456789ab", "s1-0"⟩

/-! ## agent.go: `startService` -/

/-- Modelled from the spec: the constant `commons.UDP` is declared outside the sources at
hand; the data model gives `protocol ∈ {tcp, udp}`. -/
def UDP : String := "udp"

/-- The address assignment of an endpoint, what `endpoint.GetAssignment()` points to. -/
structure AddressAssignment where
  IPAddr : String
  Port : Nat
deriving DecidableEq, Repr

/-- The fields of `dao.ServiceEndpoint` read by the agent; `Assignment` is the answer of
`GetAssignment()`, `none` for nil. -/
structure ServiceEndpoint where
  Name : String
  Application : String
  Purpose : String
  Protocol : String
  PortNumber : Nat
  Assignment : Option AddressAssignment
deriving DecidableEq, Repr

/-- The fields of `dao.Volume` read by the agent. -/
structure Volume where
  Owner : String
  Permission : String
  ResourcePath : String
  ContainerPath : String
deriving DecidableEq, Repr

/-- The fields of `dao.ConfigFile` read by the agent. -/
structure ConfigFile where
  Owner : String
  Permissions : String
  Content : String
deriving DecidableEq, Repr

/-- The fields of `dao.Service` read by the agent; the map `ConfigFiles` is listed in the
order in which `range` visits it. -/
structure Service where
  Id : String
  Name : String
  PoolId : String
  ImageId : String
  Startup : String
  Endpoints : List ServiceEndpoint
  Volumes : List Volume
  ConfigFiles : List (String × ConfigFile)
  LogConfigs : List String
deriving DecidableEq, Repr

/-- The struct `dao.User` as far as it is read. -/
structure User where
  Name : String
  Password : String
deriving DecidableEq, Repr

/-- The fields of `HostAgent` (agent.go:49-61) read by `startService`. -/
structure HostAgent where
  master : String
  bridgeIp : String
  varPath : String
  mount : List String
  vfs : String
deriving DecidableEq, Repr

/-- The loop that builds `portOps` (agent.go:463-470). -/
def portOpsLoop : List ServiceEndpoint → String → String
  | [], portOps => portOps
  | endpoint :: rest, portOps =>
    if endpoint.Purpose = "export" then
      let portOps1 := portOps ++ (" -p " ++ toString endpoint.PortNumber)
      if endpoint.Protocol = UDP then portOpsLoop rest (portOps1 ++ "/udp")
      else portOpsLoop rest portOps1
    else portOpsLoop rest portOps

/-- The loop that builds `requestedMount` from `a.mount` (agent.go:545-558). -/
def requestedMountLoop (imageId : String) : List String → String → String
  | [], requestedMount => requestedMount
  | bindMountString :: rest, requestedMount =>
    match Split bindMountString ':' with
    | [requestedImage, hostPath, containerPath] =>
      if requestedImage = imageId then
        requestedMountLoop imageId rest
          (requestedMount ++ (" -v " ++ hostPath ++ ":" ++ containerPath))
      else requestedMountLoop imageId rest requestedMount
    | _ => requestedMountLoop imageId rest requestedMount

/-- The temp-file prefix of a config file,
`fmt.Sprintf("cp_%s_%s_", service.Id, strings.Replace(filename, "/", "__", -1))`
(agent.go:516). -/
def confFilePrefix (serviceId filename : String) : String :=
  "cp_" ++ serviceId ++ "_" ++ Replace filename '/' "__" ++ "_"

/-- What the master, the file system and the helpers outside the sources at hand answer
during `startService`; a nil error is `none`.  `getSubvolume` answers `sv.Path()`,
`ExecPath` the directory and the binary, `injectContext` the service with its templates
evaluated, `writeConfFile` the name of the temp file. -/
structure StartEnv where
  NewControlClient : String → Option String
  GetTenantId : String → Except String String
  GetSystemUser : Except String User
  getSubvolume : String → String → String → String → Except String String
  pathJoin : String → String → String
  MkdirAll : String → Option String
  ExecPath : Except String (String × String)
  injectContext : Service → Except String Service
  writeConfFile : String → String → String → String → Except String String
  writeLogstashAgentConfig : Service → Except String String
  getLogstashBindMounts : String → String

/-- How `startService` ends: `glog.Fatal` (the agent process exits), `return false, err`,
or the goroutine `waitForProcessToDie` is started on the command and `true, nil` is
returned. -/
inductive StartOutcome
  | fatal (msg : String)
  | failed (err : String)
  | started (cmdString : String)
deriving DecidableEq, Repr

/-- The loop over `service.Volumes` (agent.go:478-499); `.error` is the message of
`glog.Fatal`.  The error of `createVolumeDir` is only logged. -/
def volumeOptsLoop (env : StartEnv) (a : HostAgent) (service : Service) (tenantId : String) :
    List Volume → String → Except String String
  | [], volumeOpts => .ok volumeOpts
  | volume :: rest, volumeOpts =>
    match env.getSubvolume a.varPath service.PoolId tenantId a.vfs with
    | .error err => .error ("Could not create subvolume: %s" ++ err)
    | .ok svPath =>
      let resourcePath := env.pathJoin svPath volume.ResourcePath
      match env.MkdirAll resourcePath with
      | some err => .error ("Could not create resource path: %s, %s" ++ resourcePath ++ err)
      | none =>
        volumeOptsLoop env a service tenantId rest
          (volumeOpts ++ (" -v " ++ resourcePath ++ ":" ++ volume.ContainerPath))

/-- The loop over `service.ConfigFiles` (agent.go:515-528); `.error` is the error
returned.  The error of `chownConfFile` is only logged. -/
def configFilesLoop (env : StartEnv) (service : Service) :
    List (String × ConfigFile) → String → Except String String
  | [], configFiles => .ok configFiles
  | (filename, config) :: rest, configFiles =>
    match env.writeConfFile (confFilePrefix service.Id filename) service.Id filename
        config.Content with
    | .error err => .error err
    | .ok fName =>
      configFilesLoop env service rest
        (configFiles ++ (" -v " ++ fName ++ ":" ++ filename ++ " "))

/-- The method `HostAgent.startService` (agent.go:434-579).  When `GetTenantId` or
`GetSystemUser` fails the error is logged and the reply keeps its zero value. -/
def startService (env : StartEnv) (a : HostAgent) (service : Service)
    (serviceState : ServiceState) : StartOutcome :=
  match env.NewControlClient a.master with
  | some err => .failed err
  | none =>
    let tenantId := match env.GetTenantId service.Id with
      | .ok t => t
      | .error _ => ""
    let systemUser : User := match env.GetSystemUser with
      | .ok u => u
      | .error _ => ⟨"", ""⟩
    let portOps := portOpsLoop service.Endpoints ""
    if tenantId.length = 0 ∧ service.Volumes.length > 0 then
      .fatal ("Could not get tenant ID and need to mount a volume, service state: " ++
        serviceState.Id ++ ", service id: " ++ service.Id)
    else
      match volumeOptsLoop env a service tenantId service.Volumes "" with
      | .error msg => .fatal msg
      | .ok volumeOpts =>
        match env.ExecPath with
        | .error err => .failed err
        | .ok (dir, binary) =>
          let volumeBinding := dir ++ ":/serviced"
          match env.injectContext service with
          | .error err => .failed err
          | .ok service1 =>
            match configFilesLoop env service1 service1.ConfigFiles "" with
            | .error err => .failed err
            | .ok configFiles =>
              let logstash : Except String String :=
                if service1.LogConfigs.length ≠ 0 then
                  match env.writeLogstashAgentConfig service1 with
                  | .error err => .error err
                  | .ok configFileName => .ok (env.getLogstashBindMounts configFileName)
                else .ok ""
              match logstash with
              | .error err => .failed err
              | .ok logstashForwarderMount =>
                let requestedMount := requestedMountLoop service1.ImageId a.mount ""
                let environmentVariables :=
                  "-e CONTROLPLANE=1 " ++
                  "-e CONTROLPLANE_CONSUMER_URL=http://localhost:22350/api/metrics/store " ++
                  ("-e CONTROLPLANE_SYSTEM_USER=" ++ systemUser.Name ++ " ") ++
                  ("-e CONTROLPLANE_SYSTEM_PASSWORD=" ++ systemUser.Password ++ " ")
                let proxyCmd :=
                  "/serviced/" ++ binary ++ " proxy " ++ service1.Id ++ " '" ++
                    service1.Startup ++ "'"
                .started ("docker run --dns " ++ a.bridgeIp ++ " " ++ portOps ++
                  " -rm -name=" ++ serviceState.Id ++ " " ++ environmentVariables ++
                  " -v " ++ volumeBinding ++ " " ++ requestedMount ++ " " ++
                  logstashForwarderMount ++ " " ++ volumeOpts ++ " " ++ configFiles ++ " " ++
                  service1.ImageId ++ " " ++ proxyCmd)

/-! ## agent.go: `chownConfFile` -/

/-- The owner and mode of a file; the mode in the octal notation of `chmod`. -/
structure FileInfo where
  uid : Nat
  gid : Nat
  mode : String
deriving DecidableEq, Repr

/-- The files of the host, by name. -/
abbrev Files := List (String × FileInfo)

/-- The function `os.Chown(name, uid, gid)`: it fails on a missing file and otherwise
sets the owner and the group, nothing else. -/
def Chown (files : Files) (name : String) (uid gid : Nat) : Option String × Files :=
  match files.lookup name with
  | none => (some ("chown " ++ name ++ ": no such file or directory"), files)
  | some _ =>
    (none, files.map (fun f => if f.1 = name then (f.1, { f.2 with uid := uid, gid := gid })
      else f))

set_option linter.unusedVariables false in
/-- The function `chownConfFile` (agent.go:419-431): the error returned and the files it
leaves.  `validOwnerSpec` and `getInternalImageIds` are outside the sources at hand and
taken as given. -/
def chownConfFile (validOwnerSpec : String → Bool)
    (getInternalImageIds : String → String → Except String (Nat × Nat))
    (files : Files) (filename owner permissions dockerImage : String) :
    Option String × Files :=
  if ¬ validOwnerSpec owner then
    (some ("Unsupported owner specification: " ++ owner), files)
  else
    match getInternalImageIds owner dockerImage with
    | .error err => (some err, files)
    | .ok (uid, gid) => Chown files filename uid gid

/-- An owner specification is accepted when it splits at `:` into two non-empty parts. -/
def ownerSpecTwoParts (owner : String) : Bool :=
  match Split owner ':' with
  | [user, group] => user ≠ "" && group ≠ ""
  | _ => false

/-- An image in which every owner resolves to uid 1001 and gid 1001. -/
def idsAll1001 (_owner _dockerImage : String) : Except String (Nat × Nat) := .ok (1001, 1001)

/-- One temp file, owned by root, with mode `0600`. -/
def filesOneConf : Files := [("/tmp/cp_s1_etc__my.cnf_592084261", ⟨0, 0, "0600"⟩)]

/-! ## The options as the specification words them -/

/-- An environment in which every call succeeds except `GetTenantId`. -/
def envNoTenant : StartEnv where
  NewControlClient _ := none
  GetTenantId _ := .error "rpc: no tenant"
  GetSystemUser := .ok ⟨"admin", "secret"⟩
  getSubvolume _ _ _ _ := .ok "/opt/serviced/var/volumes/default/t1"
  pathJoin a b := a ++ "/" ++ b
  MkdirAll _ := none
  ExecPath := .ok ("/opt/serviced/bin", "serviced")
  injectContext svc := .ok svc
  writeConfFile pfx _ _ _ := .ok ("/tmp/" ++ pfx ++ "592084261")
  writeLogstashAgentConfig _ := .ok "/tmp/logstash.conf"
  getLogstashBindMounts _ := ""

/-- The agent of host `h1`. -/
def agentH1 : HostAgent := ⟨"master:4979", "172.17.42.1", "/opt/serviced/var", [], "rsync"⟩

/-- A service with one volume. -/
def serviceWithVolume : Service :=
  ⟨"s1", "mysql", "default", "zenoss/mysql", "/usr/bin/mysqld", [],
    [⟨"mysql:mysql", "0755", "mysql", "/var/lib/mysql"⟩], [], []⟩

/-- A service without volumes. -/
def serviceNoVolume : Service :=
  ⟨"s1", "redis", "default", "zenoss/redis", "/usr/bin/redis-server", [], [], [], []⟩

/-! ## agent.go: `waitForProcessToDie` -/

/-- The fields of `ContainerState` that `docker inspect` fills and the agent reads:
`ID`, `NetworkSettings.IPAddress`, `NetworkSettings.Ports` and `State.Running`. -/
structure ContainerState where
  ID : String
  IPAddress : String
  Ports : String
  Running : Bool
deriving DecidableEq, Repr

/-- The struct `proxy.ProxyAddress`. -/
structure ProxyAddress where
  IP : String
  Port : Nat
deriving DecidableEq, Repr

/-- What `cmd.Wait()` returns, as the code tells it apart: nil, an `*exec.ExitError`
carrying a `syscall.WaitStatus` with its exit status, an `*exec.ExitError` without one,
and any other error. -/
inductive WaitError
  | nil
  | exitStatus (statusCode : Int)
  | exitNoStatus
  | other (err : String)
deriving DecidableEq, Repr

/-- What the process, the runtime and the coordination store answer while
`waitForProcessToDie` runs; a nil error is `none`.  `getDockerState i` is the answer of
the attempt with loop counter `i`; `LoadAndUpdateServiceState` answers the service state
read from the store, `LoadService` the service. -/
structure WaitEnv where
  StdoutPipe : Option String
  StderrPipe : Option String
  Start : Option String
  getDockerState : Nat → Except String ContainerState
  LoadAndUpdateServiceState : Except String ServiceState
  LoadService : Except String Service
  Wait : WaitError
  ResetServiceState : Option String

/-- What `waitForProcessToDie` does, in order.  `RemoveProxy` and `procFinished` are its
deferred calls. -/
inductive WaitAction
  | dockerRemove (id : String)
  | Start
  | Sleep (seconds : Nat)
  | getDockerState (id : String)
  | dockerTerminate (id : String)
  | dumpOut
  | LoadAndUpdateServiceState (serviceId id dockerId privateIp : String)
  | LoadService (serviceId : String)
  | CreateProxy (proxyId protocol : String) (frontEnd backEnd : ProxyAddress)
  | Wait
  | ResetServiceState (serviceId id : String)
  | RemoveProxy (proxyId : String)
  | procFinished
deriving DecidableEq, Repr

/-- The loop `for i := 0; i < 30; i++` over `getDockerState` (agent.go:296-305) with
`remaining` iterations left: what it does, and the values of `containerState` and `err`
when it ends, given their values `last` so far. -/
def getDockerStateLoop (env : WaitEnv) (dockerId : String) :
    Nat → Nat → Except String ContainerState →
      List WaitAction × Except String ContainerState
  | 0, _, last => ([], last)
  | remaining + 1, i, _ =>
    match env.getDockerState i with
    | .error err =>
      let r := getDockerStateLoop env dockerId remaining (i + 1) (.error err)
      ([.getDockerState dockerId, .Sleep 3, .dockerTerminate dockerId, .dumpOut] ++ r.1, r.2)
    | .ok containerState => ([.getDockerState dockerId], .ok containerState)

/-- The loop over `service.Endpoints` (agent.go:331-346): the proxies created, and the
ids whose `RemoveProxy` is deferred, in the order of the `defer` statements.  The error
of `CreateProxy` is only logged. -/
def proxyLoop (serviceId privateIp : String) :
    List ServiceEndpoint → List WaitAction × List String
  | [] => ([], [])
  | endpoint :: rest =>
    match endpoint.Assignment with
    | some addressConfig =>
      let proxyId := serviceId ++ ":" ++ endpoint.Name
      let r := proxyLoop serviceId privateIp rest
      (.CreateProxy proxyId endpoint.Protocol ⟨addressConfig.IPAddr, addressConfig.Port⟩
          ⟨privateIp, endpoint.PortNumber⟩ :: r.1, proxyId :: r.2)
    | none => proxyLoop serviceId privateIp rest

/-- What follows `cmd.Wait()` (agent.go:352-377): only an exit status other than 137 and
2 dumps the saved output. -/
def afterWait (env : WaitEnv) (serviceState : ServiceState) : List WaitAction :=
  [WaitAction.Wait] ++
  (match env.Wait with
    | .exitStatus statusCode =>
      if statusCode = 137 then [] else if statusCode = 2 then [] else [WaitAction.dumpOut]
    | _ => []) ++
  [.ResetServiceState serviceState.ServiceId serviceState.Id]

/-- The body of `waitForProcessToDie` after `a.dockerRemove` and the first `defer`
(agent.go:265-379): what it does up to its return, and the proxy ids whose removal it
has deferred. -/
def waitBody (env : WaitEnv) (serviceState : ServiceState) : List WaitAction × List String :=
  match env.StdoutPipe with
  | some _ => ([], [])
  | none =>
    match env.StderrPipe with
    | some _ => ([], [])
    | none =>
      match env.Start with
      | some _ => ([.Start, .dumpOut], [])
      | none =>
        let dockerId := serviceState.Id
        let polled := getDockerStateLoop env dockerId 30 0 (.ok ⟨"", "", "", false⟩)
        match polled.2 with
        | .error _ => ([WaitAction.Start, .Sleep 1] ++ polled.1, [])
        | .ok containerState =>
          match env.LoadAndUpdateServiceState with
          | .error _ =>
            ([WaitAction.Start, .Sleep 1] ++ polled.1 ++
              [.LoadAndUpdateServiceState serviceState.ServiceId serviceState.Id
                containerState.ID containerState.IPAddress], [])
          | .ok sState =>
            let proxies : List WaitAction × List String :=
              match env.LoadService with
              | .error _ => ([], [])
              | .ok service => proxyLoop sState.ServiceId containerState.IPAddress
                  service.Endpoints
            ([WaitAction.Start, .Sleep 1] ++ polled.1 ++
              [.LoadAndUpdateServiceState serviceState.ServiceId serviceState.Id
                containerState.ID containerState.IPAddress,
                .LoadService serviceState.ServiceId] ++
              proxies.1 ++ afterWait env serviceState, proxies.2)

/-- The method `HostAgent.waitForProcessToDie` (agent.go:258-380): the body, then the
deferred calls in reverse order of their `defer` statements, `procFinished <- 1` last. -/
def waitForProcessToDie (env : WaitEnv) (serviceState : ServiceState) : List WaitAction :=
  [WaitAction.dockerRemove serviceState.Id] ++ (waitBody env serviceState).1 ++
    (waitBody env serviceState).2.reverse.map WaitAction.RemoveProxy ++ [.procFinished]

/-- The proxies a list of endpoints asks for, as the specification words it: one per
endpoint with an address assignment, with id `<service_id>:<endpoint_name>`, the
assignment as frontend and the container's private IP with the endpoint's port as
backend. -/
def proxiesFor (serviceId privateIp : String) (endpoints : List ServiceEndpoint) :
    List WaitAction :=
  endpoints.filterMap (fun endpoint =>
    endpoint.Assignment.map (fun assignment =>
      WaitAction.CreateProxy (serviceId ++ ":" ++ endpoint.Name) endpoint.Protocol
        ⟨assignment.IPAddr, assignment.Port⟩ ⟨privateIp, endpoint.PortNumber⟩))

/-- Whether an action creates a proxy. -/
def WaitAction.isCreateProxy : WaitAction → Bool
  | .CreateProxy _ _ _ _ => true
  | _ => false

/-- The ids of the proxies created in a list of actions, in order. -/
def createdIds : List WaitAction → List String
  | [] => []
  | .CreateProxy proxyId _ _ _ :: rest => proxyId :: createdIds rest
  | _ :: rest => createdIds rest

/-- A run in which the container is seen running at the second inspect and exits with
status 1; the service has one endpoint with an assignment and one without. -/
def waitEnvTwoEndpoints : WaitEnv where
  StdoutPipe := none
  StderrPipe := none
  Start := none
  getDockerState i := if i = 0 then .error "no container" else .ok ⟨"c0ffee", "172.17.0.5", "", true⟩
  LoadAndUpdateServiceState := .ok ⟨"i1", "s1", "h1", ⟨2014⟩, ⟨1⟩⟩
  LoadService := .ok ⟨"s1", "mysql", "default", "zenoss/mysql", "", [⟨"db", "mysql", "export",
    "tcp", 3306, some ⟨"10.0.0.5", 3306⟩⟩, ⟨"web", "http", "export", "tcp", 80, none⟩], [], [], []⟩
  Wait := .exitStatus 1
  ResetServiceState := none

/-! ## zzk/virtualips/virtualips.go: unbinding and the watch loop -/

/-- What `ifconfig` answers on this host: the interface map that
`createVirtualInterfaceMap` (virtualips.go:92-123) reads from it, and the error of
`ifconfig <name> down`, `none` for nil. -/
structure Ifconfig where
  createVirtualInterfaceMap : Except String (List VirtualIP)
  ifconfigDown : String → Option String

/-- The function `unbindVirtualIP` (virtualips.go:180-194): the error returned and the
interfaces on which `ifconfig <name> down` was run. -/
def unbindVirtualIP (ifc : Ifconfig) (virtualIP : VirtualIP) : Option String × List String :=
  match generateInterfaceName virtualIP with
  | .error err => (some err, [])
  | .ok virtualInterfaceName =>
    match ifc.ifconfigDown virtualInterfaceName with
    | some err =>
      (some ("Problem with removing virtual interface " ++ virtualInterfaceName ++ ": " ++
        err), [virtualInterfaceName])
    | none => (none, [virtualInterfaceName])

/-- The loop of `RemoveAllVirtualIPs` over the interface map (virtualips.go:259-263). -/
def unbindLoop (ifc : Ifconfig) : List VirtualIP → Option String × List String
  | [] => (none, [])
  | virtualIP :: rest =>
    match unbindVirtualIP ifc virtualIP with
    | (some err, downs) => (some err, downs)
    | (none, downs) =>
      let r := unbindLoop ifc rest
      (r.1, downs ++ r.2)

/-- The method `RemoveAllVirtualIPs` (virtualips.go:251-266): the error returned and the
interfaces on which `ifconfig <name> down` was run, in order. -/
def RemoveAllVirtualIPs (ifc : Ifconfig) : Option String × List String :=
  match ifc.createVirtualInterfaceMap with
  | .error err => (some err, [])
  | .ok interfaceMap => unbindLoop ifc interfaceMap

/-- The struct `pool.ResourcePool` as far as it is read here. -/
structure ResourcePool where
  ID : String
  VirtualIPs : List VirtualIP
deriving DecidableEq, Repr

/-- The first loop of `removeVirtualIP` (virtualips.go:276-281): whether the address is
still among the pool's virtual IPs. -/
def stillInPool (virtualIPAddress : String) : List VirtualIP → Bool
  | [] => false
  | virtualIP :: rest =>
    if virtualIPAddress = virtualIP.IP then true else stillInPool virtualIPAddress rest

/-- The second loop of `removeVirtualIP` (virtualips.go:289-296): the first alias whose
IP is the address is unbound, and the loop returns. -/
def unbindFirst (ifc : Ifconfig) (virtualIPAddress : String) :
    List VirtualIP → Option String × List String
  | [] => (none, [])
  | virtualIP :: rest =>
    if virtualIPAddress = virtualIP.IP then unbindVirtualIP ifc virtualIP
    else unbindFirst ifc virtualIPAddress rest

/-- The method `removeVirtualIP` (virtualips.go:269-300), given the answer of
`getMyPool`: the error returned and the interfaces brought down. -/
def removeVirtualIP (getMyPool : Except String ResourcePool) (ifc : Ifconfig)
    (virtualIPAddress : String) : Option String × List String :=
  match getMyPool with
  | .error err => (some err, [])
  | .ok myPool =>
    if stillInPool virtualIPAddress myPool.VirtualIPs then
      (some ("Requested virtual IP address: " ++ virtualIPAddress ++
        " still exists in pool: " ++ myPool.ID), [])
    else
      match ifc.createVirtualInterfaceMap with
      | .error err => (some err, [])
      | .ok interfaceMap => unbindFirst ifc virtualIPAddress interfaceMap

/-- The inner loop of `setSubtract` (virtualips.go:307-312): the final `aElementFound`. -/
def aElementFound (aElement : String) : List String → Bool
  | [] => false
  | bElement :: rest => if aElement = bElement then true else aElementFound aElement rest

/-- The outer loop of `setSubtract` (virtualips.go:305-316). -/
def setSubtractLoop (b : List String) : List String → List String → List String
  | [], difference => difference
  | aElement :: rest, difference =>
    if ¬ aElementFound aElement b then setSubtractLoop b rest (difference ++ [aElement])
    else setSubtractLoop b rest difference

/-- The function `setSubtract` (virtualips.go:303-318). -/
def setSubtract (a b : List String) : List String :=
  setSubtractLoop b a []

/-- The function `virtualIPsPath` (virtualips.go:24-28) on no node or on one plain node
name: `path.Join` of `/VirtualIPs` and the node.  A plain name is not empty, holds no `/`
and is neither `.` nor `..`; on other names `path.Join` cleans the result and differs from
this concatenation.  The path is only a label of the store calls in the traces. -/
def virtualIPsPath : Option String → String
  | none => "/VirtualIPs"
  | some node => "/VirtualIPs/" ++ node

/-- An error of the coordination client as `WatchVirtualIPs` tells it apart. -/
inductive ClientError
  | ErrNoNode
  | other (msg : String)
deriving DecidableEq, Repr

/-- What `WatchVirtualIPs` does, in order: calls on the coordination store, interfaces
brought down, candidate tasks started (`go h.watchVirtualIP`), and shutdown signals sent
to a candidate's channel. -/
inductive VipAction
  | Exists (path : String)
  | CreateDir (path : String)
  | ifconfigDown (name : String)
  | ChildrenW (path : String)
  | spawn (virtualIPAddress : String) (virtualIPChannel : Nat)
  | signal (virtualIPAddress : String) (channel : Nat)
deriving DecidableEq, Repr

/-- Which case of the `select` of the watch loop fires (virtualips.go:415-421). -/
inductive VipSelect
  | zkEvent
  | sDone (virtualIPAddress : String)
deriving DecidableEq, Repr

/-- What one iteration of the watch loop is answered: by `ChildrenW`, by `Exists` on the
node of an address, by `getMyPool` and `ifconfig` during `removeVirtualIP`, and the case
of the `select` that fires. -/
structure VipRound where
  ChildrenW : Except String (List String)
  Exists : String → Except String Bool
  getMyPool : Except String ResourcePool
  ifconfig : Ifconfig
  select : VipSelect

/-- The loop over the removed addresses (virtualips.go:375-398): what it does, and
whether the function goes on (`false` is the `return` after a failed `Exists`). -/
def removedLoop (round : VipRound) (processing : Processing) :
    List String → List VipAction × Bool
  | [] => ([], true)
  | virtualIPAddress :: rest =>
    match mapGet processing virtualIPAddress with
    | some channel =>
      match round.Exists virtualIPAddress with
      | .error _ => ([.Exists (virtualIPsPath (some virtualIPAddress))], false)
      | .ok false =>
        let removed := removeVirtualIP round.getMyPool round.ifconfig virtualIPAddress
        let r := removedLoop round processing rest
        ([VipAction.Exists (virtualIPsPath (some virtualIPAddress))] ++
          removed.2.map VipAction.ifconfigDown ++ [.signal virtualIPAddress channel] ++ r.1,
          r.2)
      | .ok true =>
        let r := removedLoop round processing rest
        (VipAction.Exists (virtualIPsPath (some virtualIPAddress)) :: r.1, r.2)
    | none => removedLoop round processing rest

/-- The loop over the added addresses (virtualips.go:403-412): the candidate tasks
started, the map and the number of channels made. -/
def addedLoop : List String → Processing → Nat → List VipAction × Processing × Nat
  | [], processing, nextChan => ([], processing, nextChan)
  | virtualIPAddress :: rest, processing, nextChan =>
    if mapGet processing virtualIPAddress = none then
      let r := addedLoop rest (mapSet processing virtualIPAddress nextChan) (nextChan + 1)
      (.spawn virtualIPAddress nextChan :: r.1, r.2)
    else addedLoop rest processing nextChan

/-- The watch loop of `WatchVirtualIPs` (virtualips.go:358-422) on the rounds given: what
it does, and the map `processing` at its `return`, `none` when it is still in the loop
after the last round. -/
def watchLoopVip : Processing → Nat → List String → List VipRound →
    List VipAction × Option Processing
  | _, _, _, [] => ([], none)
  | processing, nextChan, currentVirtualIPAddresses, round :: rest =>
    let oldVirtualIPAddresses := currentVirtualIPAddresses
    match round.ChildrenW with
    | .error _ => ([.ChildrenW (virtualIPsPath none)], some processing)
    | .ok current =>
      let removed := removedLoop round processing (setSubtract oldVirtualIPAddresses current)
      if removed.2 = false then
        (VipAction.ChildrenW (virtualIPsPath none) :: removed.1, some processing)
      else
        let added := addedLoop (setSubtract current oldVirtualIPAddresses) processing nextChan
        let r := match round.select with
          | .zkEvent => watchLoopVip added.2.1 added.2.2 current rest
          | .sDone virtualIPAddress =>
            watchLoopVip (mapDelete added.2.1 virtualIPAddress) added.2.2 current rest
        (VipAction.ChildrenW (virtualIPsPath none) :: removed.1 ++ added.1 ++ r.1, r.2)

/-- The deferred function of `WatchVirtualIPs` (virtualips.go:328-334): a shutdown signal
to every channel of the map. -/
def shutdownAll (processing : Processing) : List VipAction :=
  processing.map (fun kv => VipAction.signal kv.1 kv.2)

/-- What `WatchVirtualIPs` did and whether it has returned. -/
structure VipWatch where
  actions : List VipAction
  returned : Bool
deriving DecidableEq, Repr

/-- The method `WatchVirtualIPs` (virtualips.go:322-423), given the answer of `Exists` on
the root path (its boolean and its error), the error of `CreateDir`, the host's
`ifconfig` before the loop and the rounds of the loop. -/
def WatchVirtualIPs (existsRoot : Bool × Option ClientError) (createDir : Option String)
    (ifc : Ifconfig) (rounds : List VipRound) : VipWatch :=
  let afterPath : List VipAction → VipWatch := fun pathActions =>
    match RemoveAllVirtualIPs ifc with
    | (some _, downs) =>
      { actions := pathActions ++ downs.map VipAction.ifconfigDown, returned := true }
    | (none, downs) =>
      match watchLoopVip [] 0 [] rounds with
      | (loopActions, none) =>
        { actions := pathActions ++ downs.map VipAction.ifconfigDown ++ loopActions
          returned := false }
      | (loopActions, some processing) =>
        { actions := pathActions ++ downs.map VipAction.ifconfigDown ++ loopActions ++
            shutdownAll processing
          returned := true }
  match existsRoot with
  | (_, some (.other _)) => { actions := [.Exists (virtualIPsPath none)], returned := true }
  | (false, _) =>
    match createDir with
    | some _ =>
      { actions := [.Exists (virtualIPsPath none), .CreateDir (virtualIPsPath none)]
        returned := true }
    | none => afterPath [.Exists (virtualIPsPath none), .CreateDir (virtualIPsPath none)]
  | (true, _) => afterPath [.Exists (virtualIPsPath none)]

/-- A host with the aliases `eth0:zvip0` and `eth1:zvip0`; bringing an interface down
fails exactly on the names listed. -/
def ifconfigTwo (failing : List String) : Ifconfig where
  createVirtualInterfaceMap :=
    .ok [⟨"", "10.0.0.5", "", "eth0", "0"⟩, ⟨"", "10.0.0.6", "", "eth1", "0"⟩]
  ifconfigDown name := if name ∈ failing then some "exit status 1" else none

/-- One round of the watch loop: the address `10.0.0.5` is listed and the watch fires. -/
def roundOneVip : VipRound where
  ChildrenW := .ok ["10.0.0.5"]
  Exists _ := .ok true
  getMyPool := .ok ⟨"default", []⟩
  ifconfig := ifconfigTwo []
  select := .zkEvent

/-! ## auth/auth0.go: the user of a token -/

/-- The method `jwtAuth0Claims.User` (auth0.go:64-71) on the claim's `Subject`: the
element `fields[len(fields)-1]` of the split subject; `none` is the run-time panic of an
index out of range. -/
def jwtAuth0Claims.User (Subject : String) : Option String :=
  let fields := Split Subject '|'
  if fields.length = 0 then none else fields.get? (fields.length - 1)

/-! ## agent.go: exit status and polling in `waitForProcessToDie` -/

/-- What `cmd.Wait()` returns for a command that ran and exited with the given exit
code, as package `os/exec` documents it: nil for exit code 0, otherwise an
`*exec.ExitError` carrying the exit status. -/
def waitOfExit (exitCode : Nat) : WaitError :=
  if exitCode = 0 then .nil else .exitStatus exitCode

/-- What one failed inspect of the polling loop does (agent.go:297-301). -/
def failedInspect (dockerId : String) : List WaitAction :=
  [.getDockerState dockerId, .Sleep 3, .dockerTerminate dockerId, .dumpOut]

/-- A block of actions repeated. -/
def repeatActions (block : List WaitAction) : Nat → List WaitAction
  | 0 => []
  | k + 1 => block ++ repeatActions block k

/-- Whether an action is an inspect of the container. -/
def WaitAction.isInspect : WaitAction → Bool
  | .getDockerState _ => true
  | _ => false

/-- Whether an action writes the observed state. -/
def WaitAction.isUpdate : WaitAction → Bool
  | .LoadAndUpdateServiceState _ _ _ _ => true
  | _ => false

/-- A run whose first inspect succeeds on a container that is not running. -/
def waitEnvNotRunning : WaitEnv where
  StdoutPipe := none
  StderrPipe := none
  Start := none
  getDockerState _ := .ok ⟨"c0ffee", "172.17.0.5", "", false⟩
  LoadAndUpdateServiceState := .ok ⟨"i1", "s1", "h1", ⟨2014⟩, ⟨1⟩⟩
  LoadService := .error "zk: node does not exist"
  Wait := waitOfExit 0
  ResetServiceState := none

/-! ## agent.go: `getIPResources` -/

/-- The constant `net.FlagUp`, `1 << iota` at position 0 of package `net`. -/
def FlagUp : Nat := 1

/-- The constant `net.FlagBroadcast`. -/
def FlagBroadcast : Nat := 2

/-- The constant `net.FlagLoopback`. -/
def FlagLoopback : Nat := 4

/-- The constant `net.FlagPointToPoint`. -/
def FlagPointToPoint : Nat := 8

/-- The constant `net.FlagMulticast`. -/
def FlagMulticast : Nat := 16

/-- A `net.Interface` as far as it is read: its name, its flags, and what `Addrs()`
answers, each address as `ip.String()` prints it. -/
structure Interface where
  Name : String
  Flags : Nat
  Addrs : Except String (List String)
deriving DecidableEq, Repr

/-- The struct `dao.HostIPResource`. -/
structure HostIPResource where
  HostId : String
  IPAddress : String
  InterfaceName : String
deriving DecidableEq, Repr

/-- The function `strings.ToLower` on the ASCII text of an address. -/
def ToLower (s : String) : String := String.mk (s.data.map Char.toLower)

/-- The function `strings.Trim(s, cutset)` for a cutset of one character. -/
def Trim (s : String) (cutset : Char) : String :=
  String.mk (((s.data.dropWhile (fun c => c = cutset)).reverse.dropWhile
    (fun c => c = cutset)).reverse)

/-- The closure `validate` of `getIPResources` (agent.go:867-872). -/
def validate (iface : Interface) (ip : String) : Option String :=
  if iface.Flags &&& (1 <<< FlagLoopback) = 0 then
    some ("Loopback address " ++ ip ++ " cannot be used to register a host")
  else none

/-- The inner loop over the addresses of one interface (agent.go:855-860): the map `ips`
as an association list in which the latest write to a key comes first. -/
def addAddrs (iface : Interface) : List String → List (String × Interface) →
    List (String × Interface)
  | [], ips => ips
  | ip :: rest, ips =>
    let normalIP := (Split ip '/').headD ""
    let normalIP1 := Trim (ToLower normalIP) ' '
    addAddrs iface rest ((normalIP1, iface) :: ips)

/-- The loop over the interfaces (agent.go:849-861). -/
def buildIps : List Interface → List (String × Interface) →
    Except String (List (String × Interface))
  | [], ips => .ok ips
  | iface :: rest, ips =>
    match iface.Addrs with
    | .error err => .error err
    | .ok addrs => buildIps rest (addAddrs iface addrs ips)

/-- The loop over the requested addresses (agent.go:874-889). -/
def ipaddressLoop (hostId : String) (ips : List (String × Interface)) :
    List String → List HostIPResource → Except String (List HostIPResource)
  | [], hostIPResources => .ok hostIPResources
  | ipaddr :: rest, hostIPResources =>
    let normalIP := Trim (ToLower ipaddr) ' '
    match ips.lookup normalIP with
    | none => .error ("IP address " ++ ipaddr ++ " not valid for this host")
    | some iface =>
      match validate iface normalIP with
      | some err => .error err
      | none =>
        ipaddressLoop hostId ips rest
          (hostIPResources ++ [⟨hostId, ipaddr, iface.Name⟩])

/-- The function `getIPResources` (agent.go:840-891), given what `net.Interfaces()`
answers. -/
def getIPResources (interfaces : Except String (List Interface)) (hostId : String)
    (ipaddress : List String) : Except String (List HostIPResource) :=
  match interfaces with
  | .error err => .error err
  | .ok ifaces =>
    match buildIps ifaces [] with
    | .error err => .error err
    | .ok ips => ipaddressLoop hostId ips ipaddress []

/-- A point-to-point tunnel interface: up, not loopback, no multicast. -/
def ifaceWg0 : Interface := ⟨"wg0", FlagUp + FlagPointToPoint, .ok ["10.8.0.2/24"]⟩

/-- A loopback interface that also carries the multicast flag. -/
def ifaceLo0 : Interface := ⟨"lo0", FlagUp + FlagLoopback + FlagMulticast, .ok ["127.0.0.1/8"]⟩

/-! ## auth/auth0.go: `getPemCert` -/

/-- The struct `JSONWebkeys` (auth0.go:83-90). -/
structure JSONWebkeys where
  Kty : String
  Kid : String
  Use : String
  N : String
  E : String
  X5c : List String
deriving DecidableEq, Repr

/-- The method `Jwks.refreshIfEmpty` (auth0.go:97-122) on the key list, given what the
fetch and decoding of the well-known key set answer. -/
def refreshIfEmpty (Keys : List JSONWebkeys) (fetch : Except String (List JSONWebkeys)) :
    List JSONWebkeys :=
  if Keys.length = 0 then
    match fetch with
    | .error _ => Keys
    | .ok newKeys => newKeys
  else Keys

/-- How `getPemCert` ends: a certificate, an error, or the run-time panic of an index out
of range. -/
inductive PemResult
  | cert (pem : String)
  | error (msg : String)
  | panic
deriving DecidableEq, Repr

/-- The loop `for k, v := range x5c` of `getPemCert` (auth0.go:135-139): the final
`cert`, or `none` when `auth0Jwks.Keys[k]` is out of range.  The token's `kid` header is
`none` when it is missing or not a string. -/
def certLoop (Keys : List JSONWebkeys) (kid : Option String) :
    List String → Nat → String → Option String
  | [], _, cert => some cert
  | v :: rest, k, cert =>
    match Keys.get? k with
    | none => none
    | some key =>
      if kid = some key.Kid then
        certLoop Keys kid rest (k + 1)
          ("-----BEGIN CERTIFICATE-----\n" ++ v ++ "\n-----END CERTIFICATE-----")
      else certLoop Keys kid rest (k + 1) cert

/-- The function `getPemCert` (auth0.go:126-148) on the cached key list. -/
def getPemCert (Keys : List JSONWebkeys) (fetch : Except String (List JSONWebkeys))
    (kid : Option String) : PemResult :=
  let Keys1 := refreshIfEmpty Keys fetch
  match Keys1.get? 0 with
  | none => .panic
  | some key0 =>
    match certLoop Keys1 kid key0.X5c 0 "" with
    | none => .panic
    | some cert =>
      if cert = "" then .error "unable to find appropriate key" else .cert cert

/-- A key set with one key that carries two `x5c` entries. -/
def keysOneTwoCerts : List JSONWebkeys :=
  [⟨"RSA", "kid1", "sig", "", "AQAB", ["MIIC1", "MIIC2"]⟩]

/-! ## Decimal strings -/

/-- The value of a decimal digit character. -/
def digitValue (c : Char) : Nat := c.toNat - 48

/-- The number a list of decimal digits writes, most significant digit first. -/
def decimalValue (l : List Char) : Nat := l.foldl (fun a c => a * 10 + digitValue c) 0

/-! ## zzk/virtualips/virtualips.go: the candidate task of a virtual IP -/

/-- What the supervisor of an instance does that is visible outside of it: its calls on
the coordination store, the calls that start, attach to and terminate the instance, and
its sends on the channel `done`. -/
inductive StateAction
  | LoadHostServiceStateW (hostId ssId : String)
  | LoadServiceState (serviceId serviceStateId : String)
  | Delete (path : String)
  | LoadService (serviceId : String)
  | terminateAttached (id : String)
  | terminateInstance (id : String)
  | startService (id : String)
  | attachToService (id : String)
  | done (result : stateResult)
deriving DecidableEq, Repr

/-- Which case of the `select` of the supervisor fires (agent.go:788-816); a watch event
is told apart by whether its type is `zk.EventNodeDeleted`. -/
inductive StateSelect
  | shutdown
  | procFinished
  | zkEvent (deleted : Bool)
deriving DecidableEq, Repr

/-- What one iteration of the supervisor's loop is answered.  An error is `none` for nil.
A call that does not come back is `none` on the outside: `startService` when it ends in
`glog.Fatal`, `terminateAttached` when nothing arrives on `procFinished`. -/
structure StateRound where
  LoadHostServiceStateW : Except String HostServiceState
  LoadServiceState : Except String ServiceState
  Delete : Option String
  LoadService : Except String Service
  startService : Option (Bool × Option String)
  attachToService : Bool × Option String
  terminateAttached : Option (Option String)
  terminateInstance : Option String
  select : StateSelect

/-- The end of one iteration (agent.go:777-817), from the check of `attached` and `err`
on: what it does and whether the function returned; `next attached` is the rest of the
loop after a `continue`. -/
def afterSwitch (ssId : String) (ss : ServiceState) (round : StateRound) (attached : Bool)
    (err : Option String) (next : Bool → List StateAction × Bool) :
    List StateAction × Bool :=
  if attached = false ∨ err ≠ none then
    ([.terminateInstance ss.Id,
      .done ⟨ssId, some ("Service state " ++ ssId ++ " unable to start or attach to process")⟩],
      true)
  else
    match round.select with
    | .shutdown =>
      match round.terminateAttached with
      | none => ([.terminateAttached ss.Id], false)
      | some err1 => ([.terminateAttached ss.Id, .done ⟨ssId, err1⟩], true)
    | .procFinished => next false
    | .zkEvent true =>
      match round.terminateAttached with
      | none => ([.terminateAttached ss.Id], false)
      | some err1 => ([.terminateAttached ss.Id, .done ⟨ssId, err1⟩], true)
    | .zkEvent false => next attached

/-- The loop of `processServiceState` (agent.go:702-817) on the rounds given, with the
value of `attached` at the head of the iteration: what it does, and whether the function
returned (`false` when it is still in the loop after the last round, or inside a call
that does not come back). -/
def processServiceStateLoop (hostId ssId : String) :
    Bool → List StateRound → List StateAction × Bool
  | _, [] => ([], false)
  | attached, round :: rest =>
    match round.LoadHostServiceStateW with
    | .error err =>
      ([.LoadHostServiceStateW hostId ssId,
        .done ⟨ssId, some ("Unable to load host service state " ++ ssId ++ ": " ++ err)⟩], true)
    | .ok hss =>
      if hss.ServiceStateId.length = 0 ∨ hss.ServiceId.length = 0 then
        ([.LoadHostServiceStateW hostId ssId,
          .done ⟨ssId, some ("Service for " ++ HostServiceStatePath hostId ssId ++
            " is invalid")⟩], true)
      else
        match round.LoadServiceState with
        | .error _ =>
          ([.LoadHostServiceStateW hostId ssId,
            .LoadServiceState hss.ServiceId hss.ServiceStateId,
            .Delete (HostServiceStatePath hostId ssId),
            .done ⟨ssId, some ("Host service state unable to load service state " ++ ssId)⟩],
            true)
        | .ok ss =>
          let loaded : List StateAction :=
            [.LoadHostServiceStateW hostId ssId,
              .LoadServiceState hss.ServiceId hss.ServiceStateId, .LoadService ss.ServiceId]
          match round.LoadService with
          | .error _ =>
            (loaded ++ [.done ⟨ssId, some ("Host service state unable to load service " ++
              ss.ServiceId)⟩], true)
          | .ok _ =>
            let next : Bool → List StateAction × Bool :=
              fun attached1 => processServiceStateLoop hostId ssId attached1 rest
            match processServiceStateSwitch attached hss ss with
            | .terminateAttached =>
              match round.terminateAttached with
              | none => (loaded ++ [.terminateAttached ss.Id], false)
              | some err => (loaded ++ [.terminateAttached ss.Id, .done ⟨ssId, err⟩], true)
            | .terminateInstance =>
              (loaded ++ [.terminateInstance ss.Id, .done ⟨ssId, round.terminateInstance⟩],
                true)
            | .idle =>
              let r := afterSwitch ssId ss round attached none next
              (loaded ++ r.1, r.2)
            | .startService =>
              match round.startService with
              | none => (loaded ++ [.startService ss.Id], false)
              | some answer =>
                let r := afterSwitch ssId ss round answer.1 answer.2 next
                (loaded ++ [.startService ss.Id] ++ r.1, r.2)
            | .attachToService =>
              let r := afterSwitch ssId ss round round.attachToService.1
                round.attachToService.2 next
              (loaded ++ [.attachToService ss.Id] ++ r.1, r.2)
            | .unhandled =>
              let r := afterSwitch ssId ss round attached none next
              (loaded ++ r.1, r.2)

/-- The method `HostAgent.processServiceState` (agent.go:698-818) of the agent with host
id `hostId`: `attached` starts as false. -/
def processServiceState (hostId ssId : String) (rounds : List StateRound) :
    List StateAction × Bool :=
  processServiceStateLoop hostId ssId false rounds

/-- Whether an action is a send on `done`. -/
def StateAction.isDone : StateAction → Bool
  | .done _ => true
  | _ => false

/-- A round in which the instance is to run, has not started, is started, and the case
of the `select` given fires. -/
def roundStart (select : StateSelect) : StateRound where
  LoadHostServiceStateW := .ok ⟨"h1", "s1", "i1", .run⟩
  LoadServiceState := .ok ⟨"i1", "s1", "h1", ⟨1⟩, ⟨1⟩⟩
  Delete := none
  LoadService := .ok ⟨"s1", "mysql", "default", "zenoss/mysql", "", [], [], [], []⟩
  startService := some (true, none)
  attachToService := (false, some "Container not running for i1")
  terminateAttached := some none
  terminateInstance := none
  select := select

/-- A run that returned ends with its one send on `done`, which carries `ssId`; a run
that did not return has sent nothing on `done`. -/
def ReportsOnce (ssId : String) (r : List StateAction × Bool) : Prop :=
  (r.2 = true → ∃ pre err, r.1 = pre ++ [StateAction.done ⟨ssId, err⟩] ∧
    ∀ a, a ∈ pre → a.isDone = false) ∧
  (r.2 = false → ∀ a, a ∈ r.1 → a.isDone = false)

/-- The value of `attached` at the head of the iteration that follows the rounds given,
when each of them ended in a `continue` (agent.go:798-815): a `continue` is only reached
with `attached` true, `procFinished` then sets it to false and a watch event leaves it. -/
def attachedAfter : Bool → List StateRound → Bool
  | attached, [] => attached
  | _, round :: rest => attachedAfter (decide (round.select = .zkEvent false)) rest

/-- The values of `attached` and `err` that the `switch` of one iteration leaves
(agent.go:745-775) when it does not return inside its first case: `none` when the first
case returns or `startService` does not come back. -/
def switchAnswer (attached : Bool) (hss : HostServiceState) (ss : ServiceState)
    (round : StateRound) : Option (Bool × Option String) :=
  match processServiceStateSwitch attached hss ss with
  | .terminateAttached => none
  | .terminateInstance => none
  | .idle => some (attached, none)
  | .startService => round.startService
  | .attachToService => some round.attachToService
  | .unhandled => some (attached, none)

/-- A round in which the instance is to run and has not started, and `startService`
returns `false` with an error. -/
def roundStartFails : StateRound where
  LoadHostServiceStateW := .ok ⟨"h1", "s1", "i1", .run⟩
  LoadServiceState := .ok ⟨"i1", "s1", "h1", ⟨1⟩, ⟨1⟩⟩
  Delete := none
  LoadService := .ok ⟨"s1", "mysql", "default", "zenoss/mysql", "", [], [], [], []⟩
  startService := some (false, some "docker: boom")
  attachToService := (false, some "Container not running for i1")
  terminateAttached := some none
  terminateInstance := none
  select := .shutdown

/-! ### Lemmas on the index scan -/

theorem generateInterfaceName_of_nonempty (v : VirtualIP) (hb : v.BindInterface ≠ "")
    (hi : v.InterfaceIndex ≠ "") :
    generateInterfaceName v =
      .ok (v.BindInterface ++ virtualInterfacePrefix ++ v.InterfaceIndex) := by
  simp [generateInterfaceName, hb, hi]

theorem toDigitsCore_ne_nil (b : Nat) :
    ∀ (fuel n : Nat) (ds : List Char), ds ≠ [] ∨ 0 < fuel →
      Nat.toDigitsCore b fuel n ds ≠ [] := by
  intro fuel
  induction fuel with
  | zero =>
    intro n ds h
    rcases h with h | h
    · simpa [Nat.toDigitsCore] using h
    · omega
  | succ f ih =>
    intro n ds _
    simp only [Nat.toDigitsCore]
    split
    · simp
    · exact ih _ _ (Or.inl (by simp))

theorem Itoa_ne_empty (n : Nat) : Itoa n ≠ "" := by
  intro h
  have h1 : (Itoa n).data = [] := by rw [h]
  have h2 : Nat.toDigits 10 n = [] := by simpa [Itoa, Nat.repr, List.asString] using h1
  exact toDigitsCore_ne_nil 10 (n + 1) n [] (Or.inr (Nat.succ_pos _)) h2

theorem generateInterfaceName_proposal (v : VirtualIP) (hb : v.BindInterface ≠ "") (n : Nat) :
    generateInterfaceName { v with InterfaceIndex := Itoa n } = .ok (proposedName v n) := by
  simp [generateInterfaceName, hb, Itoa_ne_empty, proposedName]

theorem nonEmpty_tail {e : VirtualIP} {rest : List VirtualIP}
    (h : NonEmptyFields (e :: rest)) : NonEmptyFields rest :=
  fun x hx => h x (List.mem_cons_of_mem _ hx)

/-- On a well-formed map the inner scan never fails and answers exactly whether the
proposed name is taken. -/
theorem acceptable_spec (p : String) (m : List VirtualIP) (hwf : NonEmptyFields m) :
    (Taken m p ∧ proposedInterfaceNameIsAcceptable p m = .ok false) ∨
    (¬ Taken m p ∧ proposedInterfaceNameIsAcceptable p m = .ok true) := by
  induction m with
  | nil => right; simp [Taken, proposedInterfaceNameIsAcceptable]
  | cons e rest ih =>
    have he := hwf e (List.mem_cons_self _ _)
    have hgen := generateInterfaceName_of_nonempty e he.1 he.2
    by_cases hp : p = e.BindInterface ++ virtualInterfacePrefix ++ e.InterfaceIndex
    · left
      refine ⟨⟨e, List.mem_cons_self _ _, by rw [hgen, hp]⟩, ?_⟩
      simp [proposedInterfaceNameIsAcceptable, hgen, hp]
    · rcases ih (nonEmpty_tail hwf) with ⟨ht, hr⟩ | ⟨ht, hr⟩
      · left
        obtain ⟨x, hx, hxn⟩ := ht
        refine ⟨⟨x, List.mem_cons_of_mem _ hx, hxn⟩, ?_⟩
        simp [proposedInterfaceNameIsAcceptable, hgen, hp, hr]
      · right
        refine ⟨?_, ?_⟩
        · rintro ⟨x, hx, hxn⟩
          rcases List.mem_cons.1 hx with rfl | hx
          · rw [hgen] at hxn
            exact hp (Except.ok.inj hxn).symm
          · exact ht ⟨x, hx, hxn⟩
        · simp [proposedInterfaceNameIsAcceptable, hgen, hp, hr]

/-- If every index of the scanned window is taken, the outer loop runs out. -/
theorem determineLoop_exhausted (v : VirtualIP) (m : List VirtualIP) (maxIndex : Nat)
    (hb : v.BindInterface ≠ "") (hwf : NonEmptyFields m) :
    ∀ (remaining i : Nat),
      (∀ k, i ≤ k → k < i + remaining → Taken m (proposedName v k)) →
      determineLoop v m maxIndex remaining i =
        .error ("There are over " ++ Itoa maxIndex ++
          " virtual IP interfaces. Could not generate index.") := by
  intro remaining
  induction remaining with
  | zero => intro i _; rfl
  | succ r ih =>
    intro i h
    have hi : Taken m (proposedName v i) := h i (Nat.le_refl _) (by omega)
    rcases acceptable_spec (proposedName v i) m hwf with ⟨_, hr⟩ | ⟨ht, _⟩
    · simp only [determineLoop, generateInterfaceName_proposal v hb, hr]
      exact ih (i + 1) (fun k hk1 hk2 => h k (by omega) (by omega))
    · exact absurd hi ht

/-- If some index of the scanned window is free, the outer loop returns the first one. -/
theorem determineLoop_found (v : VirtualIP) (m : List VirtualIP) (maxIndex : Nat)
    (hb : v.BindInterface ≠ "") (hwf : NonEmptyFields m) (n : Nat) :
    ∀ (remaining i : Nat), i ≤ n → n < i + remaining →
      ¬ Taken m (proposedName v n) →
      (∀ k, i ≤ k → k < n → Taken m (proposedName v k)) →
      determineLoop v m maxIndex remaining i = .ok (Itoa n) := by
  intro remaining
  induction remaining with
  | zero => intro i h1 h2; omega
  | succ r ih =>
    intro i h1 h2 hfree hbelow
    rcases acceptable_spec (proposedName v i) m hwf with ⟨ht, hr⟩ | ⟨ht, hr⟩
    · have hne : i ≠ n := fun h => hfree (h ▸ ht)
      simp only [determineLoop, generateInterfaceName_proposal v hb, hr]
      exact ih (i + 1) (by omega) (by omega) hfree
        (fun k hk1 hk2 => hbelow k (by omega) hk2)
    · have hin : i = n := by
        by_contra hne
        exact ht (hbelow i (Nat.le_refl _) (by omega))
      subst hin
      simp only [determineLoop, generateInterfaceName_proposal v hb, hr]

/-- Complete description of `determineVirtualInterfaceIndex` on well-formed input. -/
theorem determine_cases (v : VirtualIP) (m : List VirtualIP)
    (hb : v.BindInterface ≠ "") (hwf : NonEmptyFields m) :
    ((∀ n, n < 100 → Taken m (proposedName v n)) ∧
      determineVirtualInterfaceIndex v m =
        .error ("There are over " ++ Itoa 100 ++
          " virtual IP interfaces. Could not generate index.")) ∨
    (∃ n, n < 100 ∧ ¬ Taken m (proposedName v n) ∧
      (∀ k, k < n → Taken m (proposedName v k)) ∧
      determineVirtualInterfaceIndex v m = .ok (Itoa n)) := by
  classical
  by_cases hall : ∀ n, n < 100 → Taken m (proposedName v n)
  · left
    exact ⟨hall, determineLoop_exhausted v m 100 hb hwf 100 0
      (fun k _ hk => hall k (by omega))⟩
  · right
    have hex : ∃ n, n < 100 ∧ ¬ Taken m (proposedName v n) := by
      by_contra hno
      exact hall (fun n hn => by
        by_contra ht
        exact hno ⟨n, hn, ht⟩)
    refine ⟨Nat.find hex, (Nat.find_spec hex).1, (Nat.find_spec hex).2, ?_, ?_⟩
    · intro k hk
      by_contra ht
      exact Nat.find_min hex hk ⟨by have := (Nat.find_spec hex).1; omega, ht⟩
    · refine determineLoop_found v m 100 hb hwf (Nat.find hex) 100 0 (Nat.zero_le _)
        (by have := (Nat.find_spec hex).1; omega) (Nat.find_spec hex).2 ?_
      intro k _ hk
      by_contra ht
      exact Nat.find_min hex hk ⟨by have := (Nat.find_spec hex).1; omega, ht⟩

/-! ### Claims on `generateInterfaceName` and `determineVirtualInterfaceIndex` -/

/-- C3: `generateInterfaceName` fails exactly when `BindInterface` or `InterfaceIndex` is
empty, and otherwise returns `BindInterface ++ ":zvip" ++ InterfaceIndex`. -/
theorem generateInterfaceName_spec (virtualIP : VirtualIP) :
    ((∃ err, generateInterfaceName virtualIP = .error err) ↔
      (virtualIP.BindInterface = "" ∨ virtualIP.InterfaceIndex = "")) ∧
    (¬ (virtualIP.BindInterface = "" ∨ virtualIP.InterfaceIndex = "") →
      generateInterfaceName virtualIP =
        .ok (virtualIP.BindInterface ++ ":zvip" ++ virtualIP.InterfaceIndex)) := by
  by_cases hb : virtualIP.BindInterface = ""
  · simp [generateInterfaceName, hb]
  · by_cases hi : virtualIP.InterfaceIndex = ""
    · simp [generateInterfaceName, hb, hi]
    · simp [generateInterfaceName, hb, hi, virtualInterfacePrefix]

/-- C1: on a virtual IP with a non-empty `BindInterface` and a map whose entries all have
non-empty fields, a successful `determineVirtualInterfaceIndex` returns the decimal
string of the smallest `n < 100` whose name `BindInterface:zvip<n>` is generated by no
entry, every smaller index being taken by some entry. -/
theorem determineVirtualInterfaceIndex_smallest_free (virtualIPToAdd : VirtualIP)
    (interfaceMap : List VirtualIP) (s : String)
    (hb : virtualIPToAdd.BindInterface ≠ "") (hwf : NonEmptyFields interfaceMap)
    (hs : determineVirtualInterfaceIndex virtualIPToAdd interfaceMap = .ok s) :
    ∃ n, n < 100 ∧ s = Itoa n ∧
      (∀ e ∈ interfaceMap, generateInterfaceName e ≠
        .ok (virtualIPToAdd.BindInterface ++ ":zvip" ++ Itoa n)) ∧
      (∀ k, k < n → ∃ e ∈ interfaceMap, generateInterfaceName e =
        .ok (virtualIPToAdd.BindInterface ++ ":zvip" ++ Itoa k)) := by
  rcases determine_cases virtualIPToAdd interfaceMap hb hwf with ⟨_, herr⟩ | ⟨n, hn, hfree, hbelow, hok⟩
  · rw [herr] at hs; cases hs
  · rw [hok] at hs
    refine ⟨n, hn, (Except.ok.inj hs).symm, ?_, hbelow⟩
    intro e he hgen
    exact hfree ⟨e, he, hgen⟩

/-- C1 at `vipEth0`, `mapEth`: the result is `"2"`. -/
theorem determineVirtualInterfaceIndex_smallest_free_witness :
    ∃ n, n < 100 ∧ "2" = Itoa n ∧
      (∀ e ∈ mapEth, generateInterfaceName e ≠
        .ok (vipEth0.BindInterface ++ ":zvip" ++ Itoa n)) ∧
      (∀ k, k < n → ∃ e ∈ mapEth, generateInterfaceName e =
        .ok (vipEth0.BindInterface ++ ":zvip" ++ Itoa k)) :=
  determineVirtualInterfaceIndex_smallest_free vipEth0 mapEth "2" (by decide) (by decide)
    (by decide)

/-! ### Aliases on other base interfaces -/

/-- A name splits at `:zvip` in one way only, when what follows the separator holds no
further separator on one side and no `:` on the other. -/
theorem sep_split_unique :
    ∀ (a b s t : List Char), ¬ ([':', 'z', 'v', 'i', 'p'] <:+: s) → ':' ∉ t →
      a ++ ':' :: 'z' :: 'v' :: 'i' :: 'p' :: s = b ++ ':' :: 'z' :: 'v' :: 'i' :: 'p' :: t →
      a = b := by
  intro a
  induction a with
  | nil =>
    intro b s t hs ht h
    rcases b with _ | ⟨x, _ | ⟨y1, _ | ⟨y2, _ | ⟨y3, _ | ⟨y4, b5⟩⟩⟩⟩⟩
    · rfl
    · simp at h
    · simp at h
    · simp at h
    · simp at h
    · simp only [List.nil_append, List.cons_append, List.cons.injEq] at h
      exact absurd ⟨b5, t, by simp [h.2.2.2.2.2]⟩ hs
  | cons x a ih =>
    intro b s t hs ht h
    cases b with
    | nil =>
      simp only [List.nil_append, List.cons_append, List.cons.injEq] at h
      have hmem : ':' ∈ a ++ ':' :: 'z' :: 'v' :: 'i' :: 'p' :: s := by simp
      rw [h.2] at hmem
      simp [ht] at hmem
    | cons y b =>
      simp only [List.cons_append, List.cons.injEq] at h
      rw [h.1, ih b s t hs ht h.2]

theorem Itoa_no_colon : ∀ n, n < 100 → ':' ∉ (Itoa n).data := by decide

/-- An entry whose index holds no separator and whose name is a proposed name of the
virtual IP sits on the virtual IP's base interface. -/
theorem sameBase_of_name_eq (v e : VirtualIP) (n : Nat) (hn : n < 100)
    (hidx : ¬ hasSeparator e.InterfaceIndex)
    (h : e.BindInterface ++ virtualInterfacePrefix ++ e.InterfaceIndex = proposedName v n) :
    e.BindInterface = v.BindInterface := by
  have hd := congrArg String.data h
  simp only [proposedName, String.data_append] at hd
  have hp : virtualInterfacePrefix.data = [':', 'z', 'v', 'i', 'p'] := rfl
  simp only [hasSeparator, hp] at hidx
  rw [hp] at hd
  simp only [List.append_assoc, List.cons_append, List.nil_append] at hd
  exact String.ext (sep_split_unique _ _ _ _ hidx (Itoa_no_colon n hn) hd)

theorem nonEmpty_of_wellFormed {m : List VirtualIP} (hwf : WellFormedMap m) :
    NonEmptyFields m :=
  fun e he => (hwf e he).1

theorem nonEmpty_sameBase (v : VirtualIP) (m : List VirtualIP) (hne : NonEmptyFields m) :
    NonEmptyFields (sameBase v m) :=
  fun e he => hne e (List.mem_filter.1 he).1

/-- On a well-formed map a proposed name is taken exactly when it is taken among the
entries on the same base interface. -/
theorem taken_sameBase_iff (v : VirtualIP) (m : List VirtualIP) (hwf : WellFormedMap m)
    (n : Nat) (hn : n < 100) :
    Taken m (proposedName v n) ↔ Taken (sameBase v m) (proposedName v n) := by
  constructor
  · rintro ⟨e, he, hgen⟩
    refine ⟨e, List.mem_filter.2 ⟨he, ?_⟩, hgen⟩
    have hwe := hwf e he
    rw [generateInterfaceName_of_nonempty e hwe.1.1 hwe.1.2] at hgen
    have hname := Except.ok.inj hgen
    simpa using sameBase_of_name_eq v e n hn hwe.2.2 hname
  · rintro ⟨e, he, hgen⟩
    exact ⟨e, (List.mem_filter.1 he).1, hgen⟩

theorem determine_error_iff (v : VirtualIP) (m : List VirtualIP)
    (hb : v.BindInterface ≠ "") (hne : NonEmptyFields m) :
    (∃ err, determineVirtualInterfaceIndex v m = .error err) ↔
      ∀ n, n < 100 → Taken m (proposedName v n) := by
  rcases determine_cases v m hb hne with ⟨hall, herr⟩ | ⟨n, hn, hfree, _, hok⟩
  · exact ⟨fun _ => hall, fun _ => ⟨_, herr⟩⟩
  · constructor
    · rintro ⟨err, herr⟩
      rw [hok] at herr; cases herr
    · intro hall
      exact absurd (hall n hn) hfree

/-- On a well-formed map the result is the result on the entries of the same base
interface alone. -/
theorem determine_sameBase (v : VirtualIP) (m : List VirtualIP)
    (hb : v.BindInterface ≠ "") (hwf : WellFormedMap m) :
    determineVirtualInterfaceIndex v m = determineVirtualInterfaceIndex v (sameBase v m) := by
  have hne := nonEmpty_of_wellFormed hwf
  have hne2 := nonEmpty_sameBase v m hne
  rcases determine_cases v m hb hne with ⟨hall, herr⟩ | ⟨n, hn, hfree, hbelow, hok⟩
  · rw [herr]
    exact (determineLoop_exhausted v (sameBase v m) 100 hb hne2 100 0
      (fun k _ hk => (taken_sameBase_iff v m hwf k (by omega)).1 (hall k (by omega)))).symm
  · rw [hok]
    exact (determineLoop_found v (sameBase v m) 100 hb hne2 n 100 0 (Nat.zero_le _)
      (by omega) (fun h => hfree ((taken_sameBase_iff v m hwf n hn).2 h))
      (fun k _ hk => (taken_sameBase_iff v m hwf k (by omega)).1 (hbelow k hk))).symm

theorem mapNested_taken (n : Nat) (hn : n < 100) :
    Taken mapNested (proposedName vipNested n) := by
  refine ⟨⟨"", "", "", "eth0", "0:zvip" ++ Itoa n⟩, ?_, ?_⟩
  · exact List.mem_map.2 ⟨n, List.mem_range.2 hn, rfl⟩
  · have h0 : ("0:zvip" ++ Itoa n) ≠ "" := by
      intro h
      have := congrArg String.data h
      simp [String.data_append] at this
    have hb0 : ("eth0" : String) ≠ "" := by decide
    rw [generateInterfaceName_of_nonempty _ hb0 h0]
    simp only [proposedName, vipNested, virtualInterfacePrefix, ← String.append_assoc]
    rfl

/-- The separator condition of `WellFormedMap` is needed: all fields of `mapNested` are
non-empty and all of its hundred aliases sit on base interface `eth0`, not on
`eth0:zvip0`, but their indices hold the separator, and the allocation for `vipNested`
fails on them, while on the aliases of its own base interface (none) it returns `0`. -/
theorem nested_indices_cause_failure :
    vipNested.BindInterface ≠ "" ∧ NonEmptyFields mapNested ∧
    (∀ e ∈ mapNested, e.BindInterface ≠ vipNested.BindInterface) ∧
    determineVirtualInterfaceIndex vipNested mapNested =
      .error "There are over 100 virtual IP interfaces. Could not generate index." ∧
    determineVirtualInterfaceIndex vipNested (sameBase vipNested mapNested) = .ok "0" := by
  refine ⟨by decide, by decide, by decide, ?_, by decide⟩
  exact determineLoop_exhausted vipNested mapNested 100 (by decide) (by decide) 100 0
    (fun k _ hk => mapNested_taken k (by omega))

/-- C2: for a virtual IP with a non-empty `BindInterface` and a well-formed interface
map, `determineVirtualInterfaceIndex` fails exactly when all hundred names
`BindInterface:zvip0 .. BindInterface:zvip99` are generated by entries of the map; the
aliases on other base interfaces have no part in it, the result being the one obtained
on the aliases of the virtual IP's own base interface alone; and every successful
result is the decimal string of an index below 100. -/
theorem determineVirtualInterfaceIndex_error_iff (virtualIPToAdd : VirtualIP)
    (interfaceMap : List VirtualIP)
    (hb : virtualIPToAdd.BindInterface ≠ "") (hwf : WellFormedMap interfaceMap) :
    ((∃ err, determineVirtualInterfaceIndex virtualIPToAdd interfaceMap = .error err) ↔
      ∀ n, n < 100 → ∃ e ∈ interfaceMap, generateInterfaceName e =
        .ok (virtualIPToAdd.BindInterface ++ ":zvip" ++ Itoa n)) ∧
    determineVirtualInterfaceIndex virtualIPToAdd interfaceMap =
      determineVirtualInterfaceIndex virtualIPToAdd
        (interfaceMap.filter (fun e => e.BindInterface = virtualIPToAdd.BindInterface)) ∧
    (∀ s, determineVirtualInterfaceIndex virtualIPToAdd interfaceMap = .ok s →
      ∃ n, n < 100 ∧ s = Itoa n) := by
  have hne := nonEmpty_of_wellFormed hwf
  refine ⟨determine_error_iff virtualIPToAdd interfaceMap hb hne,
    determine_sameBase virtualIPToAdd interfaceMap hb hwf, ?_⟩
  intro s hs
  rcases determine_cases virtualIPToAdd interfaceMap hb hne with ⟨_, herr⟩ | ⟨n, hn, _, _, hok⟩
  · rw [herr] at hs; cases hs
  · rw [hok] at hs
    exact ⟨n, hn, (Except.ok.inj hs).symm⟩

/-- C2 at `vipEth0`, `mapEth`. -/
theorem determineVirtualInterfaceIndex_error_iff_witness :
    ((∃ err, determineVirtualInterfaceIndex vipEth0 mapEth = .error err) ↔
      ∀ n, n < 100 → ∃ e ∈ mapEth, generateInterfaceName e =
        .ok (vipEth0.BindInterface ++ ":zvip" ++ Itoa n)) ∧
    determineVirtualInterfaceIndex vipEth0 mapEth =
      determineVirtualInterfaceIndex vipEth0
        (mapEth.filter (fun e => e.BindInterface = vipEth0.BindInterface)) ∧
    (∀ s, determineVirtualInterfaceIndex vipEth0 mapEth = .ok s →
      ∃ n, n < 100 ∧ s = Itoa n) :=
  determineVirtualInterfaceIndex_error_iff vipEth0 mapEth (by decide) (by decide)

/-! ## The host watcher's supervisor map -/

theorem mapGet_mapDelete (processing : Processing) (id name : String) :
    mapGet (mapDelete processing id) name =
      if name = id then none else mapGet processing name := by
  induction processing with
  | nil => simp [mapGet, mapDelete]
  | cons kv rest ih =>
    obtain ⟨k, c⟩ := kv
    simp only [mapGet, mapDelete] at ih ⊢
    by_cases hk : k = id
    · have hf : List.filter (fun kv : String × Nat => decide (kv.1 ≠ id)) ((k, c) :: rest)
          = List.filter (fun kv : String × Nat => decide (kv.1 ≠ id)) rest := by
        simp [List.filter_cons, hk]
      rw [hf, ih]
      by_cases hn : name = id
      · simp [hn]
      · have hne : (name == k) = false := by simpa [hk] using hn
        simp [hn, List.lookup_cons, hne]
    · have hf : List.filter (fun kv : String × Nat => decide (kv.1 ≠ id)) ((k, c) :: rest)
          = (k, c) :: List.filter (fun kv : String × Nat => decide (kv.1 ≠ id)) rest := by
        simp [List.filter_cons, hk]
      rw [hf, List.lookup_cons, List.lookup_cons, ih]
      by_cases hnk : name = k
      · have hni : ¬ name = id := fun h => hk (hnk ▸ h)
        simp [hnk, hk]
      · have hne : (name == k) = false := by simpa using hnk
        simp [hne]

theorem mapGet_mapSet_self (processing : Processing) (name : String) (c : Nat) :
    mapGet (mapSet processing name c) name = some c := by
  simp [mapGet, mapSet, List.lookup_cons]

theorem mapGet_mapSet_ne (processing : Processing) (name other : String) (c : Nat)
    (h : other ≠ name) :
    mapGet (mapSet processing name c) other = mapGet processing other := by
  have hne : (other == name) = false := by simpa using h
  have hd := mapGet_mapDelete processing name other
  simp only [mapGet] at hd
  simp [mapGet, mapSet, List.lookup_cons, hne, hd, h]

/-- What one call of `startMissingChildren` adds to the log and the map. -/
theorem startMissingChildren_spec (children : List String) :
    ∀ w : Watcher, ∃ new : List Spawn,
      (startMissingChildren children w).spawned = w.spawned ++ new ∧
      (new.map Spawn.childName).Nodup ∧
      (∀ name, name ∈ new.map Spawn.childName ↔
        (name ∈ children ∧ mapGet w.processing name = none)) ∧
      (∀ sp ∈ new, mapGet (startMissingChildren children w).processing sp.childName =
        some sp.childChannel) ∧
      (∀ name, name ∉ new.map Spawn.childName →
        mapGet (startMissingChildren children w).processing name =
          mapGet w.processing name) := by
  induction children with
  | nil =>
    intro w
    exact ⟨[], by simp [startMissingChildren], by simp, by simp, by simp,
      by simp [startMissingChildren]⟩
  | cons c rest ih =>
    intro w
    by_cases hc : mapGet w.processing c = none
    · obtain ⟨new1, hsp, hnd, hiff, hins, hkeep⟩ := ih
        { processing := mapSet w.processing c w.nextChan
          nextChan := w.nextChan + 1
          spawned := w.spawned ++ [⟨c, w.nextChan⟩] }
      have hcnot : c ∉ new1.map Spawn.childName := by
        intro hmem
        have := ((hiff c).1 hmem).2
        simp [mapGet_mapSet_self] at this
      refine ⟨⟨c, w.nextChan⟩ :: new1, ?_, ?_, ?_, ?_, ?_⟩
      · simp only [startMissingChildren, hc, if_true]
        rw [hsp]; simp
      · simpa using ⟨by simpa using hcnot, hnd⟩
      · intro name
        by_cases hn : name = c
        · subst hn; simp [hc]
        · have := hiff name
          simp only [mapGet_mapSet_ne _ _ _ _ hn] at this
          simp only [List.map_cons, List.mem_cons, hn, false_or]
          exact this
      · intro sp hsp'
        simp only [startMissingChildren, hc, if_true]
        rcases List.mem_cons.1 hsp' with rfl | hmem
        · rw [hkeep c hcnot]
          exact mapGet_mapSet_self _ _ _
        · exact hins sp hmem
      · intro name hname
        simp only [List.map_cons, List.mem_cons, not_or] at hname
        simp only [startMissingChildren, hc, if_true]
        rw [hkeep name hname.2]
        exact mapGet_mapSet_ne _ _ _ _ hname.1
    · obtain ⟨new1, hsp, hnd, hiff, hins, hkeep⟩ := ih w
      refine ⟨new1, ?_, hnd, ?_, ?_, ?_⟩
      · simp only [startMissingChildren, hc, if_false]; exact hsp
      · intro name
        rw [hiff name]
        constructor
        · rintro ⟨h1, h2⟩; exact ⟨List.mem_cons_of_mem _ h1, h2⟩
        · rintro ⟨h1, h2⟩
          rcases List.mem_cons.1 h1 with rfl | h1
          · exact absurd h2 hc
          · exact ⟨h1, h2⟩
      · intro sp hmem
        simp only [startMissingChildren, hc, if_false]; exact hins sp hmem
      · intro name hname
        simp only [startMissingChildren, hc, if_false]; exact hkeep name hname

/-- With every child already in the map the call changes nothing. -/
theorem startMissingChildren_noop (children : List String) (w : Watcher)
    (h : ∀ name ∈ children, mapGet w.processing name ≠ none) :
    startMissingChildren children w = w := by
  induction children with
  | nil => rfl
  | cons c rest ih =>
    have hc := h c (List.mem_cons_self _ _)
    simp only [startMissingChildren, hc, if_false]
    exact ih (fun name hn => h name (List.mem_cons_of_mem _ hn))

/-- C4: `startMissingChildren` appends to the log of spawned supervisors one entry per
distinct child name that is not yet in the map, no entry for any other name, stores each
new supervisor's channel in the map under its name and leaves the entries of all other
names as they were; a second call with the same children changes nothing. -/
theorem startMissingChildren_spawns_once (children : List String) (w : Watcher) :
    (∃ new : List Spawn,
      (startMissingChildren children w).spawned = w.spawned ++ new ∧
      (new.map Spawn.childName).Nodup ∧
      (∀ name, name ∈ new.map Spawn.childName ↔
        (name ∈ children ∧ mapGet w.processing name = none)) ∧
      (∀ sp ∈ new, mapGet (startMissingChildren children w).processing sp.childName =
        some sp.childChannel) ∧
      (∀ name c, mapGet w.processing name = some c →
        mapGet (startMissingChildren children w).processing name = some c)) ∧
    startMissingChildren children (startMissingChildren children w) =
      startMissingChildren children w := by
  obtain ⟨new, hsp, hnd, hiff, hins, hkeep⟩ := startMissingChildren_spec children w
  refine ⟨⟨new, hsp, hnd, hiff, hins, ?_⟩, ?_⟩
  · intro name c hc
    have hnot : name ∉ new.map Spawn.childName := by
      intro hmem
      have := ((hiff name).1 hmem).2
      rw [hc] at this; cases this
    rw [hkeep name hnot, hc]
  · apply startMissingChildren_noop
    intro name hname
    by_cases hin : name ∈ new.map Spawn.childName
    · obtain ⟨sp, hsp', rfl⟩ := List.mem_map.1 hin
      rw [hins sp hsp']; simp
    · rw [hkeep name hin]
      intro hnone
      exact hin ((hiff name).2 ⟨hname, hnone⟩)

/-! ## The host watcher's loop -/

/-- The log of spawned supervisors only grows along the loop. -/
theorem watchLoop_spawned_prefix (inputs : List WatchInput) :
    ∀ w : Watcher, ∃ more, (watchLoop w inputs).watcher.spawned = w.spawned ++ more := by
  induction inputs with
  | nil => intro w; exact ⟨[], by simp [watchLoop]⟩
  | cons input rest ih =>
    intro w
    cases input with
    | childrenErr err => exact ⟨[], by simp [watchLoop]⟩
    | children names sel =>
      obtain ⟨new, hnew, -⟩ := startMissingChildren_spec names w
      cases sel with
      | closing results =>
        refine ⟨new, ?_⟩
        simp only [watchLoop]
        split <;> exact hnew
      | ssDone ssResult =>
        obtain ⟨more, hmore⟩ := ih
          { startMissingChildren names w with
            processing := mapDelete (startMissingChildren names w).processing ssResult.id }
        refine ⟨new ++ more, ?_⟩
        simp only [watchLoop]
        rw [hmore]
        simp [hnew]
      | zkEvent =>
        obtain ⟨more, hmore⟩ := ih (startMissingChildren names w)
        refine ⟨new ++ more, ?_⟩
        simp only [watchLoop]
        rw [hmore, hnew]
        simp

/-- A call of `processChildrenAndWait` spawns a supervisor for every child of its first
listing. -/
theorem processChildrenAndWait_spawns_all (nextChan : Nat) (names : List String)
    (sel : SelectCase) (rest : List WatchInput) :
    ∀ name ∈ names, ∃ sp ∈
      (processChildrenAndWait nextChan (.children names sel :: rest)).watcher.spawned,
      sp.childName = name := by
  intro name hname
  obtain ⟨new, hnew, -, hiff, -⟩ := startMissingChildren_spec names
    { processing := [], nextChan := nextChan, spawned := [] }
  have hmem : name ∈ new.map Spawn.childName := (hiff name).2 ⟨hname, by simp [mapGet]⟩
  obtain ⟨sp, hsp, hspn⟩ := List.mem_map.1 hmem
  obtain ⟨more, hmore⟩ := watchLoop_spawned_prefix (.children names sel :: rest)
    { processing := [], nextChan := nextChan, spawned := [] }
  have hstart : (startMissingChildren names
      { processing := [], nextChan := nextChan, spawned := [] }).spawned = new := by
    simpa using hnew
  refine ⟨sp, ?_, hspn⟩
  simp only [processChildrenAndWait]
  cases sel with
  | closing results =>
    simp only [watchLoop]
    split <;> (rw [hstart]; exact hsp)
  | ssDone ssResult =>
    simp only [watchLoop]
    obtain ⟨more1, hmore1⟩ := watchLoop_spawned_prefix rest
      { startMissingChildren names { processing := [], nextChan := nextChan, spawned := [] } with
        processing := mapDelete (startMissingChildren names
          { processing := [], nextChan := nextChan, spawned := [] }).processing ssResult.id }
    rw [hmore1]
    simp only [hstart]
    exact List.mem_append_left _ hsp
  | zkEvent =>
    simp only [watchLoop]
    obtain ⟨more1, hmore1⟩ := watchLoop_spawned_prefix rest
      (startMissingChildren names { processing := [], nextChan := nextChan, spawned := [] })
    rw [hmore1, hstart]
    exact List.mem_append_left _ hsp

/-- C5 (as stated, refuted): on `sessionsLost` the first call of
`processChildrenAndWait` returns true after `ChildrenW` failed, with the supervisor of
`i1` (channel 0) still in its map: it has reported no result and was sent no shutdown
signal.  The second call spawns a supervisor for `i1` again (channel 1). -/
theorem session_loss_spawns_duplicate :
    start 0 sessionsLost =
      [{ result := some true
         watcher := { processing := [("i1", 0)], nextChan := 1, spawned := [⟨"i1", 0⟩] }
         signalled := [], errc := none },
       { result := none
         watcher := { processing := [("i1", 1)], nextChan := 2, spawned := [⟨"i1", 1⟩] }
         signalled := [], errc := none }] := by
  decide

/-- C5 (amended): when a call of `processChildrenAndWait` has returned true, the outer
loop of `start` calls it again, and that call, which starts from an empty map, spawns a
supervisor for every child of its first listing, whatever supervisors the earlier call
left in its map. -/
theorem start_respawns_after_session_loss (nextChan : Nat) (inputs : List WatchInput)
    (names : List String) (sel : SelectCase) (rest : List WatchInput)
    (hlost : (processChildrenAndWait nextChan inputs).result = some true) :
    ∃ o2, start nextChan [.connected inputs, .connected (.children names sel :: rest)] =
        [processChildrenAndWait nextChan inputs, o2] ∧
      ∀ name ∈ names, ∃ sp ∈ o2.watcher.spawned, sp.childName = name := by
  refine ⟨processChildrenAndWait (processChildrenAndWait nextChan inputs).watcher.nextChan
    (.children names sel :: rest), ?_, processChildrenAndWait_spawns_all _ names sel rest⟩
  simp only [start, hlost]
  split <;> rfl

/-- C5 (amended) at the two sessions of `sessionsLost`. -/
theorem start_respawns_after_session_loss_witness :
    ∃ o2, start 0 [.connected [.children ["i1"] .zkEvent, .childrenErr "zk: session has been expired"],
        .connected (.children ["i1"] .zkEvent :: [])] =
        [processChildrenAndWait 0
          [.children ["i1"] .zkEvent, .childrenErr "zk: session has been expired"], o2] ∧
      ∀ name ∈ ["i1"], ∃ sp ∈ o2.watcher.spawned, sp.childName = name :=
  start_respawns_after_session_loss 0
    [.children ["i1"] .zkEvent, .childrenErr "zk: session has been expired"] ["i1"] .zkEvent []
    (by decide)

/-- Once every supervisor of the map has a result among those arriving, the receive loop
of `waitForSsNodes` ends with an empty map. -/
theorem waitLoop_complete (results : List stateResult) :
    ∀ (processing : Processing) (err : Option String),
      (∀ kv ∈ processing, ∃ r ∈ results, r.id = kv.1) →
      ∃ e unread, waitLoop processing err results = some (e, [], unread) := by
  induction results with
  | nil =>
    intro processing err h
    cases processing with
    | nil => exact ⟨err, [], by simp [waitLoop]⟩
    | cons kv rest =>
      obtain ⟨r, hr, _⟩ := h kv (List.mem_cons_self _ _)
      cases hr
  | cons r rest ih =>
    intro processing err h
    cases processing with
    | nil => exact ⟨err, r :: rest, by simp [waitLoop]⟩
    | cons kv more =>
      have hrec : ∀ kv1 ∈ mapDelete (kv :: more) r.id, ∃ r1 ∈ rest, r1.id = kv1.1 := by
        intro kv1 hkv1
        have hmem := List.mem_filter.1 hkv1
        obtain ⟨r1, hr1, hid⟩ := h kv1 hmem.1
        rcases List.mem_cons.1 hr1 with rfl | hr1
        · have hne : kv1.1 ≠ r1.id := by simpa using hmem.2
          exact absurd hid.symm hne
        · exact ⟨r1, hr1, hid⟩
      obtain ⟨e, unread, he⟩ := ih (mapDelete (kv :: more) r.id)
        (if err = none ∧ r.err ≠ none then r.err else err) hrec
      exact ⟨e, unread, by simp only [waitLoop, List.length_cons, Nat.succ_pos, if_true, he,
        gt_iff_lt, Nat.zero_lt_succ]⟩

/-- C6 (as stated, refuted): on `inputsShutdown` the loop signals `i1`, receives its
result, and returns false, not true. -/
theorem shutdown_returns_false :
    processChildrenAndWait 0 inputsShutdown =
      { result := some false
        watcher := { processing := [], nextChan := 1, spawned := [⟨"i1", 0⟩] }
        signalled := [("i1", 0)], errc := some none } := by
  decide

/-- C6 (amended): when the `select` of the loop receives the shutdown request, every
supervisor of the map (after `startMissingChildren`) is sent the shutdown signal; if a
result arrives from each of them, the results are drained until the map is empty, an
error value is sent back on the request's channel, and the loop returns false. -/
theorem watchLoop_shutdown (w : Watcher) (names : List String) (results : List stateResult)
    (rest : List WatchInput)
    (hres : ∀ kv ∈ (startMissingChildren names w).processing, ∃ r ∈ results, r.id = kv.1) :
    ∃ err, watchLoop w (.children names (.closing results) :: rest) =
      { result := some false
        watcher := { startMissingChildren names w with processing := [] }
        signalled := (startMissingChildren names w).processing
        errc := some err } := by
  obtain ⟨e, unread, he⟩ := waitLoop_complete results _ none hres
  exact ⟨e, by simp [watchLoop, waitForSsNodes, he]⟩

/-- C6 (amended) at a watcher that already supervises `i1` and is told to list `i2`. -/
theorem watchLoop_shutdown_witness :
    ∃ err, watchLoop ⟨[("i1", 0)], 1, [⟨"i1", 0⟩]⟩
        (.children ["i2"] (.closing [⟨"i2", some "boom"⟩, ⟨"i1", none⟩]) :: []) =
      { result := some false
        watcher := { startMissingChildren ["i2"] ⟨[("i1", 0)], 1, [⟨"i1", 0⟩]⟩ with
          processing := [] }
        signalled := (startMissingChildren ["i2"] ⟨[("i1", 0)], 1, [⟨"i1", 0⟩]⟩).processing
        errc := some err } :=
  watchLoop_shutdown ⟨[("i1", 0)], 1, [⟨"i1", 0⟩]⟩ ["i2"]
    [⟨"i2", some "boom"⟩, ⟨"i1", none⟩] [] (by decide)

/-! ## The supervisor's switch and `markTerminated` -/

/-- What the switch does for a supervisor that is not attached and whose desired state
is not stop: `startService` is called exactly when the desired state is run and the
instance never started, or the instance has terminated (whatever the desired state). -/
theorem processServiceStateSwitch_startService_iff (hss : HostServiceState)
    (ss : ServiceState) (hstop : hss.DesiredState ≠ DesiredState.stop) :
    processServiceStateSwitch false hss ss = .startService ↔
      ((hss.DesiredState = DesiredState.run ∧ ss.Started.Year ≤ 1) ∨
        ss.Terminated.Year > 2) := by
  unfold processServiceStateSwitch
  simp only [hstop, if_false, Bool.false_eq_true]
  split
  · simp_all
  · split <;> simp_all

/-- C7 (the code at the failing input): with desired state pause, not attached and an
observed state terminated in 2014, the switch calls `startService`. -/
theorem processServiceStateSwitch_starts_paused :
    processServiceStateSwitch false (hssOf .pause) ssTerminated = .startService ∧
    (hssOf .pause).DesiredState ≠ DesiredState.run ∧
    (hssOf .pause).DesiredState ≠ DesiredState.stop := by
  decide

/-- C8 (the code at the failing input): on a store with the desired-state znode and no
observed-state znode, `markTerminated` changes nothing; the desired-state znode is
still there. -/
theorem markTerminated_keeps_desired :
    storeDesiredOnly.Exists (ServiceStatePath "s1" "i1") = false ∧
    markTerminated storeDesiredOnly (hssOf .stop) = storeDesiredOnly ∧
    (markTerminated storeDesiredOnly (hssOf .stop)).Exists
      (HostServiceStatePath "h1" "i1") = true := by
  decide

/-! ## node/container.go -/

/-- C9: `StopContainer` returns nil exactly when the lookup of `<serviceID>-<instanceID>`
answers `ErrNoSuchContainer`, or the stop succeeds, or the stop answers a
`ContainerNotRunning` error; every other lookup or stop error is returned as it is; the
stop is issued on the container found, with a grace period of 45 seconds. -/
theorem StopContainer_nil_iff (docker : Docker) (serviceID : String) (instanceID : Int) :
    ((StopContainer docker serviceID instanceID).1 = none ↔
      (docker.FindContainer (ctrName serviceID instanceID) = .error .ErrNoSuchContainer ∨
        ∃ ctr, docker.FindContainer (ctrName serviceID instanceID) = .ok ctr ∧
          (docker.Stop ctr (45 * Second) = none ∨
            ∃ id, docker.Stop ctr (45 * Second) = some (.ContainerNotRunning id)))) ∧
    (∀ err, docker.FindContainer (ctrName serviceID instanceID) = .error err →
      err ≠ .ErrNoSuchContainer →
      StopContainer docker serviceID instanceID =
        (some err, [.FindContainer (ctrName serviceID instanceID)])) ∧
    (∀ ctr err, docker.FindContainer (ctrName serviceID instanceID) = .ok ctr →
      docker.Stop ctr (45 * Second) = some err → (∀ id, err ≠ .ContainerNotRunning id) →
      (StopContainer docker serviceID instanceID).1 = some err) ∧
    (∀ ctr, docker.FindContainer (ctrName serviceID instanceID) = .ok ctr →
      (StopContainer docker serviceID instanceID).2 =
        [.FindContainer (ctrName serviceID instanceID), .Stop ctr.ID 45000000000]) := by
  refine ⟨?_, ?_, ?_, ?_⟩
  · cases hf : docker.FindContainer (ctrName serviceID instanceID) with
    | error e =>
      cases e <;> simp [StopContainer, hf]
    | ok ctr =>
      cases hs : docker.Stop ctr (45 * Second) with
      | none => simp [StopContainer, hf, hs]
      | some e => cases e <;> simp [StopContainer, hf, hs]
  · intro err hf hne
    cases err with
    | ErrNoSuchContainer => exact absurd rfl hne
    | ContainerNotRunning id => simp [StopContainer, hf]
    | other msg => simp [StopContainer, hf]
  · intro ctr err hf hs hne
    cases err with
    | ErrNoSuchContainer => simp [StopContainer, hf, hs]
    | ContainerNotRunning id => exact absurd rfl (hne id)
    | other msg => simp [StopContainer, hf, hs]
  · intro ctr hf
    have h45 : (45 * Second : Duration) = 45000000000 := rfl
    cases hs : docker.Stop ctr 45000000000 with
    | none => simp [StopContainer, hf, hs, h45]
    | some e => cases e <;> simp [StopContainer, hf, hs, h45]

/-- C9 at a runtime whose stop fails with another error: the error is returned. -/
theorem StopContainer_nil_iff_witness :
    (StopContainer (dockerOne (some (.other "timeout")) none true) "s1" 0).1 =
      some (.other "timeout") :=
  (StopContainer_nil_iff (dockerOne (some (.other "timeout")) none true) "s1" 0).2.2.1
    ⟨"B", "s1-0"⟩ (.other "timeout") (by decide) (by decide) (fun _ h => by cases h)

/-- C10: when `AttachContainer` finds under the instance's name a container whose ID is
not `containerID`, the runtime calls are the lookup, a kill and a forced delete of that
container and nothing else (no `Die` subscription), no monitor channel is returned, and
the error returned is the answer of the delete. -/
theorem AttachContainer_mismatch (docker : Docker) (containerID serviceID : String)
    (instanceID : Int) (ctr : Container)
    (hfind : docker.FindContainer (ctrName serviceID instanceID) = .ok ctr)
    (hid : ctr.ID ≠ containerID) :
    AttachContainer docker containerID serviceID instanceID =
      { ev := none
        err := docker.Delete ctr true
        calls := [.FindContainer (ctrName serviceID instanceID), .Kill ctr.ID,
          .Delete ctr.ID true] } ∧
    DockerCall.OnEventDie ctr.ID ∉
      (AttachContainer docker containerID serviceID instanceID).calls ∧
    ((AttachContainer docker containerID serviceID instanceID).err ≠ none ↔
      docker.Delete ctr true ≠ none) := by
  have h : AttachContainer docker containerID serviceID instanceID =
      { ev := none
        err := docker.Delete ctr true
        calls := [.FindContainer (ctrName serviceID instanceID), .Kill ctr.ID,
          .Delete ctr.ID true] } := by
    cases hd : docker.Delete ctr true <;> simp [AttachContainer, hfind, hid, hd]
  rw [h]
  exact ⟨rfl, by simp, Iff.rfl⟩

/-- C10 at a runtime holding container `B` under the name `s1-0`, asked to attach `A`,
with a failing delete. -/
theorem AttachContainer_mismatch_witness :
    AttachContainer (dockerOne none (some (.other "busy")) true) "A" "s1" 0 =
      { ev := none
        err := (dockerOne none (some (.other "busy")) true).Delete ⟨"B", "s1-0"⟩ true
        calls := [.FindContainer (ctrName "s1" 0), .Kill "B", .Delete "B" true] } ∧
    DockerCall.OnEventDie "B" ∉
      (AttachContainer (dockerOne none (some (.other "busy")) true) "A" "s1" 0).calls ∧
    ((AttachContainer (dockerOne none (some (.other "busy")) true) "A" "s1" 0).err ≠ none ↔
      (dockerOne none (some (.other "busy")) true).Delete ⟨"B", "s1-0"⟩ true ≠ none) :=
  AttachContainer_mismatch (dockerOne none (some (.other "busy")) true) "A" "s1" 0
    ⟨"B", "s1-0"⟩ (by decide) (by decide)

/-- C3 at a virtual IP with both fields set: the name is `eth0:zvip7`. -/
theorem generateInterfaceName_spec_witness :
    generateInterfaceName ⟨"default", "10.0.0.5", "255.255.255.0", "eth0", "7"⟩ =
      .ok ("eth0" ++ ":zvip" ++ "7") :=
  (generateInterfaceName_spec ⟨"default", "10.0.0.5", "255.255.255.0", "eth0", "7"⟩).2
    (by decide)

/-! ## Splitting and joining -/

theorem splitChars_ne_nil (sep : Char) (l : List Char) : splitChars sep l ≠ [] := by
  cases l with
  | nil => simp [splitChars]
  | cons c cs =>
    simp only [splitChars]
    split
    · simp
    · split <;> simp

theorem joinChars_cons_cons (sep : List Char) (a b : List Char) (rest : List (List Char)) :
    joinChars sep (a :: b :: rest) = a ++ sep ++ joinChars sep (b :: rest) := rfl

theorem joinChars_splitChars (sep : Char) (l : List Char) :
    joinChars [sep] (splitChars sep l) = l := by
  induction l with
  | nil => rfl
  | cons c cs ih =>
    simp only [splitChars]
    split
    · rename_i h
      obtain ⟨x, xs, hx⟩ := List.exists_cons_of_ne_nil (splitChars_ne_nil sep cs)
      rw [hx] at ih ⊢
      rw [joinChars_cons_cons, ih, h]
      rfl
    · cases hs : splitChars sep cs with
      | nil => exact absurd hs (splitChars_ne_nil sep cs)
      | cons piece pieces =>
        rw [hs] at ih
        cases pieces with
        | nil =>
          simp only [joinChars] at ih ⊢
          rw [ih]
        | cons q qs =>
          rw [joinChars_cons_cons] at ih ⊢
          simp only [List.cons_append, List.append_assoc] at ih ⊢
          rw [ih]

theorem splitChars_of_not_mem (sep : Char) (a : List Char) (h : sep ∉ a) :
    splitChars sep a = [a] := by
  induction a with
  | nil => rfl
  | cons c cs ih =>
    have hc : c ≠ sep := fun e => h (by simp [e])
    have hcs : sep ∉ cs := fun e => h (List.mem_cons_of_mem _ e)
    simp [splitChars, hc, ih hcs]

theorem splitChars_append_sep (sep : Char) (a rest : List Char) (h : sep ∉ a) :
    splitChars sep (a ++ sep :: rest) = a :: splitChars sep rest := by
  induction a with
  | nil => simp [splitChars]
  | cons c cs ih =>
    have hc : c ≠ sep := fun e => h (by simp [e])
    have hcs : sep ∉ cs := fun e => h (List.mem_cons_of_mem _ e)
    simp [splitChars, hc, ih hcs]

theorem splitChars_joinChars (sep : Char) :
    ∀ pieces : List (List Char), pieces ≠ [] → (∀ p ∈ pieces, sep ∉ p) →
      splitChars sep (joinChars [sep] pieces) = pieces := by
  intro pieces
  induction pieces with
  | nil => intro h; exact absurd rfl h
  | cons a rest ih =>
    intro _ hno
    cases rest with
    | nil => simpa [joinChars] using splitChars_of_not_mem sep a (hno a (by simp))
    | cons b more =>
      rw [joinChars_cons_cons]
      simp only [List.append_assoc, List.singleton_append]
      rw [splitChars_append_sep sep a _ (hno a (by simp)),
        ih (by simp) (fun p hp => hno p (List.mem_cons_of_mem _ hp))]

theorem not_mem_of_mem_splitChars (sep : Char) (l : List Char) :
    ∀ p ∈ splitChars sep l, sep ∉ p := by
  induction l with
  | nil => intro p hp; simp [splitChars] at hp; simp [hp]
  | cons c cs ih =>
    intro p hp
    simp only [splitChars] at hp
    split at hp
    · rcases List.mem_cons.1 hp with rfl | hp
      · simp
      · exact ih p hp
    · rename_i hc
      cases hs : splitChars sep cs with
      | nil => exact absurd hs (splitChars_ne_nil sep cs)
      | cons piece pieces =>
        rw [hs] at hp ih
        rcases List.mem_cons.1 hp with rfl | hp
        · intro hmem
          rcases List.mem_cons.1 hmem with e | e
          · exact hc e.symm
          · exact ih piece (by simp) e
        · exact ih p (List.mem_cons_of_mem _ hp)

theorem prefixLines_eq_map (pre : String) (lines : List String) :
    prefixLines pre lines = lines.map (fun line => pre ++ line) := by
  induction lines with
  | nil => rfl
  | cons s rest ih => simp [prefixLines, ih]

theorem Join_Split (s : String) (sep : Char) : Join (Split s sep) (String.singleton sep) = s := by
  simp only [Join, Split, List.map_map]
  have : (String.data ∘ String.mk) = id := by funext l; rfl
  rw [this, List.map_id]
  have hs : (String.singleton sep).data = [sep] := rfl
  rw [hs, joinChars_splitChars]

theorem Split_Join (pieces : List String) (sep : Char) (hne : pieces ≠ [])
    (hno : ∀ p ∈ pieces, sep ∉ p.data) :
    Split (Join pieces (String.singleton sep)) sep = pieces := by
  simp only [Join, Split]
  have hs : (String.singleton sep).data = [sep] := rfl
  rw [hs, splitChars_joinChars sep _ (by simpa using hne)
    (by
      intro p hp
      obtain ⟨q, hq, rfl⟩ := List.mem_map.1 hp
      exact hno q hq)]
  rw [List.map_map]
  have : (String.mk ∘ String.data) = id := by funext l; rfl
  rw [this, List.map_id]

theorem Split_ne_nil (s : String) (sep : Char) : Split s sep ≠ [] := by
  simp [Split, splitChars_ne_nil]

theorem not_mem_of_mem_Split (s : String) (sep : Char) : ∀ p ∈ Split s sep, sep ∉ p.data := by
  intro p hp
  obtain ⟨q, hq, rfl⟩ := List.mem_map.1 hp
  exact not_mem_of_mem_splitChars sep s.data q hq

/-! ## node/container.go: attaching and the `Die` callback -/

/-- C11: `AttachContainer` returns a monitor channel exactly when the container is found
by name, its ID is `containerID` and it is running; the runtime calls are then the
lookup, the `Die` subscription and the running check only (no kill, no delete); when
the IDs match and the container is not running, the subscription is cancelled and
`(nil, nil)` is returned. -/
theorem AttachContainer_monitor_iff (docker : Docker) (containerID serviceID : String)
    (instanceID : Int) :
    ((AttachContainer docker containerID serviceID instanceID).ev ≠ none ↔
      ∃ ctr, docker.FindContainer (ctrName serviceID instanceID) = .ok ctr ∧
        ctr.ID = containerID ∧ docker.IsRunning ctr = true) ∧
    (∀ ctr, docker.FindContainer (ctrName serviceID instanceID) = .ok ctr →
      ctr.ID = containerID → docker.IsRunning ctr = true →
      AttachContainer docker containerID serviceID instanceID =
        { ev := some ⟨ctr.ID⟩, err := none
          calls := [.FindContainer (ctrName serviceID instanceID), .OnEventDie ctr.ID,
            .IsRunning ctr.ID] }) ∧
    (∀ ctr, docker.FindContainer (ctrName serviceID instanceID) = .ok ctr →
      ctr.ID = containerID → docker.IsRunning ctr = false →
      AttachContainer docker containerID serviceID instanceID =
        { ev := none, err := none
          calls := [.FindContainer (ctrName serviceID instanceID), .OnEventDie ctr.ID,
            .IsRunning ctr.ID, .CancelOnEventDie ctr.ID] }) := by
  refine ⟨?_, ?_, ?_⟩
  · cases hf : docker.FindContainer (ctrName serviceID instanceID) with
    | error e => cases e <;> simp [AttachContainer, hf]
    | ok ctr =>
      by_cases hid : ctr.ID = containerID
      · cases hr : docker.IsRunning ctr <;>
          simp [AttachContainer, hf, hid, hr, monitorContainer]
      · cases hd : docker.Delete ctr true <;> simp [AttachContainer, hf, hid, hd]
  · intro ctr hf hid hr
    simp [AttachContainer, hf, hid, hr, monitorContainer]
  · intro ctr hf hid hr
    simp [AttachContainer, hf, hid, hr, monitorContainer]

/-- C11 at a runtime holding the running container `B` under the name `s1-0`. -/
theorem AttachContainer_monitor_iff_witness :
    AttachContainer (dockerOne none none true) "B" "s1" 0 =
      { ev := some ⟨"B"⟩, err := none
        calls := [.FindContainer (ctrName "s1" 0), .OnEventDie "B", .IsRunning "B"] } :=
  (AttachContainer_monitor_iff (dockerOne none none true) "B" "s1" 0).2.1
    ⟨"B", "s1-0"⟩ (by decide) (by decide) (by decide)

/-- C12 (as stated, refuted): when the inspect of the dead container fails, the callback
delivers the event and closes the channel without any delete. -/
theorem dieCallback_inspect_fails_no_delete :
    dieCallback dieEnvInspectFails ctrDead = [.Inspect, .Send 1700000000, .Close] := by
  decide

/-- C12 (amended): when the inspect of the dead container succeeds, the callback issues
the forced delete of the container right before it delivers the termination event (the
finish time, or the current time when that is zero), delivers no event before that, and
then closes the channel; the one exception is the panic on a container ID shorter than
five characters, after which no event is delivered. -/
theorem dieCallback_delete_before_send (env : DieEnv) (ctr : Container)
    (state : DockerState) (hInspect : env.Inspect = .ok state) :
    (∃ pre, dieCallback env ctr = pre ++
        [.Delete ctr.ID true,
          .Send (if state.FinishedAt ≠ 0 then state.FinishedAt else env.now), .Close] ∧
      ∀ t, DieAction.Send t ∉ pre) ∨
    (ctr.ID.length < 5 ∧ DieAction.Panic ∈ dieCallback env ctr ∧
      ∀ t, DieAction.Send t ∉ dieCallback env ctr) := by
  unfold dieCallback
  simp only [hInspect]
  by_cases hcap : state.ExitCode ≠ 0 ∨ env.debugLevel = true
  · simp only [hcap, if_true]
    rcases hlogs : env.dockerLogs 10000 ctr.ID with ⟨output, _ | err⟩
    · by_cases hlen : ctr.ID.length < 5
      · right
        simp [hlen]
      · left
        exact ⟨[.Inspect, .DockerLogs 10000 ctr.ID,
          .Info (lastLines ("ctr-" ++ ctr.ID.take 5 ++ ": ") output)], by simp [hlen],
          by simp⟩
    · left
      exact ⟨[.Inspect, .DockerLogs 10000 ctr.ID, .Warn output], by simp, by simp⟩
  · left
    exact ⟨[.Inspect], by simp [hcap], by simp⟩

/-- C12 (amended) at a container that exited with code 1. -/
theorem dieCallback_delete_before_send_witness :
    (∃ pre, dieCallback dieEnvExit1 ctrDead = pre ++
        [.Delete ctrDead.ID true,
          .Send (if (⟨1, 1600000000⟩ : DockerState).FinishedAt ≠ 0
            then (⟨1, 1600000000⟩ : DockerState).FinishedAt else dieEnvExit1.now), .Close] ∧
      ∀ t, DieAction.Send t ∉ pre) ∨
    (ctrDead.ID.length < 5 ∧ DieAction.Panic ∈ dieCallback dieEnvExit1 ctrDead ∧
      ∀ t, DieAction.Send t ∉ dieCallback dieEnvExit1 ctrDead) :=
  dieCallback_delete_before_send dieEnvExit1 ctrDead ⟨1, 1600000000⟩ rfl

/-- The prefixed lines hold no newline when the prefix holds none. -/
theorem no_newline_in_prefixed (pre output : String) (hpre : '\n' ∉ pre.data) :
    ∀ p ∈ (Split output '\n').map (fun line => pre ++ line), '\n' ∉ p.data := by
  intro p hp
  obtain ⟨line, hline, rfl⟩ := List.mem_map.1 hp
  have := not_mem_of_mem_Split output '\n' line hline
  simp [String.data_append, hpre, this]

/-- C13: after a successful inspect, `docker logs --tail 10000 <id>` is run exactly when
the exit code is non-zero or the log level is debug, with no other tail or container;
when it succeeds (on an ID of at least five characters) the one text emitted is the
captured output split at newlines, every line prefixed with `ctr-`, the first five
characters of the ID and `: `, joined with newlines again.  Joining the split output
gives the output back, and splitting the emitted text gives exactly the prefixed lines,
as many as the output has. -/
theorem dieCallback_logs (env : DieEnv) (ctr : Container) (state : DockerState)
    (hInspect : env.Inspect = .ok state) :
    (DieAction.DockerLogs 10000 ctr.ID ∈ dieCallback env ctr ↔
      (state.ExitCode ≠ 0 ∨ env.debugLevel = true)) ∧
    (∀ n id, DieAction.DockerLogs n id ∈ dieCallback env ctr → n = 10000 ∧ id = ctr.ID) ∧
    (∀ output, (state.ExitCode ≠ 0 ∨ env.debugLevel = true) →
      env.dockerLogs 10000 ctr.ID = (output, none) → 5 ≤ ctr.ID.length →
      (∀ text, DieAction.Info text ∈ dieCallback env ctr ↔
        text = Join ((Split output '\n').map
          (fun line => "ctr-" ++ ctr.ID.take 5 ++ ": " ++ line)) "\n") ∧
      Join (Split output '\n') "\n" = output ∧
      ('\n' ∉ (ctr.ID.take 5).data →
        Split (Join ((Split output '\n').map
          (fun line => "ctr-" ++ ctr.ID.take 5 ++ ": " ++ line)) "\n") '\n' =
          (Split output '\n').map (fun line => "ctr-" ++ ctr.ID.take 5 ++ ": " ++ line) ∧
        ((Split output '\n').map
          (fun line => "ctr-" ++ ctr.ID.take 5 ++ ": " ++ line)).length =
          (Split output '\n').length)) := by
  refine ⟨?_, ?_, ?_⟩
  · unfold dieCallback
    simp only [hInspect]
    by_cases hcap : state.ExitCode ≠ 0 ∨ env.debugLevel = true
    · simp only [hcap, if_true, iff_true]
      rcases hlogs : env.dockerLogs 10000 ctr.ID with ⟨output, _ | err⟩
      · by_cases hlen : ctr.ID.length < 5 <;> simp [hlen]
      · simp
    · simp [hcap]
  · intro n id
    unfold dieCallback
    simp only [hInspect]
    by_cases hcap : state.ExitCode ≠ 0 ∨ env.debugLevel = true
    · simp only [hcap, if_true]
      rcases hlogs : env.dockerLogs 10000 ctr.ID with ⟨output, _ | err⟩
      · by_cases hlen : ctr.ID.length < 5
        · simp only [hlen, if_true]
          intro h
          simpa using h
        · simp only [hlen, if_false]
          intro h
          simpa using h
      · intro h
        simpa using h
    · simp only [hcap, if_false]
      intro h
      simp at h
  · intro output hcap hlogs hlen
    refine ⟨?_, Join_Split output '\n', ?_⟩
    · intro text
      have hlen2 : ¬ ctr.ID.length < 5 := by omega
      unfold dieCallback
      simp only [hInspect, hcap, if_true, hlogs, hlen2, if_false, lastLines,
        prefixLines_eq_map]
      simp only [String.append_assoc]
      constructor
      · intro h
        simpa using h
      · intro h
        simp [h]
    · intro hid
      have hpre : '\n' ∉ ("ctr-" ++ ctr.ID.take 5 ++ ": ").data := by
        simp only [String.data_append]
        simp
        simpa using hid
      have hno := no_newline_in_prefixed ("ctr-" ++ ctr.ID.take 5 ++ ": ") output hpre
      simp only [String.append_assoc] at hno
      refine ⟨Split_Join _ '\n' (by simp [Split_ne_nil]) ?_, by simp⟩
      simpa only [String.append_assoc] using hno

/-- C13 at a container that exited with code 1 and logged `boot` and `failed`. -/
theorem dieCallback_logs_witness :
    DieAction.DockerLogs 10000 ctrDead.ID ∈ dieCallback dieEnvExit1 ctrDead :=
  (dieCallback_logs dieEnvExit1 ctrDead ⟨1, 1600000000⟩ rfl).1.2 (Or.inl (by decide))

/-! ## agent.go: the options built by `startService` -/

/-- No call of `chownConfFile` changes the mode of any file. -/
theorem chownConfFile_modes (validOwnerSpec : String → Bool)
    (getInternalImageIds : String → String → Except String (Nat × Nat))
    (files : Files) (filename owner permissions dockerImage : String) :
    (chownConfFile validOwnerSpec getInternalImageIds files filename owner permissions
      dockerImage).2.map (fun f => (f.1, f.2.mode)) = files.map (fun f => (f.1, f.2.mode)) := by
  unfold chownConfFile
  split
  · rfl
  · split
    · rfl
    · unfold Chown
      split
      · rfl
      · simp only [List.map_map]
        apply List.map_congr_left
        intro f _
        by_cases h : f.1 = filename <;> simp [h]

/-- C17 (the code at the failing input): with a valid owner `zenoss:zenoss` and
permissions `0660`, `chownConfFile` succeeds, sets uid and gid, and leaves the mode of
the file at `0600`. -/
theorem chownConfFile_leaves_mode :
    chownConfFile ownerSpecTwoParts idsAll1001 filesOneConf
        "/tmp/cp_s1_etc__my.cnf_592084261" "zenoss:zenoss" "0660" "zenoss/mysql" =
      (none, [("/tmp/cp_s1_etc__my.cnf_592084261", ⟨1001, 1001, "0600"⟩)]) := by
  decide

/-! ## agent.go: the tenant ID in `startService` -/

theorem configFilesLoop_tenant (env : StartEnv) (answer : String → Except String String)
    (service : Service) (files : List (String × ConfigFile)) :
    ∀ configFiles : String,
      configFilesLoop { env with GetTenantId := answer } service files configFiles =
        configFilesLoop env service files configFiles := by
  induction files with
  | nil => intro c; rfl
  | cons f rest ih =>
    intro c
    obtain ⟨filename, config⟩ := f
    simp only [configFilesLoop]
    cases env.writeConfFile (confFilePrefix service.Id filename) service.Id filename
        config.Content with
    | error e => rfl
    | ok fName => exact ih _

/-- C18: when the tenant ID cannot be resolved (the call fails or answers an empty ID)
and the service declares a volume, `startService` starts no command: it ends in
`glog.Fatalf` once the master has been reached; when the service declares no volume,
the outcome of `startService` does not depend on what `GetTenantId` answers. -/
theorem startService_tenant (env : StartEnv) (a : HostAgent) (service : Service)
    (serviceState : ServiceState) :
    ((∀ t, env.GetTenantId service.Id = .ok t → t = "") → service.Volumes ≠ [] →
      (∀ cmd, startService env a service serviceState ≠ .started cmd) ∧
      (env.NewControlClient a.master = none →
        startService env a service serviceState =
          .fatal ("Could not get tenant ID and need to mount a volume, service state: " ++
            serviceState.Id ++ ", service id: " ++ service.Id))) ∧
    (service.Volumes = [] → ∀ answer : String → Except String String,
      startService { env with GetTenantId := answer } a service serviceState =
        startService env a service serviceState) := by
  constructor
  · intro hten hvol
    have hlen : service.Volumes.length > 0 := List.length_pos.2 hvol
    have hempty : (match env.GetTenantId service.Id with
        | .ok t => t
        | .error _ => "").length = 0 := by
      cases hg : env.GetTenantId service.Id with
      | error e => rfl
      | ok t => simp [hten t hg]
    have hfatal : env.NewControlClient a.master = none →
        startService env a service serviceState =
          .fatal ("Could not get tenant ID and need to mount a volume, service state: " ++
            serviceState.Id ++ ", service id: " ++ service.Id) := by
      intro hc
      unfold startService
      simp only [hc]
      rw [if_pos ⟨hempty, hlen⟩]
    refine ⟨?_, hfatal⟩
    intro cmd
    cases hc : env.NewControlClient a.master with
    | none => rw [hfatal hc]; simp
    | some err => simp [startService, hc]
  · intro hvol answer
    unfold startService
    simp [hvol, volumeOptsLoop, configFilesLoop_tenant]

/-- C18 at a service with a volume and a master that cannot name the tenant. -/
theorem startService_tenant_witness :
    (∀ cmd, startService envNoTenant agentH1 serviceWithVolume ssTerminated ≠ .started cmd) ∧
    (envNoTenant.NewControlClient agentH1.master = none →
      startService envNoTenant agentH1 serviceWithVolume ssTerminated =
        .fatal ("Could not get tenant ID and need to mount a volume, service state: " ++
          ssTerminated.Id ++ ", service id: " ++ serviceWithVolume.Id)) :=
  (startService_tenant envNoTenant agentH1 serviceWithVolume ssTerminated).1
    (by intro t h; cases h) (by decide)

/-! ## agent.go: the proxies of `waitForProcessToDie` -/

theorem createdIds_append (a b : List WaitAction) :
    createdIds (a ++ b) = createdIds a ++ createdIds b := by
  induction a with
  | nil => rfl
  | cons x rest ih => cases x <;> simp [createdIds, ih]

theorem getDockerStateLoop_plain (env : WaitEnv) (dockerId : String) :
    ∀ (remaining i : Nat) (last : Except String ContainerState),
      createdIds (getDockerStateLoop env dockerId remaining i last).1 = [] ∧
      (getDockerStateLoop env dockerId remaining i last).1.filter WaitAction.isCreateProxy = [] ∧
      ∀ id, WaitAction.RemoveProxy id ∉ (getDockerStateLoop env dockerId remaining i last).1 := by
  intro remaining
  induction remaining with
  | zero => intro i last; simp [getDockerStateLoop, createdIds]
  | succ r ih =>
    intro i last
    simp only [getDockerStateLoop]
    cases env.getDockerState i with
    | error err =>
      obtain ⟨h1, h2, h3⟩ := ih (i + 1) (.error err)
      refine ⟨by simp [createdIds, h1], by simp [WaitAction.isCreateProxy, h2], ?_⟩
      intro id
      simp [h3 id]
    | ok cs => simp [createdIds, WaitAction.isCreateProxy]

theorem proxyLoop_spec (serviceId privateIp : String) (endpoints : List ServiceEndpoint) :
    (proxyLoop serviceId privateIp endpoints).1 = proxiesFor serviceId privateIp endpoints ∧
    createdIds (proxyLoop serviceId privateIp endpoints).1 =
      (proxyLoop serviceId privateIp endpoints).2 ∧
    (proxyLoop serviceId privateIp endpoints).1.filter WaitAction.isCreateProxy =
      (proxyLoop serviceId privateIp endpoints).1 ∧
    ∀ id, WaitAction.RemoveProxy id ∉ (proxyLoop serviceId privateIp endpoints).1 := by
  induction endpoints with
  | nil => simp [proxyLoop, proxiesFor, createdIds]
  | cons e rest ih =>
    obtain ⟨h1, h2, h3, h4⟩ := ih
    cases ha : e.Assignment with
    | none =>
      simp only [proxyLoop, ha]
      refine ⟨?_, h2, h3, h4⟩
      rw [h1]
      simp [proxiesFor, ha]
    | some ac =>
      simp only [proxyLoop, ha]
      refine ⟨?_, by simp [createdIds, h2], by simp [WaitAction.isCreateProxy, h3], ?_⟩
      · rw [h1]
        simp [proxiesFor, ha]
      · intro id
        simp [h4 id]

theorem afterWait_plain (env : WaitEnv) (serviceState : ServiceState) :
    createdIds (afterWait env serviceState) = [] ∧
    (afterWait env serviceState).filter WaitAction.isCreateProxy = [] ∧
    ∀ id, WaitAction.RemoveProxy id ∉ afterWait env serviceState := by
  unfold afterWait
  cases env.Wait with
  | exitStatus c =>
    by_cases h1 : c = 137
    · simp [h1, createdIds, WaitAction.isCreateProxy]
    · by_cases h2 : c = 2 <;> simp [h1, h2, createdIds, WaitAction.isCreateProxy]
  | nil => simp [createdIds, WaitAction.isCreateProxy]
  | exitNoStatus => simp [createdIds, WaitAction.isCreateProxy]
  | other e => simp [createdIds, WaitAction.isCreateProxy]

/-- The ids whose removal the body has deferred are the ids of the proxies it created,
and the body removes none itself. -/
theorem waitBody_deferred (env : WaitEnv) (serviceState : ServiceState) :
    createdIds (waitBody env serviceState).1 = (waitBody env serviceState).2 ∧
    ∀ id, WaitAction.RemoveProxy id ∉ (waitBody env serviceState).1 := by
  unfold waitBody
  cases env.StdoutPipe with
  | some e => simp [createdIds]
  | none =>
    cases env.StderrPipe with
    | some e => simp [createdIds]
    | none =>
      cases env.Start with
      | some e => simp [createdIds]
      | none =>
        obtain ⟨hp1, -, hp3⟩ := getDockerStateLoop_plain env serviceState.Id 30 0
          (.ok ⟨"", "", "", false⟩)
        simp only []
        cases hpoll : (getDockerStateLoop env serviceState.Id 30 0 (.ok ⟨"", "", "", false⟩)).2 with
        | error e =>
          simp only []
          refine ⟨by simp [createdIds_append, createdIds, hp1], ?_⟩
          intro id; simp [hp3 id]
        | ok cs =>
          simp only []
          cases env.LoadAndUpdateServiceState with
          | error e =>
            simp only []
            refine ⟨by simp [createdIds_append, createdIds, hp1], ?_⟩
            intro id; simp [hp3 id]
          | ok sState =>
            obtain ⟨ha1, -, ha3⟩ := afterWait_plain env serviceState
            simp only []
            cases env.LoadService with
            | error e =>
              simp only []
              refine ⟨by simp only [createdIds_append, hp1, ha1]; simp [createdIds], ?_⟩
              intro id
              have := ha3 id
              simp only [List.mem_append, not_or]
              exact ⟨⟨⟨⟨by simp, hp3 id⟩, by simp⟩, by simp⟩, this⟩
            | ok service =>
              obtain ⟨-, hl2, -, hl4⟩ := proxyLoop_spec sState.ServiceId cs.IPAddress
                service.Endpoints
              simp only []
              refine ⟨by simp only [createdIds_append, hp1, ha1, hl2]; simp [createdIds], ?_⟩
              intro id
              have := ha3 id
              simp only [List.mem_append, not_or]
              exact ⟨⟨⟨⟨by simp, hp3 id⟩, by simp⟩, hl4 id⟩, this⟩

/-- C19: whatever happens, `waitForProcessToDie` ends by removing every proxy id it has
created, in reverse order of creation, and then sends on `procFinished`; it removes no
proxy before.  When it gets as far as the service (pipes, start, one of the 30 inspects,
the update of the service state and the load of the service succeed), the proxies it
creates are, in endpoint order, one per endpoint with an address assignment, with id
`<service_id>:<endpoint_name>`, the assignment's IP and port as frontend and the
container's private IP with the endpoint's port number as backend, and none for an
endpoint without an assignment. -/
theorem waitForProcessToDie_proxies (env : WaitEnv) (serviceState : ServiceState) :
    (∃ front, waitForProcessToDie env serviceState =
        front ++ (createdIds front).reverse.map WaitAction.RemoveProxy ++ [.procFinished] ∧
      ∀ id, WaitAction.RemoveProxy id ∉ front) ∧
    (∀ containerState sState service,
      env.StdoutPipe = none → env.StderrPipe = none → env.Start = none →
      (getDockerStateLoop env serviceState.Id 30 0 (.ok ⟨"", "", "", false⟩)).2 = .ok containerState →
      env.LoadAndUpdateServiceState = .ok sState → env.LoadService = .ok service →
      (waitForProcessToDie env serviceState).filter WaitAction.isCreateProxy =
        service.Endpoints.filterMap (fun endpoint =>
          endpoint.Assignment.map (fun assignment =>
            WaitAction.CreateProxy (sState.ServiceId ++ ":" ++ endpoint.Name) endpoint.Protocol
              ⟨assignment.IPAddr, assignment.Port⟩
              ⟨containerState.IPAddress, endpoint.PortNumber⟩))) := by
  constructor
  · obtain ⟨h1, h2⟩ := waitBody_deferred env serviceState
    refine ⟨WaitAction.dockerRemove serviceState.Id :: (waitBody env serviceState).1, ?_, ?_⟩
    · simp [waitForProcessToDie, createdIds, h1]
    · intro id
      simp [h2 id]
  · intro cs sState service hout herr hstart hpoll hupd hload
    obtain ⟨-, hp2, -⟩ := getDockerStateLoop_plain env serviceState.Id 30 0 (.ok ⟨"", "", "", false⟩)
    obtain ⟨-, ha2, -⟩ := afterWait_plain env serviceState
    obtain ⟨hl1, -, hl3, -⟩ := proxyLoop_spec sState.ServiceId cs.IPAddress service.Endpoints
    have hbody : waitBody env serviceState =
        ([WaitAction.Start, .Sleep 1] ++
          (getDockerStateLoop env serviceState.Id 30 0 (.ok ⟨"", "", "", false⟩)).1 ++
          [.LoadAndUpdateServiceState serviceState.ServiceId serviceState.Id cs.ID cs.IPAddress,
            .LoadService serviceState.ServiceId] ++
          (proxyLoop sState.ServiceId cs.IPAddress service.Endpoints).1 ++
          afterWait env serviceState,
          (proxyLoop sState.ServiceId cs.IPAddress service.Endpoints).2) := by
      unfold waitBody
      simp only [hout, herr, hstart, hpoll, hupd, hload]
    have hrem : ∀ ids : List String,
        (ids.map WaitAction.RemoveProxy).filter WaitAction.isCreateProxy = [] := by
      intro ids
      induction ids with
      | nil => rfl
      | cons x rest ih => simp [WaitAction.isCreateProxy, ih]
    simp only [waitForProcessToDie, hbody, List.filter_append, hp2, ha2, hl3, hrem]
    simp [WaitAction.isCreateProxy, hl1, proxiesFor]

/-- C19 at `waitEnvTwoEndpoints`: one proxy, for the endpoint `db`. -/
theorem waitForProcessToDie_proxies_witness :
    (waitForProcessToDie waitEnvTwoEndpoints ⟨"i1", "s1", "h1", ⟨1⟩, ⟨1⟩⟩).filter
        WaitAction.isCreateProxy =
      (([⟨"db", "mysql", "export", "tcp", 3306, some ⟨"10.0.0.5", 3306⟩⟩,
          ⟨"web", "http", "export", "tcp", 80, none⟩] : List ServiceEndpoint).filterMap
        (fun endpoint => endpoint.Assignment.map (fun assignment =>
          WaitAction.CreateProxy ("s1" ++ ":" ++ endpoint.Name) endpoint.Protocol
            ⟨assignment.IPAddr, assignment.Port⟩ ⟨"172.17.0.5", endpoint.PortNumber⟩))) :=
  (waitForProcessToDie_proxies waitEnvTwoEndpoints ⟨"i1", "s1", "h1", ⟨1⟩, ⟨1⟩⟩).2
    ⟨"c0ffee", "172.17.0.5", "", true⟩ ⟨"i1", "s1", "h1", ⟨2014⟩, ⟨1⟩⟩
    ⟨"s1", "mysql", "default", "zenoss/mysql", "", [⟨"db", "mysql", "export",
      "tcp", 3306, some ⟨"10.0.0.5", 3306⟩⟩, ⟨"web", "http", "export", "tcp", 80, none⟩],
      [], [], []⟩
    rfl rfl rfl (by decide) rfl rfl

/-! ## zzk/virtualips/virtualips.go: `RemoveAllVirtualIPs` before the watch loop -/

/-- When the unbind loop returns nil, every alias of the map has a name and was brought
down with success. -/
theorem unbindLoop_nil (ifc : Ifconfig) (interfaceMap : List VirtualIP)
    (h : (unbindLoop ifc interfaceMap).1 = none) :
    ∀ e ∈ interfaceMap, ∃ name, generateInterfaceName e = .ok name ∧
      name ∈ (unbindLoop ifc interfaceMap).2 ∧ ifc.ifconfigDown name = none := by
  induction interfaceMap with
  | nil => intro e he; cases he
  | cons v rest ih =>
    intro e he
    simp only [unbindLoop] at h ⊢
    cases hg : generateInterfaceName v with
    | error err => simp [unbindVirtualIP, hg] at h
    | ok name =>
      cases hd : ifc.ifconfigDown name with
      | some err => simp [unbindVirtualIP, hg, hd] at h
      | none =>
        simp only [unbindVirtualIP, hg, hd] at h ⊢
        rcases List.mem_cons.1 he with rfl | hrest
        · exact ⟨name, hg, by simp, hd⟩
        · obtain ⟨n, hn1, hn2, hn3⟩ := ih h e hrest
          exact ⟨n, hn1, by simp [hn2], hn3⟩

theorem mem_map_ifconfigDown (downs : List String) :
    (∀ p, VipAction.ChildrenW p ∉ downs.map VipAction.ifconfigDown) ∧
    (∀ a c, VipAction.spawn a c ∉ downs.map VipAction.ifconfigDown) := by
  constructor
  · intro p h
    obtain ⟨_, _, hx⟩ := List.mem_map.1 h
    cases hx
  · intro a c h
    obtain ⟨_, _, hx⟩ := List.mem_map.1 h
    cases hx

/-- Whenever `WatchVirtualIPs` reaches its watch loop (a `ChildrenW` is issued or a
candidate task is started), `RemoveAllVirtualIPs` has returned nil before, preceded only
by the check and creation of the root path; when `RemoveAllVirtualIPs` returns nil, every
alias of the local interface map has been brought down; when it returns an error,
`WatchVirtualIPs` returns without any `ChildrenW` and without starting a candidate
task, whatever the rounds. -/
theorem WatchVirtualIPs_loop_after_remove (existsRoot : Bool × Option ClientError)
    (createDir : Option String) (ifc : Ifconfig) (rounds : List VipRound) :
    (((∃ p, VipAction.ChildrenW p ∈ (WatchVirtualIPs existsRoot createDir ifc rounds).actions) ∨
        (∃ a c, VipAction.spawn a c ∈
          (WatchVirtualIPs existsRoot createDir ifc rounds).actions)) →
      (RemoveAllVirtualIPs ifc).1 = none ∧
      ∃ pre post, (WatchVirtualIPs existsRoot createDir ifc rounds).actions =
          pre ++ (RemoveAllVirtualIPs ifc).2.map VipAction.ifconfigDown ++ post ∧
        ∀ x ∈ pre, x = VipAction.Exists (virtualIPsPath none) ∨
          x = VipAction.CreateDir (virtualIPsPath none)) ∧
    ((RemoveAllVirtualIPs ifc).1 = none →
      ∃ interfaceMap, ifc.createVirtualInterfaceMap = .ok interfaceMap ∧
        ∀ e ∈ interfaceMap, ∃ name, generateInterfaceName e = .ok name ∧
          name ∈ (RemoveAllVirtualIPs ifc).2 ∧ ifc.ifconfigDown name = none) ∧
    ((RemoveAllVirtualIPs ifc).1 ≠ none →
      (∀ p, VipAction.ChildrenW p ∉ (WatchVirtualIPs existsRoot createDir ifc rounds).actions) ∧
      (∀ a c, VipAction.spawn a c ∉
        (WatchVirtualIPs existsRoot createDir ifc rounds).actions) ∧
      (WatchVirtualIPs existsRoot createDir ifc rounds).returned = true) := by
  obtain ⟨hnoC, hnoS⟩ := mem_map_ifconfigDown (RemoveAllVirtualIPs ifc).2
  -- the shape of the run, by cases on the answers before the loop
  have hshape : (∃ pre, (∀ x ∈ pre, x = VipAction.Exists (virtualIPsPath none) ∨
          x = VipAction.CreateDir (virtualIPsPath none)) ∧
        (((WatchVirtualIPs existsRoot createDir ifc rounds).actions = pre ∧
            (WatchVirtualIPs existsRoot createDir ifc rounds).returned = true) ∨
          ((RemoveAllVirtualIPs ifc).1 ≠ none ∧
            (WatchVirtualIPs existsRoot createDir ifc rounds).actions =
              pre ++ (RemoveAllVirtualIPs ifc).2.map VipAction.ifconfigDown ∧
            (WatchVirtualIPs existsRoot createDir ifc rounds).returned = true) ∨
          ((RemoveAllVirtualIPs ifc).1 = none ∧ ∃ post,
            (WatchVirtualIPs existsRoot createDir ifc rounds).actions =
              pre ++ (RemoveAllVirtualIPs ifc).2.map VipAction.ifconfigDown ++ post))) := by
    have hafter : ∀ pathActions : List VipAction,
        (match RemoveAllVirtualIPs ifc with
          | (some _, downs) =>
            ({ actions := pathActions ++ downs.map VipAction.ifconfigDown, returned := true } :
              VipWatch)
          | (none, downs) =>
            match watchLoopVip [] 0 [] rounds with
            | (loopActions, none) =>
              { actions := pathActions ++ downs.map VipAction.ifconfigDown ++ loopActions
                returned := false }
            | (loopActions, some processing) =>
              { actions := pathActions ++ downs.map VipAction.ifconfigDown ++ loopActions ++
                  shutdownAll processing
                returned := true }) = WatchVirtualIPs existsRoot createDir ifc rounds →
        ((RemoveAllVirtualIPs ifc).1 ≠ none ∧
            (WatchVirtualIPs existsRoot createDir ifc rounds).actions =
              pathActions ++ (RemoveAllVirtualIPs ifc).2.map VipAction.ifconfigDown ∧
            (WatchVirtualIPs existsRoot createDir ifc rounds).returned = true) ∨
          ((RemoveAllVirtualIPs ifc).1 = none ∧ ∃ post,
            (WatchVirtualIPs existsRoot createDir ifc rounds).actions =
              pathActions ++ (RemoveAllVirtualIPs ifc).2.map VipAction.ifconfigDown ++ post) := by
      intro pathActions heq
      rw [← heq]
      rcases hr : RemoveAllVirtualIPs ifc with ⟨_ | err, downs⟩
      · right
        refine ⟨rfl, ?_⟩
        rcases hl : watchLoopVip [] 0 [] rounds with ⟨loopActions, _ | processing⟩
        · exact ⟨loopActions, rfl⟩
        · exact ⟨loopActions ++ shutdownAll processing, by simp⟩
      · left
        exact ⟨by simp, rfl, rfl⟩
    rcases existsRoot with ⟨ex, _ | cerr⟩
    · cases ex
      · cases createDir with
        | some e =>
          exact ⟨[.Exists (virtualIPsPath none), .CreateDir (virtualIPsPath none)],
            by simp, Or.inl ⟨rfl, rfl⟩⟩
        | none =>
          exact ⟨[.Exists (virtualIPsPath none), .CreateDir (virtualIPsPath none)],
            by simp, Or.inr (hafter _ rfl)⟩
      · exact ⟨[.Exists (virtualIPsPath none)], by simp, Or.inr (hafter _ rfl)⟩
    · cases cerr with
      | other msg =>
        cases ex <;> exact ⟨[.Exists (virtualIPsPath none)], by simp, Or.inl ⟨rfl, rfl⟩⟩
      | ErrNoNode =>
        cases ex
        · cases createDir with
          | some e =>
            exact ⟨[.Exists (virtualIPsPath none), .CreateDir (virtualIPsPath none)],
              by simp, Or.inl ⟨rfl, rfl⟩⟩
          | none =>
            exact ⟨[.Exists (virtualIPsPath none), .CreateDir (virtualIPsPath none)],
              by simp, Or.inr (hafter _ rfl)⟩
        · exact ⟨[.Exists (virtualIPsPath none)], by simp, Or.inr (hafter _ rfl)⟩
  obtain ⟨pre, hpre, hcase⟩ := hshape
  have hpreC : ∀ p, VipAction.ChildrenW p ∉ pre := by
    intro p hp
    rcases hpre _ hp with h | h <;> cases h
  have hpreS : ∀ a c, VipAction.spawn a c ∉ pre := by
    intro a c hp
    rcases hpre _ hp with h | h <;> cases h
  refine ⟨?_, ?_, ?_⟩
  · intro hloop
    rcases hcase with ⟨hact, _⟩ | ⟨_, hact, _⟩ | ⟨hnil, post, hact⟩
    · rw [hact] at hloop
      rcases hloop with ⟨p, hp⟩ | ⟨a, c, hs⟩
      · exact absurd hp (hpreC p)
      · exact absurd hs (hpreS a c)
    · rw [hact] at hloop
      rcases hloop with ⟨p, hp⟩ | ⟨a, c, hs⟩
      · rcases List.mem_append.1 hp with h | h
        · exact absurd h (hpreC p)
        · exact absurd h (hnoC p)
      · rcases List.mem_append.1 hs with h | h
        · exact absurd h (hpreS a c)
        · exact absurd h (hnoS a c)
    · exact ⟨hnil, pre, post, hact, hpre⟩
  · intro hnil
    unfold RemoveAllVirtualIPs at hnil ⊢
    cases hm : ifc.createVirtualInterfaceMap with
    | error err => simp [hm] at hnil
    | ok interfaceMap =>
      simp only [hm] at hnil ⊢
      exact ⟨interfaceMap, rfl, unbindLoop_nil ifc interfaceMap hnil⟩
  · intro herr
    rcases hcase with ⟨hact, hret⟩ | ⟨_, hact, hret⟩ | ⟨hnil, _⟩
    · rw [hact]
      exact ⟨hpreC, hpreS, hret⟩
    · rw [hact]
      refine ⟨?_, ?_, hret⟩
      · intro p hp
        rcases List.mem_append.1 hp with h | h
        · exact hpreC p h
        · exact hnoC p h
      · intro a c hs
        rcases List.mem_append.1 hs with h | h
        · exact hpreS a c h
        · exact hnoS a c h
    · exact absurd hnil herr

/-- The run of `WatchVirtualIPs` once the root path is there (virtualips.go:347-423):
the check of the root path and its creation when it was missing, the unbinds of
`RemoveAllVirtualIPs`, and only when that returned nil the watch loop, started on an
empty map, followed at its return by the deferred shutdown signals. -/
theorem WatchVirtualIPs_ready (existsRoot : Bool × Option ClientError)
    (createDir : Option String) (ifc : Ifconfig) (rounds : List VipRound)
    (hroot : ∀ msg, existsRoot.2 ≠ some (.other msg))
    (hdir : existsRoot.1 = true ∨ createDir = none) :
    WatchVirtualIPs existsRoot createDir ifc rounds =
      { actions :=
          (if existsRoot.1 = true then [VipAction.Exists (virtualIPsPath none)]
            else [.Exists (virtualIPsPath none), .CreateDir (virtualIPsPath none)]) ++
          (RemoveAllVirtualIPs ifc).2.map VipAction.ifconfigDown ++
          (if (RemoveAllVirtualIPs ifc).1 = none then
            (watchLoopVip [] 0 [] rounds).1 ++
              (match (watchLoopVip [] 0 [] rounds).2 with
                | none => []
                | some processing => shutdownAll processing)
            else [])
        returned :=
          if (RemoveAllVirtualIPs ifc).1 = none then (watchLoopVip [] 0 [] rounds).2.isSome
          else true } := by
  have hafter : ∀ pathActions : List VipAction,
      (match RemoveAllVirtualIPs ifc with
        | (some _, downs) =>
          ({ actions := pathActions ++ downs.map VipAction.ifconfigDown, returned := true } :
            VipWatch)
        | (none, downs) =>
          match watchLoopVip [] 0 [] rounds with
          | (loopActions, none) =>
            { actions := pathActions ++ downs.map VipAction.ifconfigDown ++ loopActions
              returned := false }
          | (loopActions, some processing) =>
            { actions := pathActions ++ downs.map VipAction.ifconfigDown ++ loopActions ++
                shutdownAll processing
              returned := true }) =
        { actions := pathActions ++ (RemoveAllVirtualIPs ifc).2.map VipAction.ifconfigDown ++
            (if (RemoveAllVirtualIPs ifc).1 = none then
              (watchLoopVip [] 0 [] rounds).1 ++
                (match (watchLoopVip [] 0 [] rounds).2 with
                  | none => []
                  | some processing => shutdownAll processing)
              else [])
          returned :=
            if (RemoveAllVirtualIPs ifc).1 = none then (watchLoopVip [] 0 [] rounds).2.isSome
            else true } := by
    intro pathActions
    rcases RemoveAllVirtualIPs ifc with ⟨_ | err, downs⟩
    · rcases watchLoopVip [] 0 [] rounds with ⟨loopActions, _ | processing⟩
      · simp
      · simp
    · simp
  rcases existsRoot with ⟨ex, _ | cerr⟩
  · cases ex
    · rcases hdir with h | h
      · cases h
      · subst h
        exact hafter _
    · exact hafter _
  · cases cerr with
    | other msg => exact absurd rfl (hroot msg)
    | ErrNoNode =>
      cases ex
      · rcases hdir with h | h
        · cases h
        · subst h
          exact hafter _
      · exact hafter _

/-- C20: whenever `WatchVirtualIPs` reaches its watch loop (a `ChildrenW` is issued or a
candidate task is started), `RemoveAllVirtualIPs` has returned nil before, preceded only
by the check and creation of the root path; when `RemoveAllVirtualIPs` returns nil, every
alias of the local interface map has been brought down; when it returns an error,
`WatchVirtualIPs` returns without any `ChildrenW` and without starting a candidate
task, whatever the rounds.  And once the root path is there, the unbinds of
`RemoveAllVirtualIPs` are issued by `WatchVirtualIPs` itself, right after the actions on
the root path: nothing follows them when `RemoveAllVirtualIPs` returned an error, the
watch loop and then only shutdown signals follow them when it returned nil, and in that
case the unbind of every alias of the interface map is among what the run did. -/
theorem WatchVirtualIPs_removes_first (existsRoot : Bool × Option ClientError)
    (createDir : Option String) (ifc : Ifconfig) (rounds : List VipRound) :
    (((∃ p, VipAction.ChildrenW p ∈ (WatchVirtualIPs existsRoot createDir ifc rounds).actions) ∨
        (∃ a c, VipAction.spawn a c ∈
          (WatchVirtualIPs existsRoot createDir ifc rounds).actions)) →
      (RemoveAllVirtualIPs ifc).1 = none ∧
      ∃ pre post, (WatchVirtualIPs existsRoot createDir ifc rounds).actions =
          pre ++ (RemoveAllVirtualIPs ifc).2.map VipAction.ifconfigDown ++ post ∧
        ∀ x ∈ pre, x = VipAction.Exists (virtualIPsPath none) ∨
          x = VipAction.CreateDir (virtualIPsPath none)) ∧
    ((RemoveAllVirtualIPs ifc).1 = none →
      ∃ interfaceMap, ifc.createVirtualInterfaceMap = .ok interfaceMap ∧
        ∀ e ∈ interfaceMap, ∃ name, generateInterfaceName e = .ok name ∧
          name ∈ (RemoveAllVirtualIPs ifc).2 ∧ ifc.ifconfigDown name = none) ∧
    ((RemoveAllVirtualIPs ifc).1 ≠ none →
      (∀ p, VipAction.ChildrenW p ∉ (WatchVirtualIPs existsRoot createDir ifc rounds).actions) ∧
      (∀ a c, VipAction.spawn a c ∉
        (WatchVirtualIPs existsRoot createDir ifc rounds).actions) ∧
      (WatchVirtualIPs existsRoot createDir ifc rounds).returned = true) ∧
    ((∀ msg, existsRoot.2 ≠ some (.other msg)) → (existsRoot.1 = true ∨ createDir = none) →
      ∃ post, (WatchVirtualIPs existsRoot createDir ifc rounds).actions =
          (if existsRoot.1 = true then [VipAction.Exists (virtualIPsPath none)]
            else [.Exists (virtualIPsPath none), .CreateDir (virtualIPsPath none)]) ++
          (RemoveAllVirtualIPs ifc).2.map VipAction.ifconfigDown ++ post ∧
        ((RemoveAllVirtualIPs ifc).1 ≠ none → post = []) ∧
        ((RemoveAllVirtualIPs ifc).1 = none →
          ∃ signals, post = (watchLoopVip [] 0 [] rounds).1 ++ signals ∧
            ∀ x ∈ signals, ∃ a c, x = VipAction.signal a c)) ∧
    ((∀ msg, existsRoot.2 ≠ some (.other msg)) → (existsRoot.1 = true ∨ createDir = none) →
      (RemoveAllVirtualIPs ifc).1 = none →
      ∃ interfaceMap, ifc.createVirtualInterfaceMap = .ok interfaceMap ∧
        ∀ e ∈ interfaceMap, ∃ name, generateInterfaceName e = .ok name ∧
          ifc.ifconfigDown name = none ∧
          VipAction.ifconfigDown name ∈
            (WatchVirtualIPs existsRoot createDir ifc rounds).actions) := by
  obtain ⟨h1, h2, h3⟩ := WatchVirtualIPs_loop_after_remove existsRoot createDir ifc rounds
  refine ⟨h1, h2, h3, ?_, ?_⟩
  · intro hroot hdir
    rw [WatchVirtualIPs_ready existsRoot createDir ifc rounds hroot hdir]
    refine ⟨_, rfl, ?_, ?_⟩
    · intro herr
      rw [if_neg herr]
    · intro hnil
      rw [if_pos hnil]
      refine ⟨_, rfl, ?_⟩
      intro x hx
      cases hl : (watchLoopVip [] 0 [] rounds).2 with
      | none => rw [hl] at hx; cases hx
      | some processing =>
        rw [hl] at hx
        obtain ⟨kv, _, hkv⟩ := List.mem_map.1 hx
        exact ⟨kv.1, kv.2, hkv.symm⟩
  · intro hroot hdir hnil
    obtain ⟨interfaceMap, hmap, hall⟩ := h2 hnil
    refine ⟨interfaceMap, hmap, ?_⟩
    intro e he
    obtain ⟨name, hname, hmem, hdown⟩ := hall e he
    refine ⟨name, hname, hdown, ?_⟩
    rw [WatchVirtualIPs_ready existsRoot createDir ifc rounds hroot hdir]
    exact List.mem_append_left _ (List.mem_append_right _ (List.mem_map.2 ⟨name, hmem, rfl⟩))

/-- C20 at the host `ifconfigTwo`.  With both aliases stale and one round of the loop,
the run brings both down before its first `ChildrenW`; when `eth1:zvip0` cannot be
brought down, there is no `ChildrenW` and no candidate task. -/
theorem WatchVirtualIPs_removes_first_witness :
    (WatchVirtualIPs (true, none) none (ifconfigTwo []) [roundOneVip]).actions =
      [.Exists "/VirtualIPs", .ifconfigDown "eth0:zvip0", .ifconfigDown "eth1:zvip0",
        .ChildrenW "/VirtualIPs", .spawn "10.0.0.5" 0] ∧
    (∃ interfaceMap, (ifconfigTwo []).createVirtualInterfaceMap = .ok interfaceMap ∧
      ∀ e ∈ interfaceMap, ∃ name, generateInterfaceName e = .ok name ∧
        (ifconfigTwo []).ifconfigDown name = none ∧
        VipAction.ifconfigDown name ∈
          (WatchVirtualIPs (true, none) none (ifconfigTwo []) [roundOneVip]).actions) ∧
    ((∀ p, VipAction.ChildrenW p ∉
      (WatchVirtualIPs (true, none) none (ifconfigTwo ["eth1:zvip0"]) [roundOneVip]).actions) ∧
    (∀ a c, VipAction.spawn a c ∉
      (WatchVirtualIPs (true, none) none (ifconfigTwo ["eth1:zvip0"]) [roundOneVip]).actions) ∧
    (WatchVirtualIPs (true, none) none (ifconfigTwo ["eth1:zvip0"]) [roundOneVip]).returned =
      true) :=
  ⟨by decide,
    (WatchVirtualIPs_removes_first (true, none) none (ifconfigTwo []) [roundOneVip]).2.2.2.2
      (fun msg h => Option.noConfusion h) (Or.inl rfl) (by decide),
    (WatchVirtualIPs_removes_first (true, none) none (ifconfigTwo ["eth1:zvip0"])
      [roundOneVip]).2.2.1 (by decide)⟩

/-! ## zzk/virtualips/virtualips.go: `setSubtract` and `removeVirtualIP` -/

theorem aElementFound_eq (aElement : String) (b : List String) :
    aElementFound aElement b = decide (aElement ∈ b) := by
  induction b with
  | nil => simp [aElementFound]
  | cons x rest ih =>
    by_cases h : aElement = x
    · simp [aElementFound, h]
    · simp [aElementFound, h, ih]

theorem setSubtractLoop_acc (b : List String) (a : List String) :
    ∀ difference : List String, setSubtractLoop b a difference =
      difference ++ a.filter (fun x => decide (x ∉ b)) := by
  induction a with
  | nil => intro d; simp [setSubtractLoop]
  | cons x rest ih =>
    intro d
    by_cases h : x ∈ b
    · simp [setSubtractLoop, aElementFound_eq, h, ih]
    · simp [setSubtractLoop, aElementFound_eq, h, ih]

/-- C27: `setSubtract a b` is `a` with exactly the elements that occur in `b` left out,
in the order and with the repetitions of `a`; `x` is in it iff `x` is in `a` and not in
`b`; `setSubtract a []` is `a` and `setSubtract a a` is empty. -/
theorem setSubtract_spec (a b : List String) :
    setSubtract a b = a.filter (fun x => decide (x ∉ b)) ∧
    List.Sublist (setSubtract a b) a ∧
    (∀ x, x ∈ setSubtract a b ↔ (x ∈ a ∧ x ∉ b)) ∧
    setSubtract a [] = a ∧
    setSubtract a a = [] := by
  have h : ∀ c : List String, setSubtract a c = a.filter (fun x => decide (x ∉ c)) := by
    intro c
    simp [setSubtract, setSubtractLoop_acc]
  refine ⟨h b, ?_, ?_, ?_, ?_⟩
  · rw [h b]; exact List.filter_sublist a
  · intro x; rw [h b]; simp
  · rw [h []]; simp
  · rw [h a]
    apply List.filter_eq_nil_iff.2
    intro x hx
    simp [hx]

theorem stillInPool_eq (virtualIPAddress : String) (pool : List VirtualIP) :
    stillInPool virtualIPAddress pool = true ↔ ∃ v ∈ pool, v.IP = virtualIPAddress := by
  induction pool with
  | nil => simp [stillInPool]
  | cons v rest ih =>
    by_cases h : virtualIPAddress = v.IP
    · simp [stillInPool, h]
    · have h2 : ¬ v.IP = virtualIPAddress := fun e => h e.symm
      simp [stillInPool, h, h2, ih]

theorem unbindFirst_first (ifc : Ifconfig) (virtualIPAddress : String) (pre : List VirtualIP) :
    ∀ (e : VirtualIP) (post : List VirtualIP), (∀ x ∈ pre, x.IP ≠ virtualIPAddress) →
      e.IP = virtualIPAddress →
      unbindFirst ifc virtualIPAddress (pre ++ e :: post) = unbindVirtualIP ifc e := by
  induction pre with
  | nil => intro e post _ he; simp [unbindFirst, he]
  | cons x rest ih =>
    intro e post hpre he
    have hx : ¬ virtualIPAddress = x.IP := fun h => hpre x (by simp) h.symm
    simp only [List.cons_append, unbindFirst, hx, if_false]
    exact ih e post (fun y hy => hpre y (List.mem_cons_of_mem _ hy)) he

theorem unbindFirst_none (ifc : Ifconfig) (virtualIPAddress : String)
    (interfaceMap : List VirtualIP) (h : ∀ e ∈ interfaceMap, e.IP ≠ virtualIPAddress) :
    unbindFirst ifc virtualIPAddress interfaceMap = (none, []) := by
  induction interfaceMap with
  | nil => rfl
  | cons x rest ih =>
    have hx : ¬ virtualIPAddress = x.IP := fun e => h x (by simp) e.symm
    simp only [unbindFirst, hx, if_false]
    exact ih (fun y hy => h y (List.mem_cons_of_mem _ hy))

/-- C26: with the pool at hand, `removeVirtualIP` returns an error and brings no
interface down when the address is still among the pool's virtual IPs; otherwise, with
the interface map at hand, it does what `unbindVirtualIP` does on the first alias whose
IP is the address (`ifconfig <name> down` on that alias, whose name is
`BindInterface:zvip<InterfaceIndex>`, and on no other) and returns its error; when no
alias has that IP it returns nil and brings nothing down. -/
theorem removeVirtualIP_spec (ifc : Ifconfig) (virtualIPAddress : String)
    (myPool : ResourcePool) (interfaceMap : List VirtualIP)
    (hmap : ifc.createVirtualInterfaceMap = .ok interfaceMap) :
    ((∃ v ∈ myPool.VirtualIPs, v.IP = virtualIPAddress) →
      ∃ err, removeVirtualIP (.ok myPool) ifc virtualIPAddress = (some err, [])) ∧
    ((∀ v ∈ myPool.VirtualIPs, v.IP ≠ virtualIPAddress) →
      (∀ pre e post, interfaceMap = pre ++ e :: post →
        (∀ x ∈ pre, x.IP ≠ virtualIPAddress) → e.IP = virtualIPAddress →
        removeVirtualIP (.ok myPool) ifc virtualIPAddress = unbindVirtualIP ifc e ∧
        (∀ name ∈ (removeVirtualIP (.ok myPool) ifc virtualIPAddress).2,
          generateInterfaceName e = .ok name) ∧
        (e.BindInterface ≠ "" → e.InterfaceIndex ≠ "" →
          (removeVirtualIP (.ok myPool) ifc virtualIPAddress).2 =
            [e.BindInterface ++ ":zvip" ++ e.InterfaceIndex])) ∧
      ((∀ e ∈ interfaceMap, e.IP ≠ virtualIPAddress) →
        removeVirtualIP (.ok myPool) ifc virtualIPAddress = (none, []))) := by
  constructor
  · intro hin
    have := (stillInPool_eq virtualIPAddress myPool.VirtualIPs).2 hin
    refine ⟨"Requested virtual IP address: " ++ virtualIPAddress ++
      " still exists in pool: " ++ myPool.ID, ?_⟩
    simp [removeVirtualIP, this]
  · intro hout
    have hnot : stillInPool virtualIPAddress myPool.VirtualIPs = false := by
      cases hs : stillInPool virtualIPAddress myPool.VirtualIPs with
      | false => rfl
      | true =>
        obtain ⟨v, hv, hip⟩ := (stillInPool_eq virtualIPAddress myPool.VirtualIPs).1 hs
        exact absurd hip (hout v hv)
    have hrem : removeVirtualIP (.ok myPool) ifc virtualIPAddress =
        unbindFirst ifc virtualIPAddress interfaceMap := by
      simp [removeVirtualIP, hnot, hmap]
    constructor
    · intro pre e post hsplit hpre he
      have hfirst : removeVirtualIP (.ok myPool) ifc virtualIPAddress =
          unbindVirtualIP ifc e := by
        rw [hrem, hsplit]
        exact unbindFirst_first ifc virtualIPAddress pre e post hpre he
      refine ⟨hfirst, ?_, ?_⟩
      · rw [hfirst]
        intro name hname
        unfold unbindVirtualIP at hname
        cases hg : generateInterfaceName e with
        | error err => simp [hg] at hname
        | ok n =>
          cases hd : ifc.ifconfigDown n <;> simp [hg, hd] at hname <;> simp [hname]
      · intro hb hi
        rw [hfirst]
        unfold unbindVirtualIP
        rw [generateInterfaceName_of_nonempty e hb hi]
        have hp : virtualInterfacePrefix = ":zvip" := rfl
        rw [hp]
        cases hd : ifc.ifconfigDown (e.BindInterface ++ ":zvip" ++ e.InterfaceIndex) <;>
          simp [hd]
    · intro hnone
      rw [hrem]
      exact unbindFirst_none ifc virtualIPAddress interfaceMap hnone

/-- C26 at the host `ifconfigTwo`: the address `10.0.0.6` is gone from the pool, its
alias `eth1:zvip0` is the one brought down. -/
theorem removeVirtualIP_spec_witness :
    removeVirtualIP (.ok ⟨"default", []⟩) (ifconfigTwo []) "10.0.0.6" =
      unbindVirtualIP (ifconfigTwo []) ⟨"", "10.0.0.6", "", "eth1", "0"⟩ :=
  ((removeVirtualIP_spec (ifconfigTwo []) "10.0.0.6" ⟨"default", []⟩
    [⟨"", "10.0.0.5", "", "eth0", "0"⟩, ⟨"", "10.0.0.6", "", "eth1", "0"⟩] rfl).2
    (by simp)).1 [⟨"", "10.0.0.5", "", "eth0", "0"⟩] ⟨"", "10.0.0.6", "", "eth1", "0"⟩ []
    rfl (by decide) rfl |>.1

/-! ### auth0.go: the user of a subject -/

theorem splitChars_last (sep : Char) (l : List Char) :
    ∃ init last, splitChars sep l = init ++ [last] ∧ sep ∉ last ∧
      ((init = [] ∧ l = last) ∨ (init ≠ [] ∧ ∃ pre, l = pre ++ sep :: last)) := by
  induction l with
  | nil => exact ⟨[], [], rfl, by simp, Or.inl ⟨rfl, rfl⟩⟩
  | cons c cs ih =>
    obtain ⟨init, last, hsplit, hlast, hcase⟩ := ih
    by_cases hc : c = sep
    · refine ⟨[] :: init, last, by simp [splitChars, hc, hsplit], hlast, Or.inr ⟨by simp, ?_⟩⟩
      rcases hcase with ⟨_, hl⟩ | ⟨_, pre, hl⟩
      · exact ⟨[], by simp [hc, hl]⟩
      · exact ⟨sep :: pre, by simp [hc, hl]⟩
    · cases init with
      | nil =>
        rcases hcase with ⟨_, hl⟩ | ⟨hne, _⟩
        · refine ⟨[], c :: last, by simp [splitChars, hc, hsplit], ?_, Or.inl ⟨rfl, by rw [hl]⟩⟩
          intro hmem
          rcases List.mem_cons.1 hmem with e | e
          · exact hc e.symm
          · exact hlast e
        · exact absurd rfl hne
      | cons p ps =>
        rcases hcase with ⟨hnil, _⟩ | ⟨_, pre, hl⟩
        · cases hnil
        · exact ⟨(c :: p) :: ps, last, by simp [splitChars, hc, hsplit], hlast,
            Or.inr ⟨by simp, c :: pre, by simp [hl]⟩⟩

/-- C22: for every subject, `User()` returns a value (the index `len(fields)-1` is
always in range), the value holds no `|`, and it is the whole subject when that holds no
`|` and otherwise the text after a `|` of the subject, hence after the last one; the
empty subject gives the empty string. -/
theorem User_spec (Subject : String) :
    (∃ user, jwtAuth0Claims.User Subject = some user ∧ '|' ∉ user.data ∧
      (('|' ∉ Subject.data ∧ user = Subject) ∨
        ∃ pre : String, Subject = pre ++ "|" ++ user)) ∧
    jwtAuth0Claims.User "" = some "" := by
  refine ⟨?_, by decide⟩
  obtain ⟨init, last, hsplit, hlast, hcase⟩ := splitChars_last '|' Subject.data
  have hfields : Split Subject '|' = init.map String.mk ++ [String.mk last] := by
    simp [Split, hsplit]
  refine ⟨String.mk last, ?_, hlast, ?_⟩
  · simp [jwtAuth0Claims.User, hfields]
  · rcases hcase with ⟨_, hl⟩ | ⟨_, pre, hl⟩
    · left
      exact ⟨by rw [hl]; exact hlast, String.ext (by simp [hl])⟩
    · right
      refine ⟨String.mk pre, String.ext ?_⟩
      have hbar : ("|" : String).data = ['|'] := rfl
      simp [String.data_append, hl, hbar]

/-! ### container.go: the container name -/

theorem digitChar_value : ∀ k, k < 10 → digitValue (Nat.digitChar k) = k ∧
    Nat.digitChar k ≠ '-' := by decide

theorem decimalValue_append_singleton (l : List Char) (c : Char) :
    decimalValue (l ++ [c]) = decimalValue l * 10 + digitValue c := by
  simp [decimalValue, List.foldl_append]

/-- The digits produced by `Nat.toDigitsCore` with enough fuel write the number and hold
no minus sign. -/
theorem toDigitsCore_decimal :
    ∀ (fuel n : Nat) (ds : List Char), n < fuel →
      ∃ pre, Nat.toDigitsCore 10 fuel n ds = pre ++ ds ∧ decimalValue pre = n ∧ '-' ∉ pre := by
  intro fuel
  induction fuel with
  | zero => intro n ds h; omega
  | succ f ih =>
    intro n ds hn
    have hmod : n % 10 < 10 := Nat.mod_lt _ (by decide)
    obtain ⟨hval, hminus⟩ := digitChar_value (n % 10) hmod
    simp only [Nat.toDigitsCore]
    by_cases hz : n / 10 = 0
    · refine ⟨[Nat.digitChar (n % 10)], by simp [hz], ?_, ?_⟩
      · simp only [decimalValue, List.foldl_cons, List.foldl_nil, hval]
        omega
      · simpa using fun h => hminus h.symm
    · have hlt : n / 10 < f := by omega
      obtain ⟨pre, hpre, hv, hm⟩ := ih (n / 10) (Nat.digitChar (n % 10) :: ds) hlt
      refine ⟨pre ++ [Nat.digitChar (n % 10)], by simp [hz, hpre], ?_, ?_⟩
      · rw [decimalValue_append_singleton, hv, hval]
        omega
      · intro hmem
        rcases List.mem_append.1 hmem with h | h
        · exact hm h
        · have he : '-' = Nat.digitChar (n % 10) := by simpa using h
          exact hminus he.symm

theorem Itoa_decimal (n : Nat) : decimalValue (Itoa n).data = n ∧ '-' ∉ (Itoa n).data := by
  obtain ⟨pre, hpre, hv, hm⟩ := toDigitsCore_decimal (n + 1) n [] (Nat.lt_succ_self n)
  have hdata : (Itoa n).data = pre := by
    simp [Itoa, Nat.repr, Nat.toDigits, hpre, List.asString]
  rw [hdata]
  exact ⟨hv, hm⟩

theorem Itoa_injective (m n : Nat) (h : Itoa m = Itoa n) : m = n := by
  have hm := (Itoa_decimal m).1
  rw [h, (Itoa_decimal n).1] at hm
  exact hm.symm

/-- Splitting a list at the last occurrence of a separator is unambiguous. -/
theorem append_sep_inj {α : Type} (c : α) :
    ∀ (a b s t : List α), c ∉ s → c ∉ t → a ++ c :: s = b ++ c :: t → a = b ∧ s = t := by
  intro a
  induction a with
  | nil =>
    intro b s t hs _ h
    cases b with
    | nil => simpa using h
    | cons x b =>
      simp only [List.nil_append, List.cons_append, List.cons.injEq] at h
      exact absurd (h.2 ▸ (by simp : c ∈ b ++ c :: t)) hs
  | cons y a ih =>
    intro b s t hs ht h
    cases b with
    | nil =>
      simp only [List.nil_append, List.cons_append, List.cons.injEq] at h
      exact absurd (h.2 ▸ (by simp : c ∈ a ++ c :: s)) ht
    | cons x b =>
      simp only [List.cons_append, List.cons.injEq] at h
      obtain ⟨hab, hst⟩ := ih b s t hs ht h.2
      exact ⟨by rw [h.1, hab], hst⟩

theorem toString_ofNat (n : Nat) : toString (Int.ofNat n) = Itoa n := rfl

/-- C29: the container name `<serviceID>-<instanceID>` determines the pair when the
instance ids are not negative. -/
theorem ctrName_injective (serviceID1 serviceID2 : String) (instanceID1 instanceID2 : Int)
    (h1 : 0 ≤ instanceID1) (h2 : 0 ≤ instanceID2)
    (h : ctrName serviceID1 instanceID1 = ctrName serviceID2 instanceID2) :
    serviceID1 = serviceID2 ∧ instanceID1 = instanceID2 := by
  obtain ⟨m, rfl⟩ := Int.eq_ofNat_of_zero_le h1
  obtain ⟨n, rfl⟩ := Int.eq_ofNat_of_zero_le h2
  have hd := congrArg String.data h
  have hdash : ("-" : String).data = ['-'] := rfl
  simp only [ctrName, String.data_append, hdash, List.append_assoc, List.singleton_append] at hd
  have hm : toString (m : Int) = Itoa m := rfl
  have hn : toString (n : Int) = Itoa n := rfl
  rw [hm, hn] at hd
  obtain ⟨hs, hi⟩ := append_sep_inj '-' _ _ _ _ (Itoa_decimal m).2 (Itoa_decimal n).2 hd
  refine ⟨String.ext hs, ?_⟩
  have := Itoa_injective m n (String.ext hi)
  simp [this]


theorem ctrName_injective_witness :
    (0 : Int) ≤ 3 ∧ (0 : Int) ≤ 3 ∧ ctrName "svc" 3 = ctrName "svc" 3 ∧
      (("svc" : String) = "svc" ∧ (3 : Int) = 3) :=
  ⟨by decide, by decide, rfl, ctrName_injective "svc" "svc" 3 3 (by decide) (by decide) rfl⟩

/-- With a negative instance id the name no longer determines the pair. -/
theorem ctrName_negative_collision : ctrName "a" (-1) = ctrName "a-" 1 := by decide

/-! ### agent.go: the exit status in `waitForProcessToDie` -/

/-- C24, counterexample: a process that exits with code 0, which is neither 137 nor 2,
makes `cmd.Wait()` return nil, and nothing is dumped. -/
theorem exit_zero_dumps_nothing :
    waitEnvNotRunning.Wait = waitOfExit 0 ∧ (0 : Nat) ≠ 137 ∧ (0 : Nat) ≠ 2 ∧
    WaitAction.dumpOut ∉ afterWait waitEnvNotRunning ⟨"i1", "s1", "h1", ⟨1⟩, ⟨1⟩⟩ ∧
    WaitAction.dumpOut ∉ waitForProcessToDie waitEnvNotRunning ⟨"i1", "s1", "h1", ⟨1⟩, ⟨1⟩⟩ := by
  decide

/-- C24, amended: after the process exits with a given code, the saved output is dumped
exactly when the code is none of 0, 137 and 2. -/
theorem afterWait_dumps_iff (env : WaitEnv) (serviceState : ServiceState) (exitCode : Nat)
    (hwait : env.Wait = waitOfExit exitCode) :
    WaitAction.dumpOut ∈ afterWait env serviceState ↔
      exitCode ≠ 0 ∧ exitCode ≠ 137 ∧ exitCode ≠ 2 := by
  unfold afterWait
  rw [hwait]
  unfold waitOfExit
  by_cases h0 : exitCode = 0
  · simp [h0]
  · by_cases h1 : exitCode = 137
    · simp [h1]
    · by_cases h2 : exitCode = 2
      · simp [h2]
      · simp only [if_neg h0]
        have h137 : ¬ ((exitCode : Int) = 137) := by exact_mod_cast h1
        have h2i : ¬ ((exitCode : Int) = 2) := by exact_mod_cast h2
        simp [h0, h1, h2, h137, h2i]

theorem afterWait_dumps_iff_witness :
    waitEnvTwoEndpoints.Wait = waitOfExit 1 ∧
    (WaitAction.dumpOut ∈ afterWait waitEnvTwoEndpoints ⟨"i1", "s1", "h1", ⟨1⟩, ⟨1⟩⟩ ↔
      (1 : Nat) ≠ 0 ∧ (1 : Nat) ≠ 137 ∧ (1 : Nat) ≠ 2) :=
  ⟨by decide, afterWait_dumps_iff waitEnvTwoEndpoints ⟨"i1", "s1", "h1", ⟨1⟩, ⟨1⟩⟩ 1 (by decide)⟩

/-! ### agent.go: `getIPResources` -/

/-- The mask that `validate` tests is the multicast bit, and it reports an error when
that bit is clear. -/
theorem validate_eq (iface : Interface) (ip : String) :
    (1 <<< FlagLoopback = FlagMulticast) ∧
    (validate iface ip = none ↔ iface.Flags &&& FlagMulticast ≠ 0) := by
  refine ⟨by decide, ?_⟩
  have h : (1 <<< FlagLoopback : Nat) = FlagMulticast := by decide
  unfold validate
  rw [h]
  by_cases hz : iface.Flags &&& FlagMulticast = 0 <;> simp [hz]

/-- C28: an address on an up, point-to-point interface without the loopback flag is
rejected with the loopback error, and the address of a loopback interface that carries
the multicast flag is accepted. -/
theorem getIPResources_tests_multicast_bit :
    ifaceWg0.Flags &&& FlagLoopback = 0 ∧
    getIPResources (.ok [ifaceWg0, ifaceLo0]) "h1" ["10.8.0.2"] =
      .error "Loopback address 10.8.0.2 cannot be used to register a host" ∧
    ifaceLo0.Flags &&& FlagLoopback ≠ 0 ∧
    getIPResources (.ok [ifaceWg0, ifaceLo0]) "h1" ["127.0.0.1"] =
      .ok [⟨"h1", "127.0.0.1", "lo0"⟩] := by
  decide

/-! ### auth0.go: `getPemCert` -/

/-- C30: with an empty key list and a failed refresh, and with one key that carries two
`x5c` entries, `getPemCert` indexes the key list out of range. -/
theorem getPemCert_index_out_of_range :
    (∀ (msg : String) (kid : Option String), getPemCert [] (.error msg) kid = .panic) ∧
    (∀ kid : Option String, getPemCert [] (.ok []) kid = .panic) ∧
    (∀ (fetch : Except String (List JSONWebkeys)) (kid : Option String),
      getPemCert keysOneTwoCerts fetch kid = .panic) := by
  refine ⟨fun msg kid => rfl, fun kid => rfl, fun fetch kid => ?_⟩
  by_cases h : kid = some "kid1" <;>
    simp [getPemCert, refreshIfEmpty, keysOneTwoCerts, certLoop, h]

/-! ### agent.go: polling in `waitForProcessToDie` -/

/-- When the inspect first succeeds at attempt `k`, the loop does `k` failed inspects,
each followed by the sleep, the kill and the dump, then the successful inspect, and
ends with the state of that inspect, whatever it says. -/
theorem getDockerStateLoop_first_ok (env : WaitEnv) (dockerId : String) :
    ∀ (remaining i : Nat) (last : Except String ContainerState) (k : Nat)
      (cs : ContainerState),
      k < remaining → (∀ j, j < k → ∃ e, env.getDockerState (i + j) = .error e) →
      env.getDockerState (i + k) = .ok cs →
      getDockerStateLoop env dockerId remaining i last =
        (repeatActions (failedInspect dockerId) k ++ [.getDockerState dockerId], .ok cs) := by
  intro remaining
  induction remaining with
  | zero => intro i last k cs hk; omega
  | succ r ih =>
    intro i last k cs hk hfail hok
    simp only [getDockerStateLoop]
    cases k with
    | zero =>
      simp only [Nat.add_zero] at hok
      rw [hok]
      simp [repeatActions]
    | succ k =>
      obtain ⟨e, he⟩ := hfail 0 (by omega)
      simp only [Nat.add_zero] at he
      rw [he]
      have hrec := ih (i + 1) (.error e) k cs (by omega)
        (fun j hj => by
          have h := hfail (j + 1) (by omega)
          have hidx : i + (j + 1) = i + 1 + j := by omega
          rwa [hidx] at h)
        (by
          have hidx : i + (k + 1) = i + 1 + k := by omega
          rwa [hidx] at hok)
      simp [hrec, repeatActions, failedInspect]

/-- When every inspect fails, each of them is followed by the sleep, the kill and the
dump, and the loop ends with an error. -/
theorem getDockerStateLoop_all_fail (env : WaitEnv) (dockerId : String) :
    ∀ (remaining i : Nat) (last : Except String ContainerState),
      (∀ j, j < remaining → ∃ e, env.getDockerState (i + j) = .error e) →
      (getDockerStateLoop env dockerId remaining i last).1 =
          repeatActions (failedInspect dockerId) remaining ∧
        (remaining ≠ 0 → ∃ e, (getDockerStateLoop env dockerId remaining i last).2 = .error e) := by
  intro remaining
  induction remaining with
  | zero => intro i last _; simp [getDockerStateLoop, repeatActions]
  | succ r ih =>
    intro i last hfail
    obtain ⟨e, he⟩ := hfail 0 (by omega)
    simp only [Nat.add_zero] at he
    simp only [getDockerStateLoop, he]
    obtain ⟨h1, h2⟩ := ih (i + 1) (.error e) (fun j hj => by
      have h := hfail (j + 1) (by omega)
      have hidx : i + (j + 1) = i + 1 + j := by omega
      rwa [hidx] at h)
    refine ⟨by simp [h1, repeatActions, failedInspect], fun _ => ?_⟩
    by_cases hr : r = 0
    · subst hr
      exact ⟨e, by simp [getDockerStateLoop]⟩
    · exact h2 hr

/-- A loop that ends without error ends with the state of a successful inspect, the
first one, and all inspects before it failed. -/
theorem getDockerStateLoop_ok (env : WaitEnv) (dockerId : String) :
    ∀ (remaining i : Nat) (last : Except String ContainerState) (cs : ContainerState),
      remaining ≠ 0 → (getDockerStateLoop env dockerId remaining i last).2 = .ok cs →
      ∃ k, k < remaining ∧ env.getDockerState (i + k) = .ok cs ∧
        ∀ j, j < k → ∃ e, env.getDockerState (i + j) = .error e := by
  intro remaining
  induction remaining with
  | zero => intro i last cs h; exact absurd rfl h
  | succ r ih =>
    intro i last cs _ hok
    simp only [getDockerStateLoop] at hok
    cases hg : env.getDockerState i with
    | ok cs1 =>
      rw [hg] at hok
      simp only [Except.ok.injEq] at hok
      exact ⟨0, by omega, by simpa [hok] using hg, fun j hj => by omega⟩
    | error e =>
      rw [hg] at hok
      simp only [] at hok
      by_cases hr : r = 0
      · subst hr
        simp [getDockerStateLoop] at hok
      · obtain ⟨k, hk, hget, hbefore⟩ := ih (i + 1) (.error e) cs hr hok
        refine ⟨k + 1, by omega, ?_, ?_⟩
        · have hidx : i + (k + 1) = i + 1 + k := by omega
          rw [hidx]
          exact hget
        · intro j hj
          cases j with
          | zero => exact ⟨e, by simpa using hg⟩
          | succ j =>
            have hidx : i + (j + 1) = i + 1 + j := by omega
            rw [hidx]
            exact hbefore j (by omega)

/-- The loop inspects at most once per iteration and writes nothing. -/
theorem getDockerStateLoop_quiet (env : WaitEnv) (dockerId : String) :
    ∀ (remaining i : Nat) (last : Except String ContainerState),
      ((getDockerStateLoop env dockerId remaining i last).1.filter
          WaitAction.isInspect).length ≤ remaining ∧
        (getDockerStateLoop env dockerId remaining i last).1.filter WaitAction.isUpdate = [] := by
  intro remaining
  induction remaining with
  | zero => intro i last; simp [getDockerStateLoop]
  | succ r ih =>
    intro i last
    simp only [getDockerStateLoop]
    cases env.getDockerState i with
    | error err =>
      obtain ⟨h1, h2⟩ := ih (i + 1) (.error err)
      refine ⟨?_, by simp [WaitAction.isUpdate, h2]⟩
      simp [WaitAction.isInspect]
      omega
    | ok cs => simp [WaitAction.isInspect, WaitAction.isUpdate]

theorem proxyLoop_quiet (serviceId privateIp : String) (endpoints : List ServiceEndpoint) :
    (proxyLoop serviceId privateIp endpoints).1.filter WaitAction.isInspect = [] ∧
    (proxyLoop serviceId privateIp endpoints).1.filter WaitAction.isUpdate = [] := by
  induction endpoints with
  | nil => simp [proxyLoop]
  | cons endpoint rest ih =>
    simp only [proxyLoop]
    cases endpoint.Assignment with
    | none => exact ih
    | some a => simp [WaitAction.isInspect, WaitAction.isUpdate, ih.1, ih.2]

theorem afterWait_quiet (env : WaitEnv) (serviceState : ServiceState) :
    (afterWait env serviceState).filter WaitAction.isInspect = [] ∧
    (afterWait env serviceState).filter WaitAction.isUpdate = [] := by
  unfold afterWait
  cases env.Wait with
  | exitStatus c =>
    by_cases h1 : c = 137
    · simp [h1, WaitAction.isInspect, WaitAction.isUpdate]
    · by_cases h2 : c = 2 <;> simp [h1, h2, WaitAction.isInspect, WaitAction.isUpdate]
  | nil => simp [WaitAction.isInspect, WaitAction.isUpdate]
  | exitNoStatus => simp [WaitAction.isInspect, WaitAction.isUpdate]
  | other e => simp [WaitAction.isInspect, WaitAction.isUpdate]

theorem removeProxy_quiet (ids : List String) :
    (ids.map WaitAction.RemoveProxy).filter WaitAction.isInspect = [] ∧
    (ids.map WaitAction.RemoveProxy).filter WaitAction.isUpdate = [] := by
  induction ids with
  | nil => simp
  | cons id rest ih => simp [WaitAction.isInspect, WaitAction.isUpdate, ih.1, ih.2]

/-- The body inspects only in the polling loop, and writes the state only after the
loop ended without error, then with the id and the address of the loop's state. -/
theorem waitBody_quiet (env : WaitEnv) (serviceState : ServiceState) :
    ((waitBody env serviceState).1.filter WaitAction.isInspect).length ≤ 30 ∧
    ((waitBody env serviceState).1.filter WaitAction.isUpdate = [] ∨
      ∃ cs, (getDockerStateLoop env serviceState.Id 30 0 (.ok ⟨"", "", "", false⟩)).2 = .ok cs ∧
        (waitBody env serviceState).1.filter WaitAction.isUpdate =
          [.LoadAndUpdateServiceState serviceState.ServiceId serviceState.Id cs.ID
            cs.IPAddress]) := by
  unfold waitBody
  cases env.StdoutPipe with
  | some e => simp
  | none =>
    cases env.StderrPipe with
    | some e => simp
    | none =>
      cases env.Start with
      | some e => simp [WaitAction.isInspect, WaitAction.isUpdate]
      | none =>
        obtain ⟨hq1, hq2⟩ := getDockerStateLoop_quiet env serviceState.Id 30 0
          (.ok ⟨"", "", "", false⟩)
        simp only []
        cases hpoll : (getDockerStateLoop env serviceState.Id 30 0 (.ok ⟨"", "", "", false⟩)).2 with
        | error e =>
          simp only []
          refine ⟨?_, Or.inl ?_⟩
          · simpa [WaitAction.isInspect] using hq1
          · simp [WaitAction.isUpdate, hq2]
        | ok cs =>
          simp only []
          cases env.LoadAndUpdateServiceState with
          | error e =>
            simp only []
            refine ⟨?_, Or.inr ⟨cs, rfl, ?_⟩⟩
            · simpa [WaitAction.isInspect] using hq1
            · simp [WaitAction.isUpdate, hq2]
          | ok sState =>
            obtain ⟨ha1, ha2⟩ := afterWait_quiet env serviceState
            simp only []
            cases env.LoadService with
            | error e =>
              simp only []
              refine ⟨?_, Or.inr ⟨cs, rfl, ?_⟩⟩
              · simpa [WaitAction.isInspect, ha1] using hq1
              · simp [WaitAction.isUpdate, hq2, ha2]
            | ok service =>
              obtain ⟨hp1, hp2⟩ := proxyLoop_quiet sState.ServiceId cs.IPAddress
                service.Endpoints
              simp only []
              refine ⟨?_, Or.inr ⟨cs, rfl, ?_⟩⟩
              · simpa [WaitAction.isInspect, ha1, hp1] using hq1
              · simp [WaitAction.isUpdate, hq2, ha2, hp2]

/-- C25, counterexample: the first inspect succeeds on a container that is not running;
the polling stops there after one inspect, nothing is killed or dumped, and the state of
that inspect is written. -/
theorem polling_stops_on_stopped_container :
    waitEnvNotRunning.getDockerState =
      (fun _ => Except.ok ⟨"c0ffee", "172.17.0.5", "", false⟩) ∧
    (waitForProcessToDie waitEnvNotRunning ⟨"i1", "s1", "h1", ⟨1⟩, ⟨1⟩⟩).filter
      WaitAction.isInspect = [.getDockerState "i1"] ∧
    WaitAction.LoadAndUpdateServiceState "s1" "i1" "c0ffee" "172.17.0.5" ∈
      waitForProcessToDie waitEnvNotRunning ⟨"i1", "s1", "h1", ⟨1⟩, ⟨1⟩⟩ ∧
    WaitAction.dockerTerminate "i1" ∉
      waitForProcessToDie waitEnvNotRunning ⟨"i1", "s1", "h1", ⟨1⟩, ⟨1⟩⟩ ∧
    WaitAction.dumpOut ∉ waitForProcessToDie waitEnvNotRunning ⟨"i1", "s1", "h1", ⟨1⟩, ⟨1⟩⟩ := by
  refine ⟨rfl, ?_, ?_, ?_, ?_⟩ <;> decide

/-- C25, amended: a run inspects the container at most 30 times; the polling stops at
the first inspect that succeeds, after one sleep, kill and dump per failed inspect; the
state is written only with the id and address of the first successful inspect; and when
all 30 inspects fail the run is the 30 failed inspects, each with its kill and dump, and
nothing else but the report that the process finished. -/
theorem waitForProcessToDie_polls (env : WaitEnv) (serviceState : ServiceState) :
    ((waitForProcessToDie env serviceState).filter WaitAction.isInspect).length ≤ 30 ∧
    (∀ k cs, k < 30 → (∀ j, j < k → ∃ e, env.getDockerState j = .error e) →
      env.getDockerState k = .ok cs →
      getDockerStateLoop env serviceState.Id 30 0 (.ok ⟨"", "", "", false⟩) =
        (repeatActions (failedInspect serviceState.Id) k ++
          [.getDockerState serviceState.Id], .ok cs)) ∧
    (∀ a, a ∈ waitForProcessToDie env serviceState → a.isUpdate = true →
      ∃ k cs, k < 30 ∧ env.getDockerState k = .ok cs ∧
        (∀ j, j < k → ∃ e, env.getDockerState j = .error e) ∧
        a = .LoadAndUpdateServiceState serviceState.ServiceId serviceState.Id cs.ID
          cs.IPAddress) ∧
    ((∀ j, j < 30 → ∃ e, env.getDockerState j = .error e) →
      env.StdoutPipe = none → env.StderrPipe = none → env.Start = none →
      waitForProcessToDie env serviceState =
        [.dockerRemove serviceState.Id, .Start, .Sleep 1] ++
          repeatActions (failedInspect serviceState.Id) 30 ++ [.procFinished]) := by
  obtain ⟨hb1, hb2⟩ := waitBody_quiet env serviceState
  obtain ⟨hr1, hr2⟩ := removeProxy_quiet (waitBody env serviceState).2.reverse
  refine ⟨?_, ?_, ?_, ?_⟩
  · simp only [waitForProcessToDie, List.filter_append, hr1]
    simpa [WaitAction.isInspect] using hb1
  · intro k cs hk hfail hok
    exact getDockerStateLoop_first_ok env serviceState.Id 30 0 _ k cs hk
      (fun j hj => by simpa using hfail j hj) (by simpa using hok)
  · intro a ha hupd
    have hmem : a ∈ (waitForProcessToDie env serviceState).filter WaitAction.isUpdate :=
      List.mem_filter.2 ⟨ha, hupd⟩
    have hfilter : (waitForProcessToDie env serviceState).filter WaitAction.isUpdate =
        (waitBody env serviceState).1.filter WaitAction.isUpdate := by
      simp only [waitForProcessToDie, List.filter_append, hr2]
      simp [WaitAction.isUpdate]
    rw [hfilter] at hmem
    rcases hb2 with hnone | ⟨cs, hpoll, hone⟩
    · rw [hnone] at hmem
      cases hmem
    · rw [hone] at hmem
      obtain ⟨k, hk, hget, hbefore⟩ :=
        getDockerStateLoop_ok env serviceState.Id 30 0 _ cs (by decide) hpoll
      refine ⟨k, cs, hk, by simpa using hget, fun j hj => by simpa using hbefore j hj, ?_⟩
      simpa using hmem
  · intro hfail hout herr hstart
    obtain ⟨h1, h2⟩ := getDockerStateLoop_all_fail env serviceState.Id 30 0
      (.ok ⟨"", "", "", false⟩) (fun j hj => by simpa using hfail j hj)
    obtain ⟨e, he⟩ := h2 (by decide)
    simp [waitForProcessToDie, waitBody, hout, herr, hstart, he, h1]

theorem waitForProcessToDie_polls_witness :
    getDockerStateLoop waitEnvTwoEndpoints "i1" 30 0 (.ok ⟨"", "", "", false⟩) =
      (repeatActions (failedInspect "i1") 1 ++ [.getDockerState "i1"],
        .ok ⟨"c0ffee", "172.17.0.5", "", true⟩) :=
  (waitForProcessToDie_polls waitEnvTwoEndpoints ⟨"i1", "s1", "h1", ⟨1⟩, ⟨1⟩⟩).2.1 1 _
    (by decide)
    (fun j hj => ⟨"no container", by
      have h0 : j = 0 := by omega
      subst h0
      rfl⟩)
    rfl

/-! ### virtualips.go: the candidate task -/

theorem ReportsOnce_done (ssId : String) (pre : List StateAction) (err : Option String)
    (hpre : ∀ a, a ∈ pre → a.isDone = false) :
    ReportsOnce ssId (pre ++ [StateAction.done ⟨ssId, err⟩], true) :=
  ⟨fun _ => ⟨pre, err, rfl, hpre⟩, fun h => Bool.noConfusion h⟩

theorem ReportsOnce_pending (ssId : String) (l : List StateAction)
    (hl : ∀ a, a ∈ l → a.isDone = false) : ReportsOnce ssId (l, false) :=
  ⟨fun h => Bool.noConfusion h, fun _ => hl⟩

theorem ReportsOnce_prepend (ssId : String) (pre0 : List StateAction)
    (r : List StateAction × Bool) (h0 : ∀ a, a ∈ pre0 → a.isDone = false)
    (hr : ReportsOnce ssId r) : ReportsOnce ssId (pre0 ++ r.1, r.2) := by
  refine ⟨fun hret => ?_, fun hret a ha => ?_⟩
  · obtain ⟨pre, err, hpre, hnone⟩ := hr.1 hret
    refine ⟨pre0 ++ pre, err, ?_, ?_⟩
    · simp only [hpre, List.append_assoc]
    · intro a ha
      rcases List.mem_append.1 ha with h | h
      · exact h0 a h
      · exact hnone a h
  · rcases List.mem_append.1 ha with h | h
    · exact h0 a h
    · exact hr.2 hret a h

theorem afterSwitch_reports (ssId : String) (ss : ServiceState) (round : StateRound)
    (attached : Bool) (err : Option String) (next : Bool → List StateAction × Bool)
    (hnext : ∀ attached1, ReportsOnce ssId (next attached1)) :
    ReportsOnce ssId (afterSwitch ssId ss round attached err next) := by
  have hterm : ∀ id a, a ∈ [StateAction.terminateAttached id] → a.isDone = false := by
    intro id a ha
    rw [List.mem_singleton.1 ha]
    rfl
  have hinst : ∀ id a, a ∈ [StateAction.terminateInstance id] → a.isDone = false := by
    intro id a ha
    rw [List.mem_singleton.1 ha]
    rfl
  unfold afterSwitch
  by_cases hfail : attached = false ∨ err ≠ none
  · rw [if_pos hfail]
    exact ReportsOnce_done ssId [.terminateInstance ss.Id] _ (hinst ss.Id)
  · rw [if_neg hfail]
    cases round.select with
    | shutdown =>
      cases round.terminateAttached with
      | none => exact ReportsOnce_pending ssId _ (hterm ss.Id)
      | some err1 => exact ReportsOnce_done ssId [.terminateAttached ss.Id] err1 (hterm ss.Id)
    | procFinished => exact hnext false
    | zkEvent deleted =>
      cases deleted with
      | true =>
        cases round.terminateAttached with
        | none => exact ReportsOnce_pending ssId _ (hterm ss.Id)
        | some err1 =>
          exact ReportsOnce_done ssId [.terminateAttached ss.Id] err1 (hterm ss.Id)
      | false => exact hnext attached

theorem processServiceStateLoop_reports (hostId ssId : String) :
    ∀ (rounds : List StateRound) (attached : Bool),
      ReportsOnce ssId (processServiceStateLoop hostId ssId attached rounds) := by
  intro rounds
  induction rounds with
  | nil =>
    intro attached
    exact ReportsOnce_pending ssId [] (fun a ha => by cases ha)
  | cons round rest ih =>
    intro attached
    have hquiet : ∀ (l : List StateAction), l.all (fun a => !a.isDone) = true →
        ∀ a, a ∈ l → a.isDone = false := by
      intro l hl a ha
      have := List.all_eq_true.1 hl a ha
      simpa using this
    unfold processServiceStateLoop
    cases round.LoadHostServiceStateW with
    | error err =>
      exact ReportsOnce_done ssId [.LoadHostServiceStateW hostId ssId] _ (hquiet _ rfl)
    | ok hss =>
      simp only []
      by_cases hvalid : hss.ServiceStateId.length = 0 ∨ hss.ServiceId.length = 0
      · rw [if_pos hvalid]
        exact ReportsOnce_done ssId [.LoadHostServiceStateW hostId ssId] _ (hquiet _ rfl)
      · rw [if_neg hvalid]
        cases round.LoadServiceState with
        | error err =>
          exact ReportsOnce_done ssId [.LoadHostServiceStateW hostId ssId,
            .LoadServiceState hss.ServiceId hss.ServiceStateId,
            .Delete (HostServiceStatePath hostId ssId)] _ (hquiet _ rfl)
        | ok ss =>
          simp only []
          have hloaded := hquiet [StateAction.LoadHostServiceStateW hostId ssId,
            .LoadServiceState hss.ServiceId hss.ServiceStateId, .LoadService ss.ServiceId] rfl
          cases round.LoadService with
          | error err => exact ReportsOnce_done ssId _ _ hloaded
          | ok service =>
            simp only []
            cases processServiceStateSwitch attached hss ss with
            | terminateAttached =>
              simp only []
              cases round.terminateAttached with
              | none =>
                exact ReportsOnce_pending ssId _ (hquiet [StateAction.LoadHostServiceStateW
                  hostId ssId, .LoadServiceState hss.ServiceId hss.ServiceStateId,
                  .LoadService ss.ServiceId, .terminateAttached ss.Id] rfl)
              | some err =>
                exact ReportsOnce_done ssId [StateAction.LoadHostServiceStateW
                  hostId ssId, .LoadServiceState hss.ServiceId hss.ServiceStateId,
                  .LoadService ss.ServiceId, .terminateAttached ss.Id] err (hquiet _ rfl)
            | terminateInstance =>
              exact ReportsOnce_done ssId [StateAction.LoadHostServiceStateW
                hostId ssId, .LoadServiceState hss.ServiceId hss.ServiceStateId,
                .LoadService ss.ServiceId, .terminateInstance ss.Id] _ (hquiet _ rfl)
            | idle =>
              exact ReportsOnce_prepend ssId _ _ hloaded
                (afterSwitch_reports ssId ss round attached none _ (fun a => ih a))
            | startService =>
              simp only []
              cases round.startService with
              | none =>
                exact ReportsOnce_pending ssId _ (hquiet [StateAction.LoadHostServiceStateW
                  hostId ssId, .LoadServiceState hss.ServiceId hss.ServiceStateId,
                  .LoadService ss.ServiceId, .startService ss.Id] rfl)
              | some answer =>
                exact ReportsOnce_prepend ssId _ _ (hquiet [StateAction.LoadHostServiceStateW
                  hostId ssId, .LoadServiceState hss.ServiceId hss.ServiceStateId,
                  .LoadService ss.ServiceId, .startService ss.Id] rfl)
                  (afterSwitch_reports ssId ss round answer.1 answer.2 _ (fun a => ih a))
            | attachToService =>
              exact ReportsOnce_prepend ssId _ _ (hquiet [StateAction.LoadHostServiceStateW
                hostId ssId, .LoadServiceState hss.ServiceId hss.ServiceStateId,
                .LoadService ss.ServiceId, .attachToService ss.Id] rfl)
                (afterSwitch_reports ssId ss round round.attachToService.1
                  round.attachToService.2 _ (fun a => ih a))
            | unhandled =>
              exact ReportsOnce_prepend ssId _ _ hloaded
                (afterSwitch_reports ssId ss round attached none _ (fun a => ih a))

/-- The end of an iteration either does not depend on the rest of the loop, or is the
rest of the loop itself, entered with `attached` true unless `procFinished` fired. -/
theorem afterSwitch_step (ssId : String) (ss : ServiceState) (round : StateRound)
    (attached : Bool) (err : Option String) :
    (∃ r, ∀ next, afterSwitch ssId ss round attached err next = r) ∨
    (∀ next, afterSwitch ssId ss round attached err next =
      next (decide (round.select = .zkEvent false))) := by
  unfold afterSwitch
  by_cases hfail : attached = false ∨ err ≠ none
  · left
    exact ⟨_, fun next => by rw [if_pos hfail]⟩
  · have hatt : attached = true := by
      cases attached
      · exact absurd (Or.inl rfl) hfail
      · rfl
    cases hsel : round.select with
    | shutdown =>
      left
      exact ⟨_, fun next => by rw [if_neg hfail]⟩
    | procFinished =>
      right
      intro next
      rw [if_neg hfail]
      rfl
    | zkEvent deleted =>
      cases deleted with
      | true =>
        left
        exact ⟨_, fun next => by rw [if_neg hfail]⟩
      | false =>
        right
        intro next
        rw [if_neg hfail, hatt]
        rfl

/-- One iteration either ends the run, whatever the rounds after it, or sends nothing on
`done` and hands over to the next iteration. -/
theorem processServiceStateLoop_step (hostId ssId : String) (attached : Bool)
    (round : StateRound) :
    (∀ rest, processServiceStateLoop hostId ssId attached (round :: rest) =
      processServiceStateLoop hostId ssId attached [round]) ∨
    (∃ acts, (∀ a, a ∈ acts → a.isDone = false) ∧
      ∀ rest, processServiceStateLoop hostId ssId attached (round :: rest) =
        (acts ++ (processServiceStateLoop hostId ssId
            (decide (round.select = .zkEvent false)) rest).1,
          (processServiceStateLoop hostId ssId
            (decide (round.select = .zkEvent false)) rest).2)) := by
  have hquiet : ∀ (l : List StateAction), l.all (fun a => !a.isDone) = true →
      ∀ a, a ∈ l → a.isDone = false := by
    intro l hl a ha
    have := List.all_eq_true.1 hl a ha
    simpa using this
  cases h1 : round.LoadHostServiceStateW with
  | error err =>
    left
    intro rest
    simp only [processServiceStateLoop, h1]
  | ok hss =>
    by_cases hvalid : hss.ServiceStateId.length = 0 ∨ hss.ServiceId.length = 0
    · left
      intro rest
      simp only [processServiceStateLoop, h1, if_pos hvalid]
    · cases h2 : round.LoadServiceState with
      | error err =>
        left
        intro rest
        simp only [processServiceStateLoop, h1, if_neg hvalid, h2]
      | ok ss =>
        cases h3 : round.LoadService with
        | error err =>
          left
          intro rest
          simp only [processServiceStateLoop, h1, if_neg hvalid, h2, h3]
        | ok service =>
          cases h4 : processServiceStateSwitch attached hss ss with
          | terminateAttached =>
            left
            intro rest
            simp only [processServiceStateLoop, h1, if_neg hvalid, h2, h3, h4]
          | terminateInstance =>
            left
            intro rest
            simp only [processServiceStateLoop, h1, if_neg hvalid, h2, h3, h4]
          | idle =>
            rcases afterSwitch_step ssId ss round attached none with ⟨r, hr⟩ | hnext
            · left
              intro rest
              simp only [processServiceStateLoop, h1, if_neg hvalid, h2, h3, h4, hr]
            · right
              refine ⟨[.LoadHostServiceStateW hostId ssId,
                .LoadServiceState hss.ServiceId hss.ServiceStateId, .LoadService ss.ServiceId],
                hquiet _ rfl, ?_⟩
              intro rest
              simp only [processServiceStateLoop, h1, if_neg hvalid, h2, h3, h4, hnext]
          | unhandled =>
            rcases afterSwitch_step ssId ss round attached none with ⟨r, hr⟩ | hnext
            · left
              intro rest
              simp only [processServiceStateLoop, h1, if_neg hvalid, h2, h3, h4, hr]
            · right
              refine ⟨[.LoadHostServiceStateW hostId ssId,
                .LoadServiceState hss.ServiceId hss.ServiceStateId, .LoadService ss.ServiceId],
                hquiet _ rfl, ?_⟩
              intro rest
              simp only [processServiceStateLoop, h1, if_neg hvalid, h2, h3, h4, hnext]
          | attachToService =>
            rcases afterSwitch_step ssId ss round round.attachToService.1
              round.attachToService.2 with ⟨r, hr⟩ | hnext
            · left
              intro rest
              simp only [processServiceStateLoop, h1, if_neg hvalid, h2, h3, h4, hr]
            · right
              refine ⟨[.LoadHostServiceStateW hostId ssId,
                .LoadServiceState hss.ServiceId hss.ServiceStateId, .LoadService ss.ServiceId,
                .attachToService ss.Id], hquiet _ rfl, ?_⟩
              intro rest
              simp only [processServiceStateLoop, h1, if_neg hvalid, h2, h3, h4, hnext,
                List.cons_append, List.nil_append, List.append_assoc]
          | startService =>
            cases h5 : round.startService with
            | none =>
              left
              intro rest
              simp only [processServiceStateLoop, h1, if_neg hvalid, h2, h3, h4, h5]
            | some answer =>
              rcases afterSwitch_step ssId ss round answer.1 answer.2 with ⟨r, hr⟩ | hnext
              · left
                intro rest
                simp only [processServiceStateLoop, h1, if_neg hvalid, h2, h3, h4, h5, hr]
              · right
                refine ⟨[.LoadHostServiceStateW hostId ssId,
                  .LoadServiceState hss.ServiceId hss.ServiceStateId,
                  .LoadService ss.ServiceId, .startService ss.Id], hquiet _ rfl, ?_⟩
                intro rest
                simp only [processServiceStateLoop, h1, if_neg hvalid, h2, h3, h4, h5, hnext,
                  List.cons_append, List.nil_append, List.append_assoc]

/-- A run that returned did so in one of its rounds: the rounds before it ended in a
`continue`, and what the run did is what they did followed by what that round does when
entered with the value of `attached` they leave. -/
theorem processServiceStateLoop_last_round (hostId ssId : String) :
    ∀ (rounds : List StateRound) (attached : Bool),
      (processServiceStateLoop hostId ssId attached rounds).2 = true →
      ∃ used round unused, rounds = used ++ round :: unused ∧
        (processServiceStateLoop hostId ssId attached used).2 = false ∧
        (processServiceStateLoop hostId ssId (attachedAfter attached used) [round]).2 = true ∧
        (processServiceStateLoop hostId ssId attached rounds).1 =
          (processServiceStateLoop hostId ssId attached used).1 ++
            (processServiceStateLoop hostId ssId (attachedAfter attached used) [round]).1 := by
  intro rounds
  induction rounds with
  | nil =>
    intro attached h
    simp [processServiceStateLoop] at h
  | cons round rest ih =>
    intro attached h
    rcases processServiceStateLoop_step hostId ssId attached round with hend | ⟨acts, _, hgo⟩
    · refine ⟨[], round, rest, rfl, by simp [processServiceStateLoop], ?_, ?_⟩
      · rw [attachedAfter, ← hend rest]
        exact h
      · rw [attachedAfter, hend rest]
        simp [processServiceStateLoop]
    · rw [hgo rest] at h
      obtain ⟨used, last, unused, hsplit, hused, hlast, htrace⟩ := ih _ h
      refine ⟨round :: used, last, unused, by simp [hsplit], ?_, ?_, ?_⟩
      · rw [hgo used]
        exact hused
      · exact hlast
      · rw [hgo rest, hgo used]
        simp only [htrace, List.append_assoc, attachedAfter]

/-- The first case of the `switch` is taken exactly on the desired state stop, with
`terminateAttached` when attached and `terminateInstance` otherwise. -/
theorem processServiceStateSwitch_stop (attached : Bool) (hss : HostServiceState)
    (ss : ServiceState) :
    (processServiceStateSwitch attached hss ss = .terminateAttached ↔
      hss.DesiredState = .stop ∧ attached = true) ∧
    (processServiceStateSwitch attached hss ss = .terminateInstance ↔
      hss.DesiredState = .stop ∧ attached = false) := by
  unfold processServiceStateSwitch
  by_cases hstop : hss.DesiredState = DesiredState.stop
  · cases attached <;> simp [hstop]
  · rw [if_neg hstop]
    constructor
    · constructor
      · intro h
        split at h
        · cases h
        · split at h
          · cases h
          · split at h <;> cases h
      · intro h
        exact absurd h.1 hstop
    · constructor
      · intro h
        split at h
        · cases h
        · split at h
          · cases h
          · split at h <;> cases h
      · intro h
        exact absurd h.1 hstop

/-- What the one report of a round carries: the id `ssId`, and an error fixed by the
first step of the round that ends it.  A failed load and a failed start or attach give a
new error that names the step; the first case of the `switch`, the shutdown and the
deletion of the node give the error of the terminate call. -/
theorem processServiceStateLoop_report (hostId ssId : String) (attached : Bool)
    (round : StateRound) (result : stateResult)
    (hret : (processServiceStateLoop hostId ssId attached [round]).2 = true)
    (hlast : (processServiceStateLoop hostId ssId attached [round]).1.getLast? =
      some (.done result)) :
    result.id = ssId ∧
    (∀ e, round.LoadHostServiceStateW = .error e →
      result.err = some ("Unable to load host service state " ++ ssId ++ ": " ++ e)) ∧
    (∀ hss, round.LoadHostServiceStateW = .ok hss →
      ((hss.ServiceStateId.length = 0 ∨ hss.ServiceId.length = 0) →
        result.err =
          some ("Service for " ++ HostServiceStatePath hostId ssId ++ " is invalid")) ∧
      (¬(hss.ServiceStateId.length = 0 ∨ hss.ServiceId.length = 0) →
        (∀ e, round.LoadServiceState = .error e →
          result.err = some ("Host service state unable to load service state " ++ ssId)) ∧
        (∀ ss, round.LoadServiceState = .ok ss →
          (∀ e, round.LoadService = .error e →
            result.err =
              some ("Host service state unable to load service " ++ ss.ServiceId)) ∧
          (∀ service, round.LoadService = .ok service →
            (hss.DesiredState = .stop →
              (attached = true → round.terminateAttached = some result.err) ∧
              (attached = false → result.err = round.terminateInstance)) ∧
            (hss.DesiredState ≠ .stop →
              ∃ attached1 err1, switchAnswer attached hss ss round = some (attached1, err1) ∧
                ((attached1 = false ∨ err1 ≠ none) →
                  result.err = some ("Service state " ++ ssId ++
                    " unable to start or attach to process")) ∧
                (¬(attached1 = false ∨ err1 ≠ none) →
                  (round.select = .shutdown ∨ round.select = .zkEvent true) ∧
                  round.terminateAttached = some result.err)))))) := by
  -- the end of the iteration, for the values the switch leaves
  have hafter : ∀ (ss : ServiceState) (attached1 : Bool) (err1 : Option String)
      (front : List StateAction),
      (afterSwitch ssId ss round attached1 err1
        (fun a => processServiceStateLoop hostId ssId a [])).2 = true →
      (front ++ (afterSwitch ssId ss round attached1 err1
        (fun a => processServiceStateLoop hostId ssId a [])).1).getLast? =
          some (.done result) →
      result.id = ssId ∧
      ((attached1 = false ∨ err1 ≠ none) →
        result.err = some ("Service state " ++ ssId ++
          " unable to start or attach to process")) ∧
      (¬(attached1 = false ∨ err1 ≠ none) →
        (round.select = .shutdown ∨ round.select = .zkEvent true) ∧
        round.terminateAttached = some result.err) := by
    intro ss attached1 err1 front hr hl
    unfold afterSwitch at hr hl
    by_cases hfail : attached1 = false ∨ err1 ≠ none
    · rw [if_pos hfail] at hl
      simp at hl
      subst hl
      exact ⟨rfl, fun _ => rfl, fun h => absurd hfail h⟩
    · rw [if_neg hfail] at hr hl
      refine ⟨?_, fun h => absurd h hfail, fun _ => ?_⟩
      · cases hsel : round.select with
        | shutdown =>
          rw [hsel] at hr hl
          cases hta : round.terminateAttached with
          | none => rw [hta] at hr; cases hr
          | some e =>
            rw [hta] at hl
            simp at hl
            subst hl
            rfl
        | procFinished =>
          rw [hsel] at hr
          simp [processServiceStateLoop] at hr
        | zkEvent deleted =>
          cases deleted with
          | false =>
            rw [hsel] at hr
            simp [processServiceStateLoop] at hr
          | true =>
            rw [hsel] at hr hl
            cases hta : round.terminateAttached with
            | none => rw [hta] at hr; cases hr
            | some e =>
              rw [hta] at hl
              simp at hl
              subst hl
              rfl
      · cases hsel : round.select with
        | shutdown =>
          rw [hsel] at hr hl
          cases hta : round.terminateAttached with
          | none => rw [hta] at hr; cases hr
          | some e =>
            rw [hta] at hl
            simp at hl
            subst hl
            exact ⟨Or.inl rfl, rfl⟩
        | procFinished =>
          rw [hsel] at hr
          simp [processServiceStateLoop] at hr
        | zkEvent deleted =>
          cases deleted with
          | false =>
            rw [hsel] at hr
            simp [processServiceStateLoop] at hr
          | true =>
            rw [hsel] at hr hl
            cases hta : round.terminateAttached with
            | none => rw [hta] at hr; cases hr
            | some e =>
              rw [hta] at hl
              simp at hl
              subst hl
              exact ⟨Or.inr rfl, rfl⟩
  revert hret hlast
  unfold processServiceStateLoop
  cases h1 : round.LoadHostServiceStateW with
  | error e0 =>
    intro _ hlast
    simp at hlast
    subst hlast
    exact ⟨rfl, (fun e he => by cases he; rfl), fun hss hh => by cases hh⟩
  | ok hss0 =>
    simp only []
    by_cases hvalid : hss0.ServiceStateId.length = 0 ∨ hss0.ServiceId.length = 0
    · rw [if_pos hvalid]
      intro _ hlast
      simp at hlast
      subst hlast
      refine ⟨rfl, (fun e he => by cases he), ?_⟩
      intro hss hh
      cases hh
      exact ⟨fun _ => rfl, fun h => absurd hvalid h⟩
    · rw [if_neg hvalid]
      cases h2 : round.LoadServiceState with
      | error e2 =>
        intro _ hlast
        simp at hlast
        subst hlast
        refine ⟨rfl, (fun e he => by cases he), ?_⟩
        intro hss hh
        cases hh
        exact ⟨fun h => absurd h hvalid, fun _ => ⟨fun e he => rfl, fun ss hs => by cases hs⟩⟩
      | ok ss0 =>
        simp only []
        cases h3 : round.LoadService with
        | error e3 =>
          intro _ hlast
          simp at hlast
          subst hlast
          refine ⟨rfl, (fun e he => by cases he), ?_⟩
          intro hss hh
          cases hh
          refine ⟨fun h => absurd h hvalid, fun _ => ⟨(fun e he => by cases he), ?_⟩⟩
          intro ss hs
          cases hs
          exact ⟨fun e he => rfl, fun service hsv => by cases hsv⟩
        | ok service0 =>
          simp only []
          obtain ⟨hsA, hsI⟩ := processServiceStateSwitch_stop attached hss0 ss0
          -- what is left to show once the loads are known to have succeeded
          suffices hmain : (processServiceStateLoop hostId ssId attached [round]).2 = true →
              (processServiceStateLoop hostId ssId attached [round]).1.getLast? =
                some (.done result) →
              result.id = ssId ∧
              (hss0.DesiredState = .stop →
                (attached = true → round.terminateAttached = some result.err) ∧
                (attached = false → result.err = round.terminateInstance)) ∧
              (hss0.DesiredState ≠ .stop →
                ∃ attached1 err1, switchAnswer attached hss0 ss0 round = some (attached1, err1) ∧
                  ((attached1 = false ∨ err1 ≠ none) →
                    result.err = some ("Service state " ++ ssId ++
                      " unable to start or attach to process")) ∧
                  (¬(attached1 = false ∨ err1 ≠ none) →
                    (round.select = .shutdown ∨ round.select = .zkEvent true) ∧
                    round.terminateAttached = some result.err)) by
            intro hret hlast
            have hret1 : (processServiceStateLoop hostId ssId attached [round]).2 = true := by
              simp only [processServiceStateLoop, h1, if_neg hvalid, h2, h3]
              exact hret
            have hlast1 : (processServiceStateLoop hostId ssId attached [round]).1.getLast? =
                some (.done result) := by
              simp only [processServiceStateLoop, h1, if_neg hvalid, h2, h3]
              exact hlast
            obtain ⟨hid, hstop, hrun⟩ := hmain hret1 hlast1
            refine ⟨hid, (fun e he => by cases he), ?_⟩
            intro hss hh
            cases hh
            refine ⟨fun h => absurd h hvalid, fun _ => ⟨(fun e he => by cases he), ?_⟩⟩
            intro ss hs
            cases hs
            exact ⟨(fun e he => by cases he), fun service _ => ⟨hstop, hrun⟩⟩
          intro hret hlast
          simp only [processServiceStateLoop, h1, if_neg hvalid, h2, h3] at hret hlast
          cases h4 : processServiceStateSwitch attached hss0 ss0 with
          | terminateAttached =>
            obtain ⟨hd, ha⟩ := hsA.1 h4
            rw [h4] at hret hlast
            simp only [] at hret hlast
            cases hta : round.terminateAttached with
            | none => rw [hta] at hret; cases hret
            | some e =>
              rw [hta] at hlast
              simp at hlast
              subst hlast
              exact ⟨rfl, fun _ => ⟨fun _ => rfl, fun h => by rw [ha] at h; cases h⟩,
                fun h => absurd hd h⟩
          | terminateInstance =>
            obtain ⟨hd, ha⟩ := hsI.1 h4
            rw [h4] at hret hlast
            simp at hlast
            subst hlast
            exact ⟨rfl, fun _ => ⟨(fun h => by rw [ha] at h; cases h), fun _ => rfl⟩,
              fun h => absurd hd h⟩
          | idle =>
            have hd : hss0.DesiredState ≠ .stop := by
              intro hd
              cases attached
              · rw [hsI.2 ⟨hd, rfl⟩] at h4; cases h4
              · rw [hsA.2 ⟨hd, rfl⟩] at h4; cases h4
            rw [h4] at hret hlast
            obtain ⟨hid, hf, hs⟩ := hafter ss0 attached none _ hret hlast
            exact ⟨hid, fun h => absurd h hd,
              fun _ => ⟨attached, none, by simp [switchAnswer, h4], hf, hs⟩⟩
          | unhandled =>
            have hd : hss0.DesiredState ≠ .stop := by
              intro hd
              cases attached
              · rw [hsI.2 ⟨hd, rfl⟩] at h4; cases h4
              · rw [hsA.2 ⟨hd, rfl⟩] at h4; cases h4
            rw [h4] at hret hlast
            obtain ⟨hid, hf, hs⟩ := hafter ss0 attached none _ hret hlast
            exact ⟨hid, fun h => absurd h hd,
              fun _ => ⟨attached, none, by simp [switchAnswer, h4], hf, hs⟩⟩
          | attachToService =>
            have hd : hss0.DesiredState ≠ .stop := by
              intro hd
              cases attached
              · rw [hsI.2 ⟨hd, rfl⟩] at h4; cases h4
              · rw [hsA.2 ⟨hd, rfl⟩] at h4; cases h4
            rw [h4] at hret hlast
            obtain ⟨hid, hf, hs⟩ := hafter ss0 round.attachToService.1
              round.attachToService.2 _ hret hlast
            exact ⟨hid, fun h => absurd h hd,
              fun _ => ⟨round.attachToService.1, round.attachToService.2,
                by simp [switchAnswer, h4], hf, hs⟩⟩
          | startService =>
            have hd : hss0.DesiredState ≠ .stop := by
              intro hd
              cases attached
              · rw [hsI.2 ⟨hd, rfl⟩] at h4; cases h4
              · rw [hsA.2 ⟨hd, rfl⟩] at h4; cases h4
            rw [h4] at hret hlast
            simp only [] at hret hlast
            cases h5 : round.startService with
            | none => rw [h5] at hret; cases hret
            | some answer =>
              rw [h5] at hret hlast
              obtain ⟨hid, hf, hs⟩ := hafter ss0 answer.1 answer.2 _ hret hlast
              exact ⟨hid, fun h => absurd h hd,
                fun _ => ⟨answer.1, answer.2, by simp [switchAnswer, h4, h5], hf, hs⟩⟩

/-- C23, counterexample: `startService` returns `false` with the error `docker: boom`;
the supervisor terminates the instance and reports once, with its id, but the error it
reports is a new one and not the error it got. -/
theorem start_error_not_reported :
    roundStartFails.startService = some (false, some "docker: boom") ∧
    processServiceState "h1" "i1" [roundStartFails] =
      ([.LoadHostServiceStateW "h1" "i1", .LoadServiceState "s1" "i1", .LoadService "s1",
        .startService "i1", .terminateInstance "i1",
        .done ⟨"i1", some "Service state i1 unable to start or attach to process"⟩], true) ∧
    StateAction.done ⟨"i1", some "docker: boom"⟩ ∉
      (processServiceState "h1" "i1" [roundStartFails]).1 := by
  decide

/-- C23, amended: a run of `processServiceState` that returned ends with a send on
`done`, has sent nothing on `done` before it, and the result sent carries `ssId`; a run
that has not returned has sent nothing on `done`.  The run returned in one of its rounds,
after rounds that each ended in a `continue`, and the error of the result is fixed by that
round: a failed load gives a new error that names what could not be loaded; on the
desired state stop it is the error of `terminateAttached` when attached and of
`terminateInstance` otherwise; when the `switch` leaves the instance not attached or with
an error it is the new error `Service state <ssId> unable to start or attach to process`,
whatever error `startService` or `attachToService` returned; and otherwise the run ended
on shutdown or on the deletion of the node, with the error of `terminateAttached`. -/
theorem processServiceState_reports_once (hostId ssId : String) (rounds : List StateRound) :
    ((processServiceState hostId ssId rounds).2 = true →
      ∃ pre result,
        (processServiceState hostId ssId rounds).1 = pre ++ [StateAction.done result] ∧
        (∀ a, a ∈ pre → a.isDone = false) ∧ result.id = ssId ∧
        ∃ used round unused, rounds = used ++ round :: unused ∧
          (processServiceState hostId ssId used).2 = false ∧
          (processServiceState hostId ssId rounds).1 =
            (processServiceState hostId ssId used).1 ++
              (processServiceStateLoop hostId ssId (attachedAfter false used) [round]).1 ∧
          (∀ e, round.LoadHostServiceStateW = .error e →
            result.err = some ("Unable to load host service state " ++ ssId ++ ": " ++ e)) ∧
          (∀ hss, round.LoadHostServiceStateW = .ok hss →
            ((hss.ServiceStateId.length = 0 ∨ hss.ServiceId.length = 0) →
              result.err =
                some ("Service for " ++ HostServiceStatePath hostId ssId ++ " is invalid")) ∧
            (¬(hss.ServiceStateId.length = 0 ∨ hss.ServiceId.length = 0) →
              (∀ e, round.LoadServiceState = .error e →
                result.err =
                  some ("Host service state unable to load service state " ++ ssId)) ∧
              (∀ ss, round.LoadServiceState = .ok ss →
                (∀ e, round.LoadService = .error e →
                  result.err =
                    some ("Host service state unable to load service " ++ ss.ServiceId)) ∧
                (∀ service, round.LoadService = .ok service →
                  (hss.DesiredState = .stop →
                    (attachedAfter false used = true →
                      round.terminateAttached = some result.err) ∧
                    (attachedAfter false used = false →
                      result.err = round.terminateInstance)) ∧
                  (hss.DesiredState ≠ .stop →
                    ∃ attached1 err1,
                      switchAnswer (attachedAfter false used) hss ss round =
                        some (attached1, err1) ∧
                      ((attached1 = false ∨ err1 ≠ none) →
                        result.err = some ("Service state " ++ ssId ++
                          " unable to start or attach to process")) ∧
                      (¬(attached1 = false ∨ err1 ≠ none) →
                        (round.select = .shutdown ∨ round.select = .zkEvent true) ∧
                        round.terminateAttached = some result.err))))))) ∧
    ((processServiceState hostId ssId rounds).2 = false →
      ∀ a, a ∈ (processServiceState hostId ssId rounds).1 → a.isDone = false) := by
  refine ⟨?_, (processServiceStateLoop_reports hostId ssId rounds false).2⟩
  intro hret
  obtain ⟨used, round, unused, hsplit, hused, hlast, htrace⟩ :=
    processServiceStateLoop_last_round hostId ssId rounds false hret
  obtain ⟨pre1, err1, hsingle, hpre1⟩ :=
    (processServiceStateLoop_reports hostId ssId [round] (attachedAfter false used)).1 hlast
  have husedQuiet := (processServiceStateLoop_reports hostId ssId used false).2 hused
  have hget : (processServiceStateLoop hostId ssId (attachedAfter false used)
      [round]).1.getLast? = some (.done ⟨ssId, err1⟩) := by
    rw [hsingle]
    simp
  obtain ⟨hid, htable⟩ := processServiceStateLoop_report hostId ssId
    (attachedAfter false used) round ⟨ssId, err1⟩ hlast hget
  refine ⟨(processServiceStateLoop hostId ssId false used).1 ++ pre1, ⟨ssId, err1⟩, ?_, ?_,
    hid, used, round, unused, hsplit, hused, htrace, htable⟩
  · show (processServiceStateLoop hostId ssId false rounds).1 = _
    rw [htrace, hsingle, List.append_assoc]
  · intro a ha
    rcases List.mem_append.1 ha with h | h
    · exact husedQuiet a h
    · exact hpre1 a h

/-- C23 amended, at a run of three rounds that starts the instance, sees the process
finish, starts it again and returns on shutdown. -/
theorem processServiceState_reports_once_witness :
    ∃ pre result, (processServiceState "h1" "i1"
        [roundStart (.zkEvent false), roundStart .procFinished, roundStart .shutdown]).1 =
          pre ++ [StateAction.done result] ∧
      (∀ a, a ∈ pre → a.isDone = false) ∧ result.id = "i1" :=
  match (processServiceState_reports_once "h1" "i1"
    [roundStart (.zkEvent false), roundStart .procFinished, roundStart .shutdown]).1
    (by decide) with
  | ⟨pre, result, htrace, hpre, hid, _⟩ => ⟨pre, result, htrace, hpre, hid⟩

end Serviced
